import Mathlib

/-!
Verification development for the blender-rig-graphviz repository.

The Python sources are shallowly embedded as Lean definitions:

* `analyzebones.py` — bone-name side parsing and symmetry classification
  (`parse_bone_name_stem`, `parse_sided_bone_name`,
  `symmetrically_match_bone_names`, `match_bone_parents`,
  `match_opposite_constraints`, `match_bone_constraints`, `classify_bone`);
* `analyzerigs.py` — the graph builder (`declare_entity_id`, `declare_cluster`,
  `declare_node`, `declare_edge`, the traversal functions,
  `declare_parent_relation_edge`, `declare_root_bone_style`,
  `is_unused_head_node`, `remove_node_if_unused_head`, `analyze_rig_graph`,
  `create_legend_data`);
* `renderdot.py` — the DOT text codec (`escape_quotes`,
  `create_dot_attr_list`, `create_dot_node`, `create_dot_cluster`,
  `create_dot_edge`, `create_dot_digraph`).

Python strings are modelled as `List Char` (`Name`); Python dicts as
insertion-ordered association lists with Python's update-in-place semantics
(`dictGet`/`dictSet`); Python sets as duplicate-free insertion lists
(`setAdd`). Blender's identity-keyed data is modelled by indexing a fixed
scene value: an object is identified by its index, a bone by object index and
bone index, and so on (`StructRef`).
-/

/-! ### Basic string model -/

/-- Python strings, modelled as lists of characters. -/
abbrev Name := List Char

/-- Conversion from Lean string literals for concrete examples. -/
def strn (s : String) : Name := s.data

/-- The separator characters appearing in the side-marker forms
`_r`, `.r`, `-r`, ` r` (and their `l`/`R`/`L` analogues) of
`analyzebones.py`. -/
def isSepChar (c : Char) : Bool := c = '_' || c = '.' || c = '-' || c = ' '

/-- A character-class test for exactly one character (a regex literal). -/
def eqc (a : Char) (c : Char) : Bool := c = a

/-- A character-class test for two characters (a regex class like `[gG]`). -/
def chClass (a b : Char) (c : Char) : Bool := c = a || c = b

/-- Match the characters at the front of `l` against a list of
character-class tests, returning the remainder on success.
This is the engine behind the anchored-regex and
`startswith`/`endswith` checks of `analyzebones.py`. -/
def matchFront : List (Char → Bool) → List Char → Option (List Char)
  | [], l => some l
  | _ :: _, [] => none
  | p :: ps, c :: cs => if p c then matchFront ps cs else none

/-- Match the characters at the end of `l` against a list of character-class
tests (an end-anchored regex search such as `RI[gG][hH][tT]$`), returning the
front remainder on success. -/
def matchEnd (pats : List (Char → Bool)) (l : List Char) : Option (List Char) :=
  (matchFront pats.reverse l.reverse).map List.reverse

/-! ### The side-marker patterns of `analyzebones.py`

Blender judges the case style of a side word by its first two letters only;
the regexes in the source spell this out. -/

/-- `RI[gG][hH][tT]` — an all-caps `RIGHT` variant. -/
def rightAllCaps : List (Char → Bool) :=
  [eqc 'R', eqc 'I', chClass 'g' 'G', chClass 'h' 'H', chClass 't' 'T']

/-- `Ri[gG][hH][tT]` — a capitalized `Right` variant. -/
def rightCapitalized : List (Char → Bool) :=
  [eqc 'R', eqc 'i', chClass 'g' 'G', chClass 'h' 'H', chClass 't' 'T']

/-- `r[iI][gG][hH][tT]` — a lowercase `right` variant. -/
def rightLowercase : List (Char → Bool) :=
  [eqc 'r', chClass 'i' 'I', chClass 'g' 'G', chClass 'h' 'H', chClass 't' 'T']

/-- `LE[fF][tT]` — an all-caps `LEFT` variant. -/
def leftAllCaps : List (Char → Bool) :=
  [eqc 'L', eqc 'E', chClass 'f' 'F', chClass 't' 'T']

/-- `Le[fF][tT]` — a capitalized `Left` variant. -/
def leftCapitalized : List (Char → Bool) :=
  [eqc 'L', eqc 'e', chClass 'f' 'F', chClass 't' 'T']

/-- `l[eE][fF][tT]` — a lowercase `left` variant. -/
def leftLowercase : List (Char → Bool) :=
  [eqc 'l', chClass 'e' 'E', chClass 'f' 'F', chClass 't' 'T']

/-- The one-letter side suffix forms `_x`, `.x`, `-x`, ` x`
(`endswith(('_r', '.r', '-r', ' r'))` in the source). -/
def sidedSuf (x : Char) : List (Char → Bool) := [isSepChar, eqc x]

/-- The one-letter side prefix forms `X_`, `X.`, `X-`, `X `
(`startswith(('R_', 'R.', 'R-', 'R '))` in the source). -/
def sidedPre (x : Char) : List (Char → Bool) := [eqc x, isSepChar]

/-- The mirror glyph used for bilateral display names (`mirror_symbol`). -/
def mirror_symbol : Char := '↔'

/-- Python's `s[:-n]`: drop the last `n` characters (empty when `n` exceeds
the length, matching Python slicing). -/
def dropEnd (l : Name) (n : Nat) : Name := l.take (l.length - n)

/-- A bone's side. -/
inductive Side
  | left
  | right
deriving DecidableEq, Repr

/-- The opposite polarity of a side. -/
def Side.opposite : Side → Side
  | .left => .right
  | .right => .left

/-- `parse_bone_name_stem` from `analyzebones.py`: the branch chain testing,
in the source's exact priority order, one-letter suffixes, word-form
suffixes, one-letter prefixes, then word-form prefixes. It returns the
side (if any), the opposite-sided stem, and the bilateral stem. -/
def parse_bone_name_stem (stem : Name) : Option Side × Name × Name :=
  if (matchEnd (sidedSuf 'r') stem).isSome then
    (some .right, dropEnd stem 1 ++ ['l'], dropEnd stem 1 ++ [mirror_symbol])
  else if (matchEnd (sidedSuf 'R') stem).isSome then
    (some .right, dropEnd stem 1 ++ ['L'], dropEnd stem 1 ++ [mirror_symbol])
  else if (matchEnd (sidedSuf 'l') stem).isSome then
    (some .left, dropEnd stem 1 ++ ['r'], dropEnd stem 1 ++ [mirror_symbol])
  else if (matchEnd (sidedSuf 'L') stem).isSome then
    (some .left, dropEnd stem 1 ++ ['R'], dropEnd stem 1 ++ [mirror_symbol])
  else if (matchEnd rightAllCaps stem).isSome then
    (some .right, dropEnd stem 5 ++ strn ("LEFT"),
      dropEnd stem 5 ++ [mirror_symbol])
  else if (matchEnd rightCapitalized stem).isSome then
    (some .right, dropEnd stem 5 ++ strn ("Left"),
      dropEnd stem 5 ++ [mirror_symbol])
  else if (matchEnd rightLowercase stem).isSome then
    (some .right, dropEnd stem 5 ++ strn ("left"),
      dropEnd stem 5 ++ [mirror_symbol])
  else if (matchEnd leftAllCaps stem).isSome then
    (some .left, dropEnd stem 4 ++ strn ("RIGHT"),
      dropEnd stem 4 ++ [mirror_symbol])
  else if (matchEnd leftCapitalized stem).isSome then
    (some .left, dropEnd stem 4 ++ strn ("Right"),
      dropEnd stem 4 ++ [mirror_symbol])
  else if (matchEnd leftLowercase stem).isSome then
    (some .left, dropEnd stem 4 ++ strn ("right"),
      dropEnd stem 4 ++ [mirror_symbol])
  else if (matchFront (sidedPre 'R') stem).isSome then
    (some .right, 'L' :: stem.drop 1, mirror_symbol :: stem.drop 1)
  else if (matchFront (sidedPre 'r') stem).isSome then
    (some .right, 'l' :: stem.drop 1, mirror_symbol :: stem.drop 1)
  else if (matchFront (sidedPre 'L') stem).isSome then
    (some .left, 'R' :: stem.drop 1, mirror_symbol :: stem.drop 1)
  else if (matchFront (sidedPre 'l') stem).isSome then
    (some .left, 'r' :: stem.drop 1, mirror_symbol :: stem.drop 1)
  else if (matchFront rightAllCaps stem).isSome then
    (some .right, strn ("LEFT") ++ stem.drop 5,
      mirror_symbol :: stem.drop 5)
  else if (matchFront rightCapitalized stem).isSome then
    (some .right, strn ("Left") ++ stem.drop 5,
      mirror_symbol :: stem.drop 5)
  else if (matchFront rightLowercase stem).isSome then
    (some .right, strn ("left") ++ stem.drop 5,
      mirror_symbol :: stem.drop 5)
  else if (matchFront leftAllCaps stem).isSome then
    (some .left, strn ("RIGHT") ++ stem.drop 4,
      mirror_symbol :: stem.drop 4)
  else if (matchFront leftCapitalized stem).isSome then
    (some .left, strn ("Right") ++ stem.drop 4,
      mirror_symbol :: stem.drop 4)
  else if (matchFront leftLowercase stem).isSome then
    (some .left, strn ("right") ++ stem.drop 4,
      mirror_symbol :: stem.drop 4)
  else
    (none, stem, stem)

/-- Digit test for the numeric-suffix regex `\.\d+$`. -/
def isDigitCh (c : Char) : Bool := '0' ≤ c && c ≤ '9'

/-- `get_name_numeric_suffix`: the suffix matching `\.\d+$`, or the empty
string. The regex match is the final dot followed only by digits, with at
least one digit. -/
def get_name_numeric_suffix (name : Name) : Name :=
  let r := name.reverse
  let ds := r.takeWhile isDigitCh
  if ds.isEmpty then []
  else
    match r.drop ds.length with
    | '.' :: _ => '.' :: ds.reverse
    | _ => []

/-- The result of parsing a sided bone name. -/
structure SidedParse where
  side : Side
  opposite : Name
  bilateral : Name
deriving DecidableEq, Repr

/-- `parse_sided_bone_name`: strip a numeric suffix, parse the stem, and
reappend the numeric suffix to the derived names. Returns `none` for
unsided names. -/
def parse_sided_bone_name (name : Name) : Option SidedParse :=
  let sfx := get_name_numeric_suffix name
  let stem := dropEnd name sfx.length
  match parse_bone_name_stem stem with
  | (some side, opp, bil) => some ⟨side, opp ++ sfx, bil ++ sfx⟩
  | (none, _, _) => none

/-- `symmetrically_match_bone_names`: equal unsided names match; unequal
names match only when both are sided, of opposite sides, and each is exactly
the derived opposite of the other. -/
def symmetrically_match_bone_names (n0 n1 : Name) : Bool :=
  let p0 := parse_sided_bone_name n0
  if n0 = n1 then p0.isNone
  else
    match p0, parse_sided_bone_name n1 with
    | some r0, some r1 =>
      ((r0.side = .left && r1.side = .right) ||
        (r0.side = .right && r1.side = .left)) &&
      decide (n0 = r1.opposite) && decide (r0.opposite = n1)
    | _, _ => false

/-! ### The scene model

Blender data reachable from the analysis code, with object identity
modelled by indices into a fixed scene list. -/

/-- An object's `type` as tested by `declare_destination_entities`
(`'ARMATURE'`, `'MESH'`, or any other scene-object type). -/
inductive ObjType
  | armature
  | mesh
  | other
deriving DecidableEq, Repr

/-- A constraint, as read through `getattr(c, 'target', None)` /
`getattr(c, 'subtarget', None)`: `target` is the index of the target scene
object (`none` when the attribute is missing or `None`), `subtarget` the
subtarget name string (`none` when the attribute is missing). -/
structure BoneConstraint where
  ctype : Name
  target : Option Nat
  subtarget : Option Name
  cname : Name
deriving DecidableEq, Repr

/-- A bone: its name, the index of its parent bone within the same armature
(if any), its `use_deform` flag, and its PoseBone's ordered constraint list
(the data reached through `pose.bones[bone.name].constraints`). -/
structure Bone where
  bname : Name
  parent : Option Nat
  use_deform : Bool
  constraints : List BoneConstraint
deriving DecidableEq, Repr

/-- A scene object: name, type, `data.bones` (armatures), object-level
constraints, `vertex_groups` (meshes), and the object-parent data read by
`declare_parent_relation_edge` (`parent`, `parent_type`, `parent_bone`). -/
structure BObject where
  oname : Name
  otype : ObjType
  bones : List Bone
  constraints : List BoneConstraint
  vertex_groups : List Name
  parent : Option Nat
  parent_type_is_bone : Bool
  parent_bone : Name
deriving DecidableEq, Repr

/-- A scene: the list of objects, indexed by identity. -/
abbrev Scene := List BObject

/-- A default object, used where Python would dereference an index that the
calling code guarantees to be valid. -/
def dfltObj : BObject := ⟨[], .other, [], [], [], none, false, []⟩

/-- The object at index `oi` of the scene. -/
def objAt (scene : Scene) (oi : Nat) : BObject := scene.getD oi dfltObj

/-- A default bone, used like `dfltObj`. -/
def dfltBone : Bone := ⟨[], none, false, []⟩

/-- The bone at index `bi` of object `oi`. -/
def boneAt (scene : Scene) (oi bi : Nat) : Bone :=
  (objAt scene oi).bones.getD bi dfltBone

/-- Name-keyed collection lookup (`collection[name]` in Blender returns the
first member with that name): the index of the first bone named `nm`. -/
def boneIdxByName (o : BObject) (nm : Name) : Option Nat :=
  o.bones.findIdx? (fun b => b.bname = nm)

/-- `pose.bones[nm].constraints`: the constraint list of the first bone named
`nm` (empty when absent; the source only looks up names it knows exist). -/
def poseConstraintsByName (o : BObject) (nm : Name) : List BoneConstraint :=
  match o.bones.find? (fun b => b.bname = nm) with
  | some b => b.constraints
  | none => []

/-! ### The symmetry classifier (`analyzebones.py`) -/

/-- `match_bone_parents`: both bones lack a parent, or their parents' names
are a symmetric match (equal unsided, or opposite-sided pairs). -/
def match_bone_parents (scene : Scene) (oi : Nat) (b0 b1 : Bone) : Bool :=
  match b0.parent, b1.parent with
  | none, none => true
  | none, some _ => false
  | some _, none => false
  | some p0, some p1 =>
    symmetrically_match_bone_names
      (boneAt scene oi p0).bname (boneAt scene oi p1).bname

/-- `match_opposite_constraints`: same type, identity-equal targets, and
matching subtargets — identical strings when the target is an outside scene
object, a symmetric-name match when the target is the home armature itself.
A missing subtarget attribute is compared as a blank name (the source would
only reach that comparison with string subtargets). -/
def match_opposite_constraints (homeOi : Nat) (c0 c1 : BoneConstraint) :
    Bool :=
  if c0.ctype ≠ c1.ctype then false
  else if c0.target ≠ c1.target then false
  else if c0.target ≠ some homeOi then decide (c0.subtarget = c1.subtarget)
  else
    symmetrically_match_bone_names
      (c0.subtarget.getD []) (c1.subtarget.getD [])

/-- `match_bone_constraints`: the two bones' PoseBone constraint lists have
equal length and match pairwise via `match_opposite_constraints`. -/
def match_bone_constraints (scene : Scene) (oi : Nat) (b0 b1 : Bone) : Bool :=
  let cs0 := poseConstraintsByName (objAt scene oi) b0.bname
  let cs1 := poseConstraintsByName (objAt scene oi) b1.bname
  if cs0.length ≠ cs1.length then false
  else (cs0.zip cs1).all (fun p => match_opposite_constraints oi p.1 p.2)

/-- The four bone symmetry classes of `classify_bone`. -/
inductive BoneType
  | asymmetric
  | left_symmetric
  | right_symmetric
  | antisymmetric
deriving DecidableEq, Repr

/-- `classify_bone`: parse the bone's name; unsided names are `asymmetric`;
sided names whose derived opposite is absent, or present but with mismatched
parents or constraints, are `antisymmetric`; otherwise the bone is
`left_symmetric`/`right_symmetric` per its own side. Returns the class with
the derived opposite and bilateral names (absent for `asymmetric`). -/
def classify_bone (scene : Scene) (oi bi : Nat) :
    BoneType × Option Name × Option Name :=
  let bone := boneAt scene oi bi
  let o := objAt scene oi
  match parse_sided_bone_name bone.bname with
  | none => (.asymmetric, none, none)
  | some r =>
    if o.bones.any (fun b => b.bname = r.opposite) then
      let obone := (o.bones.find? (fun b => b.bname = r.opposite)).getD dfltBone
      if match_bone_parents scene oi bone obone &&
          match_bone_constraints scene oi bone obone then
        if r.side = .left then
          (.left_symmetric, some r.opposite, some r.bilateral)
        else
          (.right_symmetric, some r.opposite, some r.bilateral)
      else
        (.antisymmetric, some r.opposite, some r.bilateral)
    else
      (.antisymmetric, some r.opposite, some r.bilateral)

/-! ### Dict and set models (`analyzerigs.py` state)

Python dicts are insertion-ordered with update-in-place; Python sets are
modelled as duplicate-free lists with membership-checked insertion. -/

/-- Python `dict.get`. -/
def dictGet {α β : Type} [DecidableEq α] : List (α × β) → α → Option β
  | [], _ => none
  | (k, v) :: rest, k2 => if k = k2 then some v else dictGet rest k2

/-- Python `dict[k] = v`: replace in place, or append a new entry. -/
def dictSet {α β : Type} [DecidableEq α] : List (α × β) → α → β → List (α × β)
  | [], k, v => [(k, v)]
  | (k2, v2) :: rest, k, v =>
    if k2 = k then (k, v) :: rest else (k2, v2) :: dictSet rest k v

/-- Python `del dict[k]`. -/
def dictDel {α β : Type} [DecidableEq α] (d : List (α × β)) (k : α) :
    List (α × β) :=
  d.filter (fun p => ¬(p.1 = k))

/-- Python `set.add`. -/
def setAdd (s : List Nat) (n : Nat) : List Nat :=
  if n ∈ s then s else s ++ [n]

/-- Python `set.remove` (total model; call sites guarantee membership). -/
def setRemove (s : List Nat) (n : Nat) : List Nat :=
  s.filter (fun m => ¬(m = n))

/-- Identity of a Blender struct used as a dictionary key: a scene object,
a bone, a vertex group, or a constraint (keyed by its owner and position). -/
inductive StructRef
  | obj (oi : Nat)
  | bone (oi bi : Nat)
  | vgroup (oi vgi : Nat)
  | constraintOf (oi : Nat) (bi : Option Nat) (ci : Nat)
deriving DecidableEq, Repr

/-- A value of `entity_categories_dict`: Python stores either a tuple of
category-name strings or (for head nodes and vertex groups) a bare string.
The distinction is observable: `in` is membership on tuples but substring
search on strings, and iteration yields characters for strings. -/
inductive Cats
  | tup (l : List Name)
  | str (s : Name)
deriving DecidableEq, Repr

/-- Python substring test `x in s` on strings. -/
def isSubstring (x s : Name) : Bool :=
  (List.range (s.length + 1)).any (fun i => List.isPrefixOf x (s.drop i))

/-- Python `x in cats`: element membership for tuples, substring search for
strings. -/
def catMem (x : Name) : Cats → Bool
  | .tup l => l.contains x
  | .str s => isSubstring x s

/-- Python iteration over a categories value: tuple elements, or the
characters of a string (each a one-character string). -/
def catIter : Cats → List Name
  | .tup l => l
  | .str s => s.map (fun c => [c])

/-- The graph-data dictionary built by `initialize_graph_data`:
free nodes, cluster membership, edge tuples, labels, and categories.
Labels store `Option Name` because `declare_cluster` registers a label
unconditionally, even when it is `None`. -/
structure GraphData where
  free_nodes : List Nat
  cluster_nodes : List (Nat × List Nat)
  edge_tuples : List (Nat × (Nat × Nat))
  labels : List (Nat × Option Name)
  categories : List (Nat × Cats)
deriving DecidableEq, Repr

/-- `initialize_graph_data`. -/
def initialize_graph_data : GraphData := ⟨[], [], [], [], []⟩

/-- The mutable state threaded through one `analyze_rig_graph` build:
the fresh-ID counter (`itertools.count`), `struct_entity_id_dict`,
`struct_cluster_id_dict`, and the graph data. -/
structure BuildState where
  freshId : Nat
  entityIds : List (StructRef × Nat)
  clusterIds : List (StructRef × Nat)
  graph : GraphData
deriving DecidableEq, Repr

/-- `declare_entity_id` on one key-ID dict: reuse the registered ID, or
draw a fresh one (registering it only when a key is given). Returns the ID,
the updated dict, and the updated counter. -/
def declare_entity_id (d : List (StructRef × Nat)) (fresh : Nat)
    (key : Option StructRef) : Nat × List (StructRef × Nat) × Nat :=
  match key with
  | none => (fresh, d, fresh + 1)
  | some k =>
    match dictGet d k with
    | some n => (n, d, fresh)
    | none => (fresh, dictSet d k fresh, fresh + 1)

/-- Python truthiness of an optional string (`if subtarget_name:`). -/
def optTruthy (s : Option Name) : Bool :=
  match s with
  | some l => !l.isEmpty
  | none => false

/-- Register an optional value: Python's pattern of assigning into a dict
only when the value is present (the label and categories registrations of
the declare functions). -/
def optDictSet {α β : Type} [DecidableEq α] (d : List (α × β)) (k : α) :
    Option β → List (α × β)
  | some v => dictSet d k v
  | none => d

/-- The default-label rule of declare_cluster: an absent label defaults to
the object's name when an object is given. -/
def clusterDefaultLabel (scene : Scene) (label : Option Name)
    (objRef : Option Nat) : Option Name :=
  match label, objRef with
  | none, some oi => some (objAt scene oi).oname
  | l, _ => l

/-- `declare_cluster`: get or create the cluster for a scene object (or an
anonymous cluster when `objRef` is `none`), ensure its member set exists,
and register its label (the object's name by default). -/
def declare_cluster (scene : Scene) (st : BuildState) (objRef : Option Nat)
    (label : Option Name) : Nat × BuildState :=
  let (cid, cdict, fresh) :=
    declare_entity_id st.clusterIds st.freshId (objRef.map .obj)
  let members := (dictGet st.graph.cluster_nodes cid).getD []
  let label2 := clusterDefaultLabel scene label objRef
  let g := st.graph
  let g :=
    { g with
      cluster_nodes := dictSet g.cluster_nodes cid members,
      labels := dictSet g.labels cid label2 }
  (cid, { st with clusterIds := cdict, freshId := fresh, graph := g })

/-- `declare_node`: get or create the node for a struct, add it to the given
cluster's member set (or to the free nodes), and register any label and
categories. -/
def declare_node (st : BuildState) (key : Option StructRef)
    (cluster_id : Option Nat) (label : Option Name) (cats : Option Cats) :
    Nat × BuildState :=
  let (nid, edict, fresh) := declare_entity_id st.entityIds st.freshId key
  let g := st.graph
  let g :=
    match cluster_id with
    | some cid =>
      { g with
        cluster_nodes :=
          dictSet g.cluster_nodes cid
            (setAdd ((dictGet g.cluster_nodes cid).getD []) nid) }
    | none => { g with free_nodes := setAdd g.free_nodes nid }
  let g :=
    { g with labels := optDictSet g.labels nid (label.map some) }
  let g :=
    { g with categories := optDictSet g.categories nid cats }
  (nid, { st with entityIds := edict, freshId := fresh, graph := g })

/-- `declare_edge`: get or create the edge entity for a struct (or an
anonymous edge), register its endpoint tuple, label, and categories. -/
def declare_edge (st : BuildState) (key : Option StructRef)
    (origin destination : Nat) (label : Option Name) (cats : Option Cats) :
    Nat × BuildState :=
  let (eid, edict, fresh) := declare_entity_id st.entityIds st.freshId key
  let g := st.graph
  let g := { g with edge_tuples := dictSet g.edge_tuples eid (origin, destination) }
  let g :=
    { g with labels := optDictSet g.labels eid (label.map some) }
  let g :=
    { g with categories := optDictSet g.categories eid cats }
  (eid, { st with entityIds := edict, freshId := fresh, graph := g })

/-- `declare_free_node`: a clusterless node labeled with the object's name,
in the `'free'` category. -/
def declare_free_node (scene : Scene) (st : BuildState) (oi : Nat) :
    Nat × BuildState :=
  declare_node st (some (.obj oi)) none (some (objAt scene oi).oname)
    (some (.tup [strn ("free")]))

/-- `declare_head_node`: declare the object's cluster, then a bullet-labeled
head node inside it with the given categories value. -/
def declare_head_node (scene : Scene) (st : BuildState) (oi : Nat)
    (cats : Cats) : Nat × BuildState :=
  let (cid, st) := declare_cluster scene st (some oi) none
  declare_node st (some (.obj oi)) (some cid) (some (strn ("•"))) (some cats)

/-- The category-name string of a bone type, as stored in node categories. -/
def boneTypeName : BoneType → Name
  | .asymmetric => strn ("asymmetric")
  | .left_symmetric => strn ("left_symmetric")
  | .right_symmetric => strn ("right_symmetric")
  | .antisymmetric => strn ("antisymmetric")

/-- `declare_plain_bone_node`: skip excluded bones and (when
`right_symmetric_bones_are_excluded`) right-sided symmetric bones; otherwise
declare the armature's cluster and a bone node inside it, labeled with the
bilateral name for left-symmetric bones and the bone's own name otherwise,
categorized by `('bone', deforming-or-empty, bone_type)`. -/
def declare_plain_bone_node (scene : Scene) (st : BuildState) (oi bi : Nat)
    (rsExcluded : Bool) (excl : Nat → Nat → Bool) :
    Option Nat × BuildState :=
  if excl oi bi then (none, st)
  else
    let r := classify_bone scene oi bi
    if rsExcluded && r.1 = .right_symmetric then (none, st)
    else
      let (cid, st) := declare_cluster scene st (some oi) none
      let bone := boneAt scene oi bi
      let label :=
        if r.1 = .left_symmetric then (r.2.2).getD bone.bname else bone.bname
      let cats : Cats :=
        .tup [strn ("bone"),
          (if bone.use_deform then strn ("deforming") else []),
          boneTypeName r.1]
      let (nid, st) :=
        declare_node st (some (.bone oi bi)) (some cid) (some label)
          (some cats)
      (some nid, st)

/-- `declare_armature_entities` in its constraint-destination form
(`constraints_are_included = False`, `contained_bones_are_included = False`):
a truthy subtarget resolves to that bone's node; otherwise the armature's
head node is declared. A subtarget naming no bone would raise in the source
and is modelled as declaring nothing. -/
def declare_armature_entities_dest (scene : Scene) (st : BuildState)
    (oi : Nat) (subtarget : Option Name) (rsExcluded : Bool)
    (excl : Nat → Nat → Bool) : Option Nat × BuildState :=
  if optTruthy subtarget then
    match boneIdxByName (objAt scene oi) (subtarget.getD []) with
    | some bi => declare_plain_bone_node scene st oi bi rsExcluded excl
    | none => (none, st)
  else
    let (hid, st) :=
      declare_head_node scene st oi (.str (strn ("armature_head")))
    (some hid, st)

/-- `declare_mesh_entities` in its constraint-destination form: the mesh's
cluster and head node are always declared; a truthy subtarget resolves to a
vertex-group node in the mesh's cluster, otherwise the head node is the
destination. A subtarget naming no vertex group would raise in the source
and is modelled as declaring nothing further. -/
def declare_mesh_entities_dest (scene : Scene) (st : BuildState) (oi : Nat)
    (subtarget : Option Name) : Option Nat × BuildState :=
  let (cid, st) := declare_cluster scene st (some oi) none
  let (hid, st) :=
    declare_head_node scene st oi (.str (strn ("mesh_head")))
  if optTruthy subtarget then
    match (objAt scene oi).vertex_groups.findIdx?
        (fun vg => vg = subtarget.getD []) with
    | some vgi =>
      let (nid, st) :=
        declare_node st (some (.vgroup oi vgi)) (some cid)
          (some (subtarget.getD [])) (some (.str (strn ("vertex_group"))))
      (some nid, st)
    | none => (none, st)
  else
    (some hid, st)

/-- `declare_destination_entities` in its constraint-destination form:
dispatch on the target object's type; non-armature, non-mesh objects get a
free node. -/
def declare_destination_entities_dest (scene : Scene) (st : BuildState)
    (oi : Nat) (subtarget : Option Name) (rsExcluded : Bool)
    (excl : Nat → Nat → Bool) : Option Nat × BuildState :=
  match (objAt scene oi).otype with
  | .armature => declare_armature_entities_dest scene st oi subtarget rsExcluded excl
  | .mesh => declare_mesh_entities_dest scene st oi subtarget
  | .other =>
    let (nid, st) := declare_free_node scene st oi
    (some nid, st)

/-- `declare_constraint_edges`: walk the constraint list, resolving each
constraint's destination and adding a `'constraint'` edge to it. The source
executes `break` — not `continue` — when a constraint has no target, so the
remaining constraints of the list are abandoned. The right-sided-symmetric
exclusion is applied only when the constraints belong to a bone of
`home` and the target is that same armature object. `oi`/`obi` identify the
constraints' owner (for the constraints' identity keys), `ci` the index of
the first constraint of `cs` within the owner's list. -/
def declare_constraint_edges (scene : Scene) (st : BuildState) (origin : Nat)
    (oi : Nat) (obi : Option Nat) (cs : List BoneConstraint) (ci : Nat)
    (home : Option Nat) (excl : Nat → Nat → Bool) : BuildState :=
  match cs with
  | [] => st
  | c :: rest =>
    match c.target with
    | none => st
    | some ti =>
      let rsExcluded := home.isSome && home = some ti
      let (dst, st) :=
        declare_destination_entities_dest scene st ti c.subtarget rsExcluded
          excl
      let st :=
        match dst with
        | some d =>
          (declare_edge st (some (.constraintOf oi obi ci)) origin d
            (some c.cname) (some (.tup [strn ("constraint")]))).2
        | none => st
      declare_constraint_edges scene st origin oi obi rest (ci + 1) home excl

/-- `declare_constrained_bone_node`: declare the bone's node, then an edge
for each of its PoseBone constraints (with the bone's armature as the home
object for the right-sided exclusion). -/
def declare_constrained_bone_node (scene : Scene) (st : BuildState)
    (oi bi : Nat) (rsExcluded : Bool) (excl : Nat → Nat → Bool) :
    Option Nat × BuildState :=
  let (nid, st) := declare_plain_bone_node scene st oi bi rsExcluded excl
  match nid with
  | none => (none, st)
  | some n =>
    let cs := poseConstraintsByName (objAt scene oi) (boneAt scene oi bi).bname
    let st :=
      declare_constraint_edges scene st n oi (some bi) cs 0 (some oi) excl
    (some n, st)

/-- `declare_armature_entities` in its root form (`constraints_are_included
= True`, `contained_bones_are_included = True`, as `analyze_rig_graph`
invokes it with `subtarget_name = None`): declare the armature's head node,
its object-level constraint edges (with no home object), and a constrained
node for every contained bone. -/
def declare_armature_entities_root (scene : Scene) (st : BuildState)
    (oi : Nat) (rsExcluded : Bool) (excl : Nat → Nat → Bool) :
    Option Nat × BuildState :=
  let (hid, st) :=
    declare_head_node scene st oi (.str (strn ("armature_head")))
  let st :=
    declare_constraint_edges scene st hid oi none (objAt scene oi).constraints
      0 none excl
  let st :=
    (List.range (objAt scene oi).bones.length).foldl
      (fun st bi => (declare_constrained_bone_node scene st oi bi rsExcluded excl).2)
      st
  (some hid, st)

/-- `declare_mesh_entities` in its root form (`constraints_are_included =
True`, `subtarget_name = None`): cluster, head node, and the mesh's
object-level constraint edges. -/
def declare_mesh_entities_root (scene : Scene) (st : BuildState) (oi : Nat)
    (excl : Nat → Nat → Bool) : Option Nat × BuildState :=
  let (_, st) := declare_cluster scene st (some oi) none
  let (hid, st) :=
    declare_head_node scene st oi (.str (strn ("mesh_head")))
  let st :=
    declare_constraint_edges scene st hid oi none (objAt scene oi).constraints
      0 none excl
  (some hid, st)

/-- `declare_destination_entities` in its root form: dispatch on object
type; other object types get a free node plus their constraint edges. -/
def declare_destination_entities_root (scene : Scene) (st : BuildState)
    (oi : Nat) (rsExcluded : Bool) (excl : Nat → Nat → Bool) :
    Option Nat × BuildState :=
  match (objAt scene oi).otype with
  | .armature => declare_armature_entities_root scene st oi rsExcluded excl
  | .mesh => declare_mesh_entities_root scene st oi excl
  | .other =>
    let (nid, st) := declare_free_node scene st oi
    let st :=
      declare_constraint_edges scene st nid oi none
        (objAt scene oi).constraints 0 none excl
    (some nid, st)

/-- The `parent` attribute of a struct, as read by `getattr(blender_struct,
'parent', None)`: bones have bone parents, objects have object parents,
vertex groups and constraints have no such attribute. -/
def parentStructOf (scene : Scene) (r : StructRef) : Option StructRef :=
  match r with
  | .bone oi bi => ((boneAt scene oi bi).parent).map (fun p => .bone oi p)
  | .obj oi => ((objAt scene oi).parent).map .obj
  | .vgroup _ _ => none
  | .constraintOf _ _ _ => none

/-- `declare_parent_relation_edge`: add an unlabeled `'parent'` edge from a
registered struct's node to its parent's node — preferring the specific
parent bone's node when the object-parent relationship targets a bone — but
only when that parent already has a node in the graph. A registered
`parent_bone` name that names no bone would raise in the source and is
modelled as no parent-bone node. -/
def declare_parent_relation_edge (scene : Scene) (st : BuildState)
    (r : StructRef) : BuildState :=
  match dictGet st.entityIds r with
  | none => st
  | some n =>
    let parentStruct := parentStructOf scene r
    let targetsBone : Bool :=
      match r, parentStruct with
      | .obj oi, some (.obj poi) =>
        decide ((objAt scene poi).otype = .armature) &&
          (objAt scene oi).parent_type_is_bone
      | _, _ => false
    let parentBoneRef : Option StructRef :=
      if targetsBone then
        match r, parentStruct with
        | .obj oi, some (.obj poi) =>
          (boneIdxByName (objAt scene poi) (objAt scene oi).parent_bone).map
            (fun pbi => .bone poi pbi)
        | _, _ => none
      else none
    let parentBoneNode := parentBoneRef.bind (fun pr => dictGet st.entityIds pr)
    let parentNode :=
      match parentBoneNode with
      | some pn => some pn
      | none => parentStruct.bind (fun pr => dictGet st.entityIds pr)
    match parentNode with
    | some pn =>
      (declare_edge st none n pn none (some (.tup [strn ("parent")]))).2
    | none => st

/-- `is_bone_entity`: the entity has `'bone'` among its categories (the
source indexes `entity_categories_dict` directly; every key it is invoked on
has categories, so a missing entry is modelled as an empty tuple). -/
def is_bone_entity (g : GraphData) (n : Nat) : Bool :=
  catMem (strn ("bone")) ((dictGet g.categories n).getD (.tup []))

/-- `declare_root_bone_style`: append the `'root'` category to every bone
node whose struct has no parent. Python's splat on a string value would
yield its characters; that branch is unreachable because string-categorized
entities are never `'bone'` entities. -/
def declare_root_bone_style (scene : Scene) (st : BuildState)
    (r : StructRef) : BuildState :=
  match dictGet st.entityIds r with
  | none => st
  | some n =>
    if (parentStructOf scene r).isNone && is_bone_entity st.graph n then
      let cats := (dictGet st.graph.categories n).getD (.tup [])
      let newCats : Cats :=
        match cats with
        | .tup l => .tup (l ++ [strn ("root")])
        | .str s => .tup (s.map (fun c => [c]) ++ [strn ("root")])
      { st with
        graph :=
          { st.graph with
            categories := dictSet st.graph.categories n newCats } }
    else st

/-- `is_unused_head_node`: the node exists, carries the `'head'` category,
is not the sole member of its cluster, and participates in no edge. The
source skips the sole-member test when the cluster has no member entry. -/
def is_unused_head_node (g : GraphData) (nid cid : Option Nat) : Bool :=
  match nid, cid with
  | some n, some c =>
    if !catMem (strn ("head")) ((dictGet g.categories n).getD (.tup [])) then
      false
    else
      let lenOk :=
        match dictGet g.cluster_nodes c with
        | some ms => !(ms.length = 1)
        | none => true
      if !lenOk then false
      else g.edge_tuples.all (fun p => !(n = p.2.1 || n = p.2.2))
  | _, _ => false

/-- `remove_node_if_unused_head`: remove the struct's node from its cluster
and drop its entity registration when `is_unused_head_node` holds. -/
def remove_node_if_unused_head (st : BuildState) (r : StructRef) :
    BuildState :=
  let cid := dictGet st.clusterIds r
  let nid := dictGet st.entityIds r
  if is_unused_head_node st.graph nid cid then
    match nid, cid with
    | some n, some c =>
      let g := st.graph
      let members := (dictGet g.cluster_nodes c).getD []
      { st with
        graph :=
          { g with
            cluster_nodes := dictSet g.cluster_nodes c (setRemove members n) },
        entityIds := dictDel st.entityIds r }
    | _, _ => st
  else st

/-- `analyze_rig_graph`: declare every root object (with constraints and
contained bones included and right-sided symmetric bones excluded), then add
parent-relation edges for every registered struct, then mark parentless
bones as roots, then prune unused head nodes of every clustered object.
The passes iterate dict snapshots; the source iterates the live dicts, which
the passes do not extend. -/
def analyze_rig_graph (scene : Scene) (roots : List Nat)
    (excl : Nat → Nat → Bool) : GraphData :=
  let st : BuildState := ⟨0, [], [], initialize_graph_data⟩
  let st :=
    roots.foldl
      (fun st oi => (declare_destination_entities_root scene st oi true excl).2)
      st
  let st := st.entityIds.foldl
    (fun acc p => declare_parent_relation_edge scene acc p.1) st
  let st := st.entityIds.foldl
    (fun acc p => declare_root_bone_style scene acc p.1) st
  let st := st.clusterIds.foldl
    (fun acc p => remove_node_if_unused_head acc p.1) st
  st.graph

/-- `create_legend_data`: the fixed explanatory legend graph. -/
def create_legend_data : GraphData :=
  let st : BuildState := ⟨0, [], [], initialize_graph_data⟩
  let (cid, st) := declare_cluster [] st none (some (strn ("Legend")))
  let (parentN, st) :=
    declare_node st none (some cid) (some (strn ("Parent"))) none
  let (childN, st) :=
    declare_node st none (some cid) (some (strn ("Child"))) none
  let st :=
    (declare_edge st none childN parentN none
      (some (.tup [strn ("parent")]))).2
  let (subjN, st) :=
    declare_node st none (some cid) (some (strn ("Subject"))) none
  let (targN, st) :=
    declare_node st none (some cid) (some (strn ("Target"))) none
  let st :=
    (declare_edge st none subjN targN (some (strn ("Constraint")))
      (some (.tup [strn ("constraint")]))).2
  let (defN, st) :=
    declare_node st none (some cid) (some (strn ("Deforming Bone")))
      (some (.tup [strn ("bone"), strn ("deforming")]))
  let (rootN, st) :=
    declare_node st none (some cid) (some (strn ("Root")))
      (some (.tup [strn ("bone"), strn ("root")]))
  let st :=
    (declare_edge st none defN rootN none
      (some (.tup [strn ("invisible")]))).2
  let (symN, st) :=
    declare_node st none (some cid)
      (some (strn ("Symmetric Bone.") ++ [mirror_symbol]))
      (some (.tup [strn ("bone")]))
  let (antiN, st) :=
    declare_node st none (some cid) (some (strn ("Symmetry-Breaking Bone")))
      (some (.tup [strn ("bone"), strn ("antisymmetric")]))
  let st :=
    (declare_edge st none symN antiN none
      (some (.tup [strn ("invisible")]))).2
  st.graph

/-! ### The DOT codec (`renderdot.py`)

`create_dot_cluster` iterates `cluster_nodes_dict.get(cluster_id)`, which in
Python raises when the key is missing; that single failure point is modelled
with `Option`. Everything else in the codec is total. Braces in DOT text are
written with `\x7b`/`\x7d` escapes. -/

/-- The module-level `escape_translation_table`: a Python dict whose keys
are the one-character strings `'"'` and `'\\'`. Python dict keys may be of
any hashable type, modelled here as `Nat ⊕ Name` (integer or string
keys); this table uses only string keys. -/
def escape_translation_table : List ((Nat ⊕ Name) × Name) :=
  [(Sum.inr ['"'], ['\\', '"']), (Sum.inr ['\\'], ['\\', '\\'])]

/-- Python's `str.translate(table)`: each character is looked up in the
table **by its Unicode ordinal** (an `int` key); characters with no entry
are kept. (A table intended to remap characters must therefore use ordinal
keys, e.g. via `str.maketrans`.) -/
def str_translate (table : List ((Nat ⊕ Name) × Name)) (s : Name) : Name :=
  s.flatMap (fun c =>
    match dictGet table (Sum.inl c.toNat) with
    | some r => r
    | none => [c])

/-- `escape_quotes`: `str(input).translate(escape_translation_table)`.
Because the table's keys are strings while `str.translate` looks characters
up by ordinal, no character ever matches an entry. -/
def escape_quotes (s : Name) : Name :=
  str_translate escape_translation_table s

/-- Python `str(n)` for the integer entity IDs interpolated into DOT text. -/
def natName (n : Nat) : Name := (Nat.repr n).data

/-- Python `', '.join(parts)`. -/
def joinSep (sep : Name) : List Name → Name
  | [] => []
  | [x] => x
  | x :: xs => x ++ sep ++ joinSep sep xs

/-- `entity_label_dict.get(entity_id)`: `none` both for a missing entry and
for a stored `None`. -/
def labelOf (g : GraphData) (n : Nat) : Option Name :=
  match dictGet g.labels n with
  | some v => v
  | none => none

/-- The style configuration: `category_attrs_dict`, a mapping from category
name to an insertion-ordered attribute dictionary. -/
abbrev CatAttrs := List (Name × List (Name × Name))

/-- `create_dot_attr_list`: the label attribute (when the label is truthy),
then every key/value pair of every category's style dict, in category order;
empty when there are no attributes. -/
def create_dot_attr_list (g : GraphData) (catAttrs : CatAttrs) (eid : Nat) :
    Name :=
  let label := labelOf g eid
  let cats := (dictGet g.categories eid).getD (.tup [])
  let labelAttrs : List Name :=
    match label with
    | some l =>
      if l.isEmpty then []
      else [strn ("label=\"") ++ escape_quotes l ++ ['"']]
    | none => []
  let catAttrList : List Name :=
    (catIter cats).flatMap (fun cn =>
      ((dictGet catAttrs cn).getD []).map (fun kv =>
        ['"'] ++ escape_quotes kv.1 ++ ['"', '=', '"'] ++
          escape_quotes kv.2 ++ ['"']))
  let attrs := labelAttrs ++ catAttrList
  if attrs.isEmpty then []
  else strn (" [") ++ joinSep (strn (", ")) attrs ++ [']']

/-- `create_dot_node`: `"id" [attrs];`. -/
def create_dot_node (g : GraphData) (catAttrs : CatAttrs) (nid : Nat) :
    Name :=
  ['"'] ++ escape_quotes (natName nid) ++ ['"'] ++
    create_dot_attr_list g catAttrs nid ++ [';']

/-- The cluster-label interpolation `{entity_label_dict.get(cluster_id,
"")}`: missing entries render as the empty string, a stored `None` renders
as Python's `"None"`, and a stored string renders verbatim (unescaped). -/
def clusterLabelText (g : GraphData) (cid : Nat) : Name :=
  match dictGet g.labels cid with
  | none => []
  | some none => strn ("None")
  | some (some l) => l

/-- `create_dot_cluster`: the subgraph statement with its label and one node
statement per member. `none` models the `TypeError` Python raises when the
cluster has no member entry. -/
def create_dot_cluster (g : GraphData) (catAttrs : CatAttrs) (cid : Nat) :
    Option Name :=
  match dictGet g.cluster_nodes cid with
  | none => none
  | some ms =>
    some (strn ("subgraph \"cluster_") ++ escape_quotes (natName cid) ++
      strn ("\" \x7b fontsize=24; label=\"") ++ clusterLabelText g cid ++
      strn ("\"; ") ++
      joinSep [' '] (ms.map (create_dot_node g catAttrs)) ++
      strn (" \x7d"))

/-- The cluster-statement comprehension of `create_dot_digraph`: one
statement per cluster key, failing (like the Python iteration) as soon as a
cluster lacks a member entry. -/
def renderClusters (g : GraphData) (catAttrs : CatAttrs) :
    List Nat → Option (List Name)
  | [] => some []
  | c :: rest =>
    match create_dot_cluster g catAttrs c, renderClusters g catAttrs rest with
    | some x, some xs => some (x :: xs)
    | _, _ => none

/-- `create_dot_edge`: `"origin" -> "destination" [attrs];`. -/
def create_dot_edge (g : GraphData) (catAttrs : CatAttrs)
    (eid origin destination : Nat) : Name :=
  ['"'] ++ escape_quotes (natName origin) ++ strn ("\" -> \"") ++
    escape_quotes (natName destination) ++ ['"'] ++
    create_dot_attr_list g catAttrs eid ++ [';']

/-- `create_dot_digraph`: preamble with graph/node/edge defaults and the
title, then free-node statements, cluster statements, and edge statements.
The `fontname` in the node and edge default blocks is interpolated without
`escape_quotes` (the graph block's `fontname` is escaped). -/
def create_dot_digraph (g : GraphData) (catAttrs : CatAttrs)
    (title fontname rankdir : Name) : Option Name :=
  let preamble :=
    strn ("digraph \x7b graph [rankdir=\"") ++ escape_quotes rankdir ++
    strn ("\" style=rounded color=gray75 fontname=\"") ++
    escape_quotes fontname ++
    strn ("\" fontsize=10]; node [shape=plaintext style=rounded fontname=\"") ++
    fontname ++
    strn ("\"]; edge [fontsize=10 fontname=\"") ++ fontname ++
    strn ("\"]; label=\"") ++ escape_quotes title ++ strn ("\"; ")
  let freeParts := g.free_nodes.map (create_dot_node g catAttrs)
  let edgeParts :=
    g.edge_tuples.map (fun p => create_dot_edge g catAttrs p.1 p.2.1 p.2.2)
  match renderClusters g catAttrs (g.cluster_nodes.map Prod.fst) with
  | none => none
  | some clusterParts =>
    some (preamble ++ joinSep [' '] (freeParts ++ clusterParts ++ edgeParts) ++
      strn (" \x7d"))

/-! ## Shared lemmas about the dict and set models -/

/-! ### Fixtures and invariant-proof definitions -/

/-- A one-node graph whose node label contains a double quote. -/
def gQuoteLabel : GraphData :=
  ⟨[1], [], [], [(1, some (strn ("he says \"hi\"")))], []⟩

/-- A one-object scene (a non-armature, non-mesh object) serving as a
constraint target. -/
def sceneOneOther : Scene :=
  [⟨strn ("T"), .other, [], [], [], none, false, []⟩]

/-- A constraint with no target attribute (for example Limit Rotation). -/
def constraintNoTarget : BoneConstraint :=
  ⟨strn ("LIMIT_ROTATION"), none, none, strn ("c0")⟩

/-- A constraint targeting object 0. -/
def constraintWithTarget : BoneConstraint :=
  ⟨strn ("COPY_ROTATION"), some 0, none, strn ("c1")⟩

/-- A build state as it stands when an origin node 0 has been declared and
the next fresh ID is 1. -/
def stAfterOrigin : BuildState :=
  ⟨1, [(.bone 0 0, 0)], [], ⟨[], [], [], [], []⟩⟩

/-- A structure owning sub-parts Hand.L and Hand.R, both with empty
constraint lists and no parent. -/
def sceneHandsEqual : Scene :=
  [⟨strn ("Rig"), .armature,
    [⟨strn ("Hand.L"), none, false, []⟩, ⟨strn ("Hand.R"), none, false, []⟩],
    [], [], none, false, []⟩]

/-- The same structure except Hand.L carries one constraint while Hand.R
carries none (mismatched constraint-list lengths). -/
def sceneHandsMismatch : Scene :=
  [⟨strn ("Rig"), .armature,
    [⟨strn ("Hand.L"), none, false,
        [⟨strn ("LIMIT_ROTATION"), none, none, strn ("c")⟩]⟩,
      ⟨strn ("Hand.R"), none, false, []⟩],
    [], [], none, false, []⟩]

/-- A fixture state: object 0 owns cluster 0 containing its head node 1 and
one bone node 2; no edges. -/
def stPruneFixture : BuildState :=
  ⟨3, [(.obj 0, 1)], [(.obj 0, 0)],
    ⟨[], [(0, [1, 2])], [], [(0, some (strn ("A")))],
      [(1, Cats.str (strn ("armature_head")))]⟩⟩

/-- Two armatures: object 0 owns bone X.L with a constraint that targets
object 1's right-sided symmetric bone Hand.R. -/
def sceneTwoArmatures : Scene :=
  [⟨strn ("A"), .armature,
    [⟨strn ("X.L"), none, false,
      [⟨strn ("COPY_ROTATION"), some 1, some (strn ("Hand.R")),
        strn ("c")⟩]⟩],
    [], [], none, false, []⟩,
  ⟨strn ("B"), .armature,
    [⟨strn ("Hand.L"), none, false, []⟩, ⟨strn ("Hand.R"), none, false, []⟩],
    [], [], none, false, []⟩]

def clusterMembers (g : GraphData) (c : Nat) : List Nat :=
  (dictGet g.cluster_nodes c).getD []

def Placed (g : GraphData) (n : Nat) : Prop :=
  n ∈ g.free_nodes ∨ ∃ c, n ∈ clusterMembers g c

inductive NodePlace
  | clustered (oi : Nat)
  | freeNode
  | notNode
deriving DecidableEq

def placeOf (scene : Scene) : StructRef → NodePlace
  | .bone oi _ => .clustered oi
  | .vgroup oi _ => .clustered oi
  | .obj oi =>
    if (objAt scene oi).otype = .other then .freeNode else .clustered oi
  | .constraintOf _ _ _ => .notNode

def PlaceOk (scene : Scene) (st : BuildState) (r : StructRef) (n : Nat) :
    Prop :=
  match placeOf scene r with
  | .clustered oi =>
    n ∉ st.graph.free_nodes ∧
    ∃ c, dictGet st.clusterIds (.obj oi) = some c ∧
      n ∈ clusterMembers st.graph c ∧
      ∀ c2, n ∈ clusterMembers st.graph c2 → c2 = c
  | .freeNode =>
    n ∈ st.graph.free_nodes ∧ ∀ c, n ∉ clusterMembers st.graph c
  | .notNode =>
    n ∉ st.graph.free_nodes ∧ ∀ c, n ∉ clusterMembers st.graph c

structure BuildInv (scene : Scene) (st : BuildState) : Prop where
  freeLt : ∀ n ∈ st.graph.free_nodes, n < st.freshId
  keyLt : ∀ c, (dictGet st.graph.cluster_nodes c).isSome → c < st.freshId
  memLt : ∀ c n, n ∈ clusterMembers st.graph c → n < st.freshId
  entLt : ∀ r n, dictGet st.entityIds r = some n → n < st.freshId
  cluLt : ∀ r c, dictGet st.clusterIds r = some c → c < st.freshId
  entInj : ∀ r1 r2 n, dictGet st.entityIds r1 = some n →
    dictGet st.entityIds r2 = some n → r1 = r2
  cluEntries : ∀ r c, dictGet st.clusterIds r = some c →
    (dictGet st.graph.cluster_nodes c).isSome
  membersOrigin : ∀ c n, n ∈ clusterMembers st.graph c →
    ∃ r, dictGet st.entityIds r = some n
  place : ∀ r n, dictGet st.entityIds r = some n → PlaceOk scene st r n
  edgesPlaced : ∀ p ∈ st.graph.edge_tuples,
    Placed st.graph p.2.1 ∧ Placed st.graph p.2.2

structure StepOk (st st2 : BuildState) : Prop where
  fresh_le : st.freshId ≤ st2.freshId
  ent_mono : ∀ r n, dictGet st.entityIds r = some n →
    dictGet st2.entityIds r = some n
  clu_mono : ∀ r c, dictGet st.clusterIds r = some c →
    dictGet st2.clusterIds r = some c
  free_mono : ∀ n, n ∈ st.graph.free_nodes → n ∈ st2.graph.free_nodes
  mem_mono : ∀ c n, n ∈ clusterMembers st.graph c →
    n ∈ clusterMembers st2.graph c
  key_mono : ∀ c, (dictGet st.graph.cluster_nodes c).isSome →
    (dictGet st2.graph.cluster_nodes c).isSome
  clu_keys : ∀ r c, dictGet st2.clusterIds r = some c →
    (∃ oi, r = StructRef.obj oi) ∨ dictGet st.clusterIds r = some c

def DeclOk (scene : Scene) (st : BuildState) (p : Option Nat × BuildState) :
    Prop :=
  BuildInv scene p.2 ∧ StepOk st p.2 ∧
    ∀ n, p.1 = some n → Placed p.2.graph n

def CluKeysObj (st : BuildState) : Prop :=
  ∀ r c, dictGet st.clusterIds r = some c → ∃ oi, r = StructRef.obj oi

def rig_builder_state (scene : Scene) (roots : List Nat)
    (excl : Nat → Nat → Bool) : BuildState :=
  let st : BuildState := ⟨0, [], [], initialize_graph_data⟩
  let st :=
    roots.foldl
      (fun st oi => (declare_destination_entities_root scene st oi true excl).2)
      st
  let st := st.entityIds.foldl
    (fun acc p => declare_parent_relation_edge scene acc p.1) st
  let st := st.entityIds.foldl
    (fun acc p => declare_root_bone_style scene acc p.1) st
  st.clusterIds.foldl
    (fun acc p => remove_node_if_unused_head acc p.1) st

def sceneEdgeW : Scene :=
  [⟨strn ("Arm"), .armature,
    [⟨strn ("Root"), none, true,
      [⟨strn ("COPY_LOCATION"), some 1, none, strn ("Copy Location")⟩]⟩],
    [], [], none, false, []⟩,
   ⟨strn ("Thing"), .other, [], [], [], none, false, []⟩]

def matchesAll : List (Char → Bool) → Name → Bool
  | [], [] => true
  | p :: ps, c :: cs => p c && matchesAll ps cs
  | _, _ => false

def noSuffixMatch (l : Name) : Prop :=
  (matchEnd (sidedSuf 'r') l).isSome = false ∧
  (matchEnd (sidedSuf 'R') l).isSome = false ∧
  (matchEnd (sidedSuf 'l') l).isSome = false ∧
  (matchEnd (sidedSuf 'L') l).isSome = false ∧
  (matchEnd rightAllCaps l).isSome = false ∧
  (matchEnd rightCapitalized l).isSome = false ∧
  (matchEnd rightLowercase l).isSome = false ∧
  (matchEnd leftAllCaps l).isSome = false ∧
  (matchEnd leftCapitalized l).isSome = false ∧
  (matchEnd leftLowercase l).isSome = false

/-! ### Theorems -/


theorem dictGet_isSome_of_mem_keys {α β : Type} [DecidableEq α]
    (l : List (α × β)) (k : α) (h : k ∈ l.map Prod.fst) :
    (dictGet l k).isSome := by
  induction l with
  | nil => simp at h
  | cons p rest ih =>
    obtain ⟨k1, v1⟩ := p
    rw [List.map_cons, List.mem_cons] at h
    by_cases hk : k1 = k
    · simp [dictGet, hk]
    · have hm : k ∈ rest.map Prod.fst := by
        rcases h with h | h
        · exact absurd h.symm hk
        · exact h
      simpa [dictGet, hk] using ih hm

theorem create_dot_cluster_isSome (g : GraphData) (ca : CatAttrs) (c : Nat)
    (h : (dictGet g.cluster_nodes c).isSome) :
    (create_dot_cluster g ca c).isSome := by
  unfold create_dot_cluster
  cases hm : dictGet g.cluster_nodes c with
  | none => rw [hm] at h; simp at h
  | some ms => simp

theorem renderClusters_isSome (g : GraphData) (ca : CatAttrs)
    (keys : List Nat) (h : ∀ k ∈ keys, (dictGet g.cluster_nodes k).isSome) :
    (renderClusters g ca keys).isSome := by
  induction keys with
  | nil => simp [renderClusters]
  | cons c rest ih =>
    have hc := create_dot_cluster_isSome g ca c (h c (by simp))
    have hr := ih (fun k hk => h k (by simp [hk]))
    unfold renderClusters
    cases h1 : create_dot_cluster g ca c with
    | none => rw [h1] at hc; simp at hc
    | some x =>
      cases h2 : renderClusters g ca rest with
      | none => rw [h2] at hr; simp at hr
      | some xs => simp

/-- Claim C9 — rendering is total: for every graph-data value (in
particular every value produced by analyze_rig_graph or create_legend_data)
and every style configuration, create_dot_digraph returns a string. Every
cluster ID it iterates is a key of the cluster-node map, so the one
dictionary lookup that Python would crash on is always defined; all other
lookups use defaults. -/
theorem C9_create_dot_digraph_total (g : GraphData) (ca : CatAttrs)
    (title fontname rankdir : Name) :
    (create_dot_digraph g ca title fontname rankdir).isSome := by
  unfold create_dot_digraph
  have h := renderClusters_isSome g ca (g.cluster_nodes.map Prod.fst)
    (fun k hk => dictGet_isSome_of_mem_keys g.cluster_nodes k hk)
  cases hr : renderClusters g ca (g.cluster_nodes.map Prod.fst) with
  | none => rw [hr] at h; simp at h
  | some parts => simp

/-- Claim C8 — create_dot_digraph is deterministic: it is a pure function
of the graph data and style configuration, so two invocations on equal
inputs produce identical output text. (In the embedding, all iteration
orders are part of the input value, so determinism is congruence.) -/
theorem C8_create_dot_digraph_deterministic
    (g g2 : GraphData) (ca ca2 : CatAttrs) (t t2 f f2 r r2 : Name)
    (hg : g = g2) (hca : ca = ca2) (ht : t = t2) (hf : f = f2)
    (hr : r = r2) :
    create_dot_digraph g ca t f r = create_dot_digraph g2 ca2 t2 f2 r2 := by
  subst hg; subst hca; subst ht; subst hf; subst hr; rfl

/-- Witness for C8 at the legend graph. -/
theorem C8_create_dot_digraph_deterministic_witness :
    create_dot_digraph create_legend_data [] (strn ("Legend"))
        (strn ("Gill Sans")) (strn ("LR")) =
      create_dot_digraph create_legend_data [] (strn ("Legend"))
        (strn ("Gill Sans")) (strn ("LR")) :=
  C8_create_dot_digraph_deterministic _ _ _ _ _ _ _ _ _ _
    rfl rfl rfl rfl rfl

/-- Claim C2 — the code does not escape anything: escape_quotes returns its
input unchanged for every string, because str.translate looks characters up
by ordinal while escape_translation_table is keyed by one-character
strings. In particular a double quote passes through unescaped, and a node
label containing a quote is rendered with the raw quote, contradicting
escape_quotes's own docstring and the specification. -/
theorem C2_escape_quotes_is_identity :
    (∀ s : Name, escape_quotes s = s) ∧
    escape_quotes ['"'] = ['"'] ∧
    escape_quotes ['\\'] = ['\\'] ∧
    create_dot_node gQuoteLabel [] 1 =
      strn ("\"1\" [label=\"he says \"hi\"\"];") := by
  refine ⟨?_, by decide, by decide, by decide⟩
  intro s
  unfold escape_quotes str_translate escape_translation_table
  simp [dictGet]

/-- Claim C1 — the loop in declare_constraint_edges executes a break, not a
continue, when a constraint has no target: processing the list
[no-target, with-target] leaves the state untouched (the second
constraint's edge is never created), although processing [with-target]
alone does create that edge. The function's own docstring promises an edge
for each given constraint, so the claim (and the specification) describe
the intent and the break is a slip. -/
theorem C1_break_skips_rest_of_constraints :
    declare_constraint_edges sceneOneOther stAfterOrigin 0 0 (some 0)
        [constraintNoTarget, constraintWithTarget] 0 none
        (fun _ _ => false) =
      stAfterOrigin ∧
    (declare_constraint_edges sceneOneOther stAfterOrigin 0 0 (some 0)
        [constraintWithTarget] 0 none
        (fun _ _ => false)).graph.edge_tuples =
      [(2, (0, 1))] := by
  constructor
  · rfl
  · rfl

/-- Claim C5 — classify_bone on Hand.L and Hand.R with equal (empty)
constraint lists and absent parents yields left_symmetric and
right_symmetric respectively; with mismatched constraint-list lengths both
become antisymmetric. -/
theorem C5_hand_classification :
    (classify_bone sceneHandsEqual 0 0).1 = .left_symmetric ∧
    (classify_bone sceneHandsEqual 0 1).1 = .right_symmetric ∧
    (classify_bone sceneHandsMismatch 0 0).1 = .antisymmetric ∧
    (classify_bone sceneHandsMismatch 0 1).1 = .antisymmetric := by
  refine ⟨?_, ?_, ?_, ?_⟩ <;> rfl

theorem dictGet_dictSet_self {α β : Type} [DecidableEq α]
    (d : List (α × β)) (k : α) (v : β) :
    dictGet (dictSet d k v) k = some v := by
  induction d with
  | nil => simp [dictSet, dictGet]
  | cons p rest ih =>
    obtain ⟨k1, v1⟩ := p
    by_cases hk : k1 = k
    · simp [dictSet, dictGet, hk]
    · simp [dictSet, dictGet, hk, ih]

theorem dictGet_dictSet_ne {α β : Type} [DecidableEq α]
    (d : List (α × β)) (k k2 : α) (v : β) (h : ¬ k = k2) :
    dictGet (dictSet d k v) k2 = dictGet d k2 := by
  induction d with
  | nil => simp [dictSet, dictGet, h]
  | cons p rest ih =>
    obtain ⟨k1, v1⟩ := p
    by_cases hk : k1 = k
    · subst hk; simp [dictSet, dictGet, h]
    · by_cases hk2 : k1 = k2
      · have h2 : ¬ k2 = k := fun hh => h hh.symm
        simp [dictSet, dictGet, hk, hk2, h2]
      · simp [dictSet, dictGet, hk, hk2, ih]

theorem is_unused_head_node_true_iff (g : GraphData) (n c : Nat)
    (ms : List Nat) (hm : dictGet g.cluster_nodes c = some ms)
    (hmem : n ∈ ms) :
    (is_unused_head_node g (some n) (some c) = true ↔
      (catMem (strn ("head")) ((dictGet g.categories n).getD (.tup [])) = true ∧
        1 < ms.length ∧
        ∀ p ∈ g.edge_tuples, ¬(n = p.2.1 ∨ n = p.2.2))) := by
  have hlen0 : 0 < ms.length := List.length_pos_of_mem hmem
  unfold is_unused_head_node
  simp only [hm]
  by_cases hcat :
      catMem (strn ("head")) ((dictGet g.categories n).getD (.tup [])) = true
  · by_cases hlen : ms.length = 1
    · simp [hcat, hlen]
    · have h1 : 1 < ms.length := by omega
      simp [hcat, hlen, h1, List.all_eq_true]
  · simp [hcat]

/-- Claim C7 — the pruning pass (remove_node_if_unused_head applied to each
clustered struct) removes the struct's node from its cluster exactly when
that node carries the head category, its cluster holds more than one node,
and no edge uses it as origin or destination; a lone head node is kept, and
nodes other than the struct's own are never removed (the free nodes are
untouched as well). -/
theorem C7_prune_removes_unused_heads_only (st : BuildState) (r : StructRef)
    (n c : Nat) (ms : List Nat)
    (hn : dictGet st.entityIds r = some n)
    (hc : dictGet st.clusterIds r = some c)
    (hm : dictGet st.graph.cluster_nodes c = some ms)
    (hmem : n ∈ ms) :
    ((¬ n ∈ ((dictGet (remove_node_if_unused_head st r).graph.cluster_nodes
          c).getD [])) ↔
      (catMem (strn ("head")) ((dictGet st.graph.categories n).getD (.tup []))
          = true ∧
        1 < ms.length ∧
        ∀ p ∈ st.graph.edge_tuples, ¬(n = p.2.1 ∨ n = p.2.2))) ∧
    (∀ c2 ms2 m, dictGet st.graph.cluster_nodes c2 = some ms2 → m ∈ ms2 →
      ¬ m = n →
      m ∈ ((dictGet (remove_node_if_unused_head st r).graph.cluster_nodes
        c2).getD [])) ∧
    (remove_node_if_unused_head st r).graph.free_nodes =
      st.graph.free_nodes := by
  have hiff := is_unused_head_node_true_iff st.graph n c ms hm hmem
  by_cases hu : is_unused_head_node st.graph (some n) (some c) = true
  · have hrem : remove_node_if_unused_head st r =
        { st with
          graph :=
            { st.graph with
              cluster_nodes :=
                dictSet st.graph.cluster_nodes c (setRemove ms n) },
          entityIds := dictDel st.entityIds r } := by
      unfold remove_node_if_unused_head
      rw [hn, hc]
      simp [hu, hm]
    rw [hrem]
    refine ⟨?_, ?_, rfl⟩
    · simp only [dictGet_dictSet_self, Option.getD_some]
      constructor
      · intro _; exact hiff.mp hu
      · intro _
        simp [setRemove, List.mem_filter]
    · intro c2 ms2 m hc2 hm2 hne
      by_cases hcc : c = c2
      · subst hcc
        rw [hm] at hc2
        injection hc2 with hc2
        subst hc2
        simp [dictGet_dictSet_self, setRemove, List.mem_filter, hm2, hne]
      · rw [dictGet_dictSet_ne _ _ _ _ hcc]
        rw [hc2]
        simpa using hm2
  · have hrem : remove_node_if_unused_head st r = st := by
      unfold remove_node_if_unused_head
      rw [hn, hc]
      simp [hu]
    rw [hrem]
    refine ⟨?_, ?_, rfl⟩
    · rw [hm]
      simp only [Option.getD_some]
      constructor
      · intro hno; exact absurd hmem hno
      · intro hr; exact absurd (hiff.mpr hr) hu
    · intro c2 ms2 m hc2 hm2 _
      rw [hc2]
      simpa using hm2

/-- Witness for C7: in the fixture, the edgeless head node inside a
two-node cluster is removed. -/
theorem C7_prune_removes_unused_heads_only_witness :
    ¬ 1 ∈ ((dictGet (remove_node_if_unused_head stPruneFixture
        (.obj 0)).graph.cluster_nodes 0).getD []) :=
  (C7_prune_removes_unused_heads_only stPruneFixture (.obj 0) 1 0 [1, 2]
    rfl rfl rfl (by decide)).1.mpr (by decide)

theorem dictGet_dictSet_isSome {α β : Type} [DecidableEq α]
    (d : List (α × β)) (k k2 : α) (v : β) (h : (dictGet d k2).isSome) :
    (dictGet (dictSet d k v) k2).isSome := by
  by_cases hk : k = k2
  · subst hk; rw [dictGet_dictSet_self]; rfl
  · rw [dictGet_dictSet_ne _ _ _ _ hk]; exact h

theorem declare_cluster_entityIds (scene : Scene) (st : BuildState)
    (o : Option Nat) (l : Option Name) :
    (declare_cluster scene st o l).2.entityIds = st.entityIds := rfl

theorem declare_node_registers (st : BuildState) (k : StructRef)
    (cl : Option Nat) (lab : Option Name) (cats : Option Cats) :
    (dictGet (declare_node st (some k) cl lab cats).2.entityIds k).isSome := by
  unfold declare_node declare_entity_id
  cases h : dictGet st.entityIds k with
  | some n => simp [h]
  | none => simp [h, dictGet_dictSet_self]

theorem declare_entity_id_preserves (d : List (StructRef × Nat)) (fresh : Nat)
    (key : Option StructRef) (k2 : StructRef)
    (h : (dictGet d k2).isSome) :
    (dictGet (declare_entity_id d fresh key).2.1 k2).isSome := by
  unfold declare_entity_id
  cases key with
  | none => simpa using h
  | some k =>
    cases hk : dictGet d k with
    | some n => simpa [hk] using h
    | none => simpa [hk] using dictGet_dictSet_isSome d k k2 fresh h

theorem declare_edge_preserves (st : BuildState) (key : Option StructRef)
    (o d : Nat) (lab : Option Name) (cats : Option Cats) (k2 : StructRef)
    (h : (dictGet st.entityIds k2).isSome) :
    (dictGet (declare_edge st key o d lab cats).2.entityIds k2).isSome := by
  unfold declare_edge
  exact declare_entity_id_preserves st.entityIds st.freshId key k2 h

theorem plain_rs_skip (scene : Scene) (st : BuildState) (oi bi : Nat)
    (excl : Nat → Nat → Bool) (hexcl : excl oi bi = false)
    (hrs : (classify_bone scene oi bi).1 = .right_symmetric) :
    declare_plain_bone_node scene st oi bi true excl = (none, st) := by
  unfold declare_plain_bone_node
  simp [hexcl, hrs]

theorem plain_false_registers (scene : Scene) (st : BuildState) (oi bi : Nat)
    (excl : Nat → Nat → Bool) (hexcl : excl oi bi = false) :
    (dictGet (declare_plain_bone_node scene st oi bi false
        excl).2.entityIds (.bone oi bi)).isSome := by
  unfold declare_plain_bone_node
  simp only [hexcl, Bool.false_and, Bool.false_eq_true, if_false]
  rcases hdc : declare_cluster scene st (some oi) none with ⟨cid, st2⟩
  have he : st2.entityIds = st.entityIds := by
    have := declare_cluster_entityIds scene st (some oi) none
    rw [hdc] at this; exact this
  simp only [Bool.false_eq_true, if_false, hdc]
  exact declare_node_registers st2 (.bone oi bi) (some cid) _ _

theorem plain_bone_none_iff (scene : Scene) (st : BuildState) (oi bi : Nat)
    (rsx : Bool) (excl : Nat → Nat → Bool) :
    ((declare_plain_bone_node scene st oi bi rsx excl).1 = none ↔
      (excl oi bi = true ∨
        (rsx = true ∧ (classify_bone scene oi bi).1 = .right_symmetric))) := by
  unfold declare_plain_bone_node
  by_cases hexcl : excl oi bi = true
  · simp [hexcl]
  · simp only [hexcl]
    by_cases hrs : (rsx && (classify_bone scene oi bi).1 = BoneType.right_symmetric) = true
    · simp [hrs]
      rcases Bool.and_eq_true_iff.mp hrs with ⟨h1, h2⟩
      simp [h1, of_decide_eq_true h2]
    · simp only [hrs]
      rcases hdc : declare_cluster scene st (some oi) none with ⟨cid, st2⟩
      simp [hdc, hexcl]
      intro h1 h2
      rw [h1, decide_eq_true h2] at hrs
      simp at hrs

theorem c6_same_structure (scene : Scene) (st : BuildState)
    (origin oi : Nat) (obi : Option Nat) (ci : Nat)
    (excl : Nat → Nat → Bool) (c : BoneConstraint) (ti bi2 : Nat)
    (ht : c.target = some ti)
    (hot : (objAt scene ti).otype = .armature)
    (hsub : optTruthy c.subtarget = true)
    (hfind : boneIdxByName (objAt scene ti) (c.subtarget.getD []) = some bi2)
    (hexcl : excl ti bi2 = false)
    (hrs : (classify_bone scene ti bi2).1 = .right_symmetric)
    (hnot : dictGet st.entityIds (.bone ti bi2) = none) :
    dictGet (declare_constraint_edges scene st origin oi obi [c] ci
        (some ti) excl).entityIds (.bone ti bi2) = none := by
  obtain ⟨ct, ctar, csub, cnm⟩ := c
  simp only [BoneConstraint.target] at ht
  subst ht
  have hdest : declare_destination_entities_dest scene st ti csub
      true excl = (none, st) := by
    unfold declare_destination_entities_dest
    rw [hot]
    unfold declare_armature_entities_dest
    simp only [BoneConstraint.subtarget] at hsub hfind
    rw [hsub, hfind]
    exact plain_rs_skip scene st ti bi2 excl hexcl hrs
  simp only [declare_constraint_edges]
  have hflag2 : (((some ti : Option Nat)).isSome && decide True) = true := rfl
  rw [hflag2, hdest]
  exact hnot

theorem c6_cross_structure (scene : Scene) (st : BuildState)
    (origin oi : Nat) (obi : Option Nat) (ci : Nat)
    (excl : Nat → Nat → Bool) (c : BoneConstraint) (ti bi2 : Nat)
    (home : Option Nat)
    (ht : c.target = some ti)
    (hhome : ¬ home = some ti)
    (hot : (objAt scene ti).otype = .armature)
    (hsub : optTruthy c.subtarget = true)
    (hfind : boneIdxByName (objAt scene ti) (c.subtarget.getD []) = some bi2)
    (hexcl : excl ti bi2 = false) :
    (dictGet (declare_constraint_edges scene st origin oi obi [c] ci
        home excl).entityIds (.bone ti bi2)).isSome = true := by
  obtain ⟨ct, ctar, csub, cnm⟩ := c
  simp only [BoneConstraint.target] at ht
  subst ht
  simp only [BoneConstraint.subtarget] at hsub hfind
  have hflag : (home.isSome && decide (home = some ti)) = false := by
    simp [hhome]
  have hdisp : declare_destination_entities_dest scene st ti csub
      false excl = declare_plain_bone_node scene st ti bi2 false excl := by
    unfold declare_destination_entities_dest
    rw [hot]
    unfold declare_armature_entities_dest
    rw [hsub, hfind]
    simp
  simp only [declare_constraint_edges]
  rw [hflag, hdisp]
  rcases hp : declare_plain_bone_node scene st ti bi2 false excl
    with ⟨dst, st3⟩
  have hreg : (dictGet st3.entityIds (.bone ti bi2)).isSome = true := by
    have h2 := plain_false_registers scene st ti bi2 excl hexcl
    rw [hp] at h2
    exact h2
  cases dst with
  | none => simpa [declare_constraint_edges] using hreg
  | some dnode =>
    simp only [declare_constraint_edges]
    exact declare_edge_preserves st3 _ origin dnode _ _ _ hreg

/-- Claim C6 — scope of the right-sided-symmetric exclusion. First, a call
of declare_plain_bone_node creates no node exactly when the exclusion
predicate rejects the bone or the exclusion flag is set and the bone
classifies right_symmetric; the root expansion passes that flag as true.
Second, a constraint whose owner lives in the target armature itself (home
equal to the target) omits a right-symmetric, non-excluded destination bone:
no node is created for it. Third, a constraint reaching the bone from a
different home (or from object level, with no home) never omits it: the
bone's node is created regardless of its classification. -/
theorem C6_right_symmetric_exclusion_scope :
    (∀ (scene : Scene) (st : BuildState) (oi bi : Nat) (rsx : Bool)
        (excl : Nat → Nat → Bool),
      ((declare_plain_bone_node scene st oi bi rsx excl).1 = none ↔
        (excl oi bi = true ∨
          (rsx = true ∧
            (classify_bone scene oi bi).1 = .right_symmetric)))) ∧
    (∀ (scene : Scene) (st : BuildState) (origin oi : Nat)
        (obi : Option Nat) (ci : Nat) (excl : Nat → Nat → Bool)
        (c : BoneConstraint) (ti bi2 : Nat),
      c.target = some ti →
      (objAt scene ti).otype = .armature →
      optTruthy c.subtarget = true →
      boneIdxByName (objAt scene ti) (c.subtarget.getD []) = some bi2 →
      excl ti bi2 = false →
      (classify_bone scene ti bi2).1 = .right_symmetric →
      dictGet st.entityIds (.bone ti bi2) = none →
      dictGet (declare_constraint_edges scene st origin oi obi [c] ci
          (some ti) excl).entityIds (.bone ti bi2) = none) ∧
    (∀ (scene : Scene) (st : BuildState) (origin oi : Nat)
        (obi : Option Nat) (ci : Nat) (excl : Nat → Nat → Bool)
        (c : BoneConstraint) (ti bi2 : Nat) (home : Option Nat),
      c.target = some ti →
      ¬ home = some ti →
      (objAt scene ti).otype = .armature →
      optTruthy c.subtarget = true →
      boneIdxByName (objAt scene ti) (c.subtarget.getD []) = some bi2 →
      excl ti bi2 = false →
      (dictGet (declare_constraint_edges scene st origin oi obi [c] ci
          home excl).entityIds (.bone ti bi2)).isSome = true) := by
  refine ⟨?_, ?_, ?_⟩
  · intro scene st oi bi rsx excl
    exact plain_bone_none_iff scene st oi bi rsx excl
  · intro scene st origin oi obi ci excl c ti bi2 ht hot hsub hfind hexcl
      hrs hnot
    exact c6_same_structure scene st origin oi obi ci excl c ti bi2 ht hot
      hsub hfind hexcl hrs hnot
  · intro scene st origin oi obi ci excl c ti bi2 home ht hhome hot hsub
      hfind hexcl
    exact c6_cross_structure scene st origin oi obi ci excl c ti bi2 home
      ht hhome hot hsub hfind hexcl

/-- Witness for C6: the cross-structure constraint of scene
sceneTwoArmatures creates a node for the right-symmetric destination bone
Hand.R of the other armature. -/
theorem C6_right_symmetric_exclusion_scope_witness :
    (dictGet (declare_constraint_edges sceneTwoArmatures
        ⟨1, [(.bone 0 0, 0)], [], ⟨[], [], [], [], []⟩⟩ 0 0 (some 0)
        [⟨strn ("COPY_ROTATION"), some 1, some (strn ("Hand.R")),
          strn ("c")⟩] 0 (some 0)
        (fun _ _ => false)).entityIds (.bone 1 1)).isSome = true :=
  C6_right_symmetric_exclusion_scope.2.2 sceneTwoArmatures
    ⟨1, [(.bone 0 0, 0)], [], ⟨[], [], [], [], []⟩⟩ 0 0 (some 0) 0
    (fun _ _ => false)
    ⟨strn ("COPY_ROTATION"), some 1, some (strn ("Hand.R")), strn ("c")⟩
    1 1 (some 0) rfl (by decide) rfl rfl (by decide) rfl

theorem StepOk.rfl (st : BuildState) : StepOk st st :=
  ⟨Nat.le_refl _, fun _ _ h => h, fun _ _ h => h, fun _ h => h,
    fun _ _ h => h, fun _ h => h, fun _ _ h => Or.inr h⟩

theorem StepOk.trans {s1 s2 s3 : BuildState} (a : StepOk s1 s2)
    (b : StepOk s2 s3) : StepOk s1 s3 :=
  ⟨Nat.le_trans a.fresh_le b.fresh_le,
    fun r n h => b.ent_mono r n (a.ent_mono r n h),
    fun r c h => b.clu_mono r c (a.clu_mono r c h),
    fun n h => b.free_mono n (a.free_mono n h),
    fun c n h => b.mem_mono c n (a.mem_mono c n h),
    fun c h => b.key_mono c (a.key_mono c h),
    fun r c h => (b.clu_keys r c h).elim Or.inl (a.clu_keys r c)⟩

theorem placed_mono {st st2 : BuildState} (h : StepOk st st2) {n : Nat}
    (hp : Placed st.graph n) : Placed st2.graph n := by
  rcases hp with hp | ⟨c, hc⟩
  · exact Or.inl (h.free_mono n hp)
  · exact Or.inr ⟨c, h.mem_mono c n hc⟩

theorem buildInv_empty (scene : Scene) :
    BuildInv scene ⟨0, [], [], initialize_graph_data⟩ := by
  constructor <;>
    simp [initialize_graph_data, dictGet, clusterMembers, PlaceOk, Placed]

theorem dictGet_dictSet_id {α β : Type} [DecidableEq α]
    (d : List (α × β)) (k : α) (v : β) (h : dictGet d k = some v) (k2 : α) :
    dictGet (dictSet d k v) k2 = dictGet d k2 := by
  by_cases hk : k = k2
  · subst hk; rw [dictGet_dictSet_self, h]
  · exact dictGet_dictSet_ne _ _ _ _ hk

theorem clusterMembers_irrel (g : GraphData) (cn : List (Nat × List Nat))
    (lb : List (Nat × Option Name)) (ct : List (Nat × Cats)) (fr : List Nat)
    (ed : List (Nat × (Nat × Nat))) (c : Nat) :
    clusterMembers ⟨fr, cn, ed, lb, ct⟩ c = (dictGet cn c).getD [] := rfl

theorem declare_cluster_ok (scene : Scene) (st : BuildState) (oi : Nat)
    (label : Option Name) (hInv : BuildInv scene st) :
    BuildInv scene (declare_cluster scene st (some oi) label).2 ∧
    StepOk st (declare_cluster scene st (some oi) label).2 ∧
    dictGet (declare_cluster scene st (some oi) label).2.clusterIds
        (.obj oi) =
      some (declare_cluster scene st (some oi) label).1 ∧
    (declare_cluster scene st (some oi) label).2.entityIds = st.entityIds ∧
    (declare_cluster scene st (some oi) label).2.graph.free_nodes =
      st.graph.free_nodes ∧
    (declare_cluster scene st (some oi) label).2.graph.edge_tuples =
      st.graph.edge_tuples ∧
    (∀ c n, n ∈ clusterMembers
        (declare_cluster scene st (some oi) label).2.graph c ↔
      n ∈ clusterMembers st.graph c) := by
  cases hmem : dictGet st.clusterIds (.obj oi) with
  | some cid =>
    have hentry := hInv.cluEntries _ _ hmem
    cases hentryv : dictGet st.graph.cluster_nodes cid with
    | none => rw [hentryv] at hentry; simp at hentry
    | some ms =>
      have heq : declare_cluster scene st (some oi) label =
          (cid,
            { st with
              graph :=
                { st.graph with
                  cluster_nodes := dictSet st.graph.cluster_nodes cid ms,
                  labels := dictSet st.graph.labels cid
                    (clusterDefaultLabel scene label (some oi)) } }) := by
        simp only [declare_cluster, declare_entity_id, Option.map,
          hmem, hentryv]
        rfl
      have hcn : ∀ k, dictGet (dictSet st.graph.cluster_nodes cid ms) k =
          dictGet st.graph.cluster_nodes k :=
        dictGet_dictSet_id _ _ _ hentryv
      rw [heq]
      have hmembers : ∀ c n,
          (n ∈ clusterMembers
            { st with
              graph :=
                { st.graph with
                  cluster_nodes := dictSet st.graph.cluster_nodes cid ms,
                  labels := dictSet st.graph.labels cid
                    (clusterDefaultLabel scene label (some oi)) }
              }.graph c ↔
          n ∈ clusterMembers st.graph c) := by
        intro c n
        simp only [clusterMembers, hcn]
      refine ⟨?_, ?_, hmem, rfl, rfl, rfl, hmembers⟩
      · obtain ⟨f1, f2, f3, f4, f5, f6, f7, f8, f9, f10⟩ := hInv
        refine ⟨f1, ?_, ?_, f4, f5, f6, ?_, ?_, ?_, ?_⟩
        · intro c h; exact f2 c (by simpa [hcn] using h)
        · intro c n h; exact f3 c n ((hmembers c n).mp h)
        · intro r c h; simpa [hcn] using f7 r c h
        · intro c n h; exact f8 c n ((hmembers c n).mp h)
        · intro r n h
          have hp := f9 r n h
          unfold PlaceOk at hp ⊢
          cases hpl : placeOf scene r with
          | clustered oi2 =>
            rw [hpl] at hp
            obtain ⟨hnf, c, hlook, hmem2, huniq⟩ := hp
            exact ⟨hnf, c, hlook, (hmembers c n).mpr hmem2,
              fun c2 hc2 => huniq c2 ((hmembers c2 n).mp hc2)⟩
          | freeNode =>
            rw [hpl] at hp
            exact ⟨hp.1, fun c hc => hp.2 c ((hmembers c n).mp hc)⟩
          | notNode =>
            rw [hpl] at hp
            exact ⟨hp.1, fun c hc => hp.2 c ((hmembers c n).mp hc)⟩
        · intro p hp
          have := f10 p hp
          unfold Placed at this ⊢
          constructor
          · rcases this.1 with h | ⟨c, hc⟩
            · exact Or.inl h
            · exact Or.inr ⟨c, (hmembers c _).mpr hc⟩
          · rcases this.2 with h | ⟨c, hc⟩
            · exact Or.inl h
            · exact Or.inr ⟨c, (hmembers c _).mpr hc⟩
      · exact ⟨Nat.le_refl _, fun _ _ h => h, fun _ _ h => h, fun _ h => h,
          fun c n h => (hmembers c n).mpr h,
          fun c h => by simpa [hcn] using h, fun _ _ h => Or.inr h⟩
  | none =>
    have hkey : dictGet st.graph.cluster_nodes st.freshId = none := by
      cases hk : dictGet st.graph.cluster_nodes st.freshId with
      | none => rfl
      | some v =>
        have := hInv.keyLt st.freshId (by rw [hk]; rfl)
        omega
    have heq : declare_cluster scene st (some oi) label =
        (st.freshId,
          { st with
            freshId := st.freshId + 1,
            clusterIds := dictSet st.clusterIds (.obj oi) st.freshId,
            graph :=
              { st.graph with
                cluster_nodes :=
                  dictSet st.graph.cluster_nodes st.freshId [],
                labels := dictSet st.graph.labels st.freshId
                  (clusterDefaultLabel scene label (some oi)) } }) := by
      simp only [declare_cluster, declare_entity_id, Option.map, hmem, hkey]
      rfl
    rw [heq]
    dsimp only
    have hmembers : ∀ c n,
        (n ∈ clusterMembers
          { st with
            freshId := st.freshId + 1,
            clusterIds := dictSet st.clusterIds (.obj oi) st.freshId,
            graph :=
              { st.graph with
                cluster_nodes :=
                  dictSet st.graph.cluster_nodes st.freshId [],
                labels := dictSet st.graph.labels st.freshId
                  (clusterDefaultLabel scene label (some oi)) } }.graph c ↔
        n ∈ clusterMembers st.graph c) := by
      intro c n
      by_cases hc : st.freshId = c
      · subst hc
        simp [clusterMembers, dictGet_dictSet_self, hkey]
      · simp [clusterMembers, dictGet_dictSet_ne _ _ _ _ hc]
    have hclu : ∀ r c, dictGet st.clusterIds r = some c →
        dictGet (dictSet st.clusterIds (.obj oi) st.freshId) r = some c := by
      intro r c h
      have hne : ¬ (StructRef.obj oi) = r := by
        intro he; rw [← he] at h; rw [h] at hmem; exact Option.noConfusion hmem
      rw [dictGet_dictSet_ne _ _ _ _ hne]
      exact h
    have hkeys : ∀ c,
        (dictGet (dictSet st.graph.cluster_nodes st.freshId []) c).isSome →
        c = st.freshId ∨
          (dictGet st.graph.cluster_nodes c).isSome := by
      intro c h
      by_cases hc : st.freshId = c
      · exact Or.inl hc.symm
      · rw [dictGet_dictSet_ne _ _ _ _ hc] at h; exact Or.inr h
    refine ⟨?_, ?_, ?_, rfl, rfl, rfl, hmembers⟩
    · obtain ⟨f1, f2, f3, f4, f5, f6, f7, f8, f9, f10⟩ := hInv
      refine ⟨?_, ?_, ?_, ?_, ?_, f6, ?_, ?_, ?_, ?_⟩
      · intro n h; exact Nat.lt_succ_of_lt (f1 n h)
      · intro c h
        rcases hkeys c h with h | h
        · subst h; exact Nat.lt_succ_self _
        · exact Nat.lt_succ_of_lt (f2 c h)
      · intro c n h
        exact Nat.lt_succ_of_lt (f3 c n ((hmembers c n).mp h))
      · intro r n h; exact Nat.lt_succ_of_lt (f4 r n h)
      · intro r c h
        by_cases hr : (StructRef.obj oi) = r
        · rw [← hr, dictGet_dictSet_self] at h
          injection h with h
          rw [← h]; exact Nat.lt_succ_self _
        · rw [dictGet_dictSet_ne _ _ _ _ hr] at h
          exact Nat.lt_succ_of_lt (f5 r c h)
      · intro r c h
        by_cases hr : (StructRef.obj oi) = r
        · rw [← hr, dictGet_dictSet_self] at h
          injection h with h
          rw [← h, dictGet_dictSet_self]; rfl
        · rw [dictGet_dictSet_ne _ _ _ _ hr] at h
          have hold := f7 r c h
          have hcne : ¬ st.freshId = c :=
            fun he => (Nat.ne_of_lt (f5 r c h)) he.symm
          rw [dictGet_dictSet_ne _ _ _ _ hcne]
          exact hold
      · intro c n h; exact f8 c n ((hmembers c n).mp h)
      · intro r n h
        have hp := f9 r n h
        unfold PlaceOk at hp ⊢
        cases hpl : placeOf scene r with
        | clustered oi2 =>
          rw [hpl] at hp
          obtain ⟨hnf, c, hlook, hmem2, huniq⟩ := hp
          exact ⟨hnf, c, hclu _ _ hlook, (hmembers c n).mpr hmem2,
            fun c2 hc2 => huniq c2 ((hmembers c2 n).mp hc2)⟩
        | freeNode =>
          rw [hpl] at hp
          exact ⟨hp.1, fun c hc => hp.2 c ((hmembers c n).mp hc)⟩
        | notNode =>
          rw [hpl] at hp
          exact ⟨hp.1, fun c hc => hp.2 c ((hmembers c n).mp hc)⟩
      · intro p hp
        have := f10 p hp
        unfold Placed at this ⊢
        constructor
        · rcases this.1 with h | ⟨c, hc⟩
          · exact Or.inl h
          · exact Or.inr ⟨c, (hmembers c _).mpr hc⟩
        · rcases this.2 with h | ⟨c, hc⟩
          · exact Or.inl h
          · exact Or.inr ⟨c, (hmembers c _).mpr hc⟩
    · refine ⟨Nat.le_succ _, fun _ _ h => h, hclu, fun _ h => h,
        fun c n h => (hmembers c n).mpr h, ?_, ?_⟩
      · intro c h
        by_cases hc : st.freshId = c
        · rw [← hc, dictGet_dictSet_self]; rfl
        · rw [dictGet_dictSet_ne _ _ _ _ hc]; exact h
      · intro r2 c h
        by_cases hr2 : r2 = StructRef.obj oi
        · exact Or.inl ⟨oi, hr2⟩
        · rw [dictGet_dictSet_ne _ _ _ _ (fun hh => hr2 hh.symm)] at h
          exact Or.inr h
    · rw [dictGet_dictSet_self]

theorem mem_dictSet {α β : Type} [DecidableEq α] (d : List (α × β)) (k : α)
    (v : β) (p : α × β) (h : p ∈ dictSet d k v) : p = (k, v) ∨ p ∈ d := by
  induction d with
  | nil => simpa [dictSet] using h
  | cons q rest ih =>
    obtain ⟨k1, v1⟩ := q
    by_cases hk : k1 = k
    · simp only [dictSet, hk, if_true] at h
      rcases List.mem_cons.mp h with h | h
      · exact Or.inl h
      · exact Or.inr (List.mem_cons.mpr (Or.inr h))
    · simp only [dictSet, hk, if_false] at h
      rcases List.mem_cons.mp h with h | h
      · exact Or.inr (List.mem_cons.mpr (Or.inl h))
      · rcases ih h with h | h
        · exact Or.inl h
        · exact Or.inr (List.mem_cons.mpr (Or.inr h))

theorem setAdd_mem_iff (s : List Nat) (n m : Nat) :
    m ∈ setAdd s n ↔ (m ∈ s ∨ m = n) := by
  unfold setAdd
  by_cases hn : n ∈ s
  · simp only [hn, if_true]
    constructor
    · exact fun h => Or.inl h
    · rintro (h | h)
      · exact h
      · exact h ▸ hn
  · simp [hn]

theorem declare_node_clustered_ok (scene : Scene) (st : BuildState)
    (r : StructRef) (oi cid : Nat) (lab : Option Name) (cats : Option Cats)
    (hInv : BuildInv scene st)
    (hplace : placeOf scene r = .clustered oi)
    (hlook : dictGet st.clusterIds (.obj oi) = some cid) :
    BuildInv scene (declare_node st (some r) (some cid) lab cats).2 ∧
    StepOk st (declare_node st (some r) (some cid) lab cats).2 ∧
    dictGet (declare_node st (some r) (some cid) lab cats).2.entityIds r =
      some (declare_node st (some r) (some cid) lab cats).1 ∧
    (declare_node st (some r) (some cid) lab cats).1 ∈
      clusterMembers (declare_node st (some r) (some cid) lab cats).2.graph
        cid ∧
    (declare_node st (some r) (some cid) lab cats).2.clusterIds =
      st.clusterIds := by
  have hentry := hInv.cluEntries _ _ hlook
  cases hms : dictGet st.graph.cluster_nodes cid with
  | none => rw [hms] at hentry; simp at hentry
  | some ms =>
  cases hn : dictGet st.entityIds r with
  | some n =>
    -- memoized: the node is already in this cluster, setAdd is a no-op
    have hp := hInv.place r n hn
    unfold PlaceOk at hp
    rw [hplace] at hp
    obtain ⟨hnf, c, hlook2, hmem2, huniq⟩ := hp
    rw [hlook] at hlook2
    injection hlook2 with hlook2
    subst hlook2
    have hmemms : n ∈ ms := by
      unfold clusterMembers at hmem2
      rw [hms] at hmem2
      exact hmem2
    have hsetadd : setAdd ms n = ms := by unfold setAdd; simp [hmemms]
    have heq : declare_node st (some r) (some cid) lab cats =
        (n,
          { st with
            graph :=
              { st.graph with
                cluster_nodes := dictSet st.graph.cluster_nodes cid ms,
                labels := optDictSet st.graph.labels n (lab.map some),
                categories := optDictSet st.graph.categories n cats } }) := by
      simp only [declare_node, declare_entity_id, hn, hms]
      rw [Option.getD_some, hsetadd]
    rw [heq]
    have hcn : ∀ k, dictGet (dictSet st.graph.cluster_nodes cid ms) k =
        dictGet st.graph.cluster_nodes k :=
      dictGet_dictSet_id _ _ _ hms
    have hmembers : ∀ c2 m,
        (m ∈ clusterMembers
          { st with
            graph :=
              { st.graph with
                cluster_nodes := dictSet st.graph.cluster_nodes cid ms,
                labels := optDictSet st.graph.labels n (lab.map some),
                categories := optDictSet st.graph.categories n cats }
            }.graph c2 ↔
        m ∈ clusterMembers st.graph c2) := by
      intro c2 m
      simp only [clusterMembers, hcn]
    refine ⟨?_, ?_, hn, (hmembers cid n).mpr hmem2, rfl⟩
    · obtain ⟨f1, f2, f3, f4, f5, f6, f7, f8, f9, f10⟩ := hInv
      refine ⟨f1, ?_, ?_, f4, f5, f6, ?_, ?_, ?_, ?_⟩
      · intro c2 h; exact f2 c2 (by simpa [hcn] using h)
      · intro c2 m h; exact f3 c2 m ((hmembers c2 m).mp h)
      · intro r2 c2 h; simpa [hcn] using f7 r2 c2 h
      · intro c2 m h; exact f8 c2 m ((hmembers c2 m).mp h)
      · intro r2 m h
        have hp2 := f9 r2 m h
        unfold PlaceOk at hp2 ⊢
        cases hpl2 : placeOf scene r2 with
        | clustered oi2 =>
          rw [hpl2] at hp2
          obtain ⟨hnf2, c2, hl2, hm2, hu2⟩ := hp2
          exact ⟨hnf2, c2, hl2, (hmembers c2 m).mpr hm2,
            fun c3 hc3 => hu2 c3 ((hmembers c3 m).mp hc3)⟩
        | freeNode =>
          rw [hpl2] at hp2
          exact ⟨hp2.1, fun c3 hc3 => hp2.2 c3 ((hmembers c3 m).mp hc3)⟩
        | notNode =>
          rw [hpl2] at hp2
          exact ⟨hp2.1, fun c3 hc3 => hp2.2 c3 ((hmembers c3 m).mp hc3)⟩
      · intro p hp2
        have := f10 p hp2
        unfold Placed at this ⊢
        constructor
        · rcases this.1 with h | ⟨c3, hc3⟩
          · exact Or.inl h
          · exact Or.inr ⟨c3, (hmembers c3 _).mpr hc3⟩
        · rcases this.2 with h | ⟨c3, hc3⟩
          · exact Or.inl h
          · exact Or.inr ⟨c3, (hmembers c3 _).mpr hc3⟩
    · exact ⟨Nat.le_refl _, fun _ _ h => h, fun _ _ h => h, fun _ h => h,
        fun c3 m h => (hmembers c3 m).mpr h,
        fun c3 h => by simpa [hcn] using h, fun _ _ h => Or.inr h⟩
  | none =>
    -- fresh node: appended to this cluster's member list
    have hfreshmem : st.freshId ∉ ms := by
      intro hmm
      have : st.freshId < st.freshId := hInv.memLt cid st.freshId
        (by unfold clusterMembers; rw [hms]; exact hmm)
      exact Nat.lt_irrefl _ this
    have hsetadd : setAdd ms st.freshId = ms ++ [st.freshId] := by
      unfold setAdd; simp [hfreshmem]
    have heq : declare_node st (some r) (some cid) lab cats =
        (st.freshId,
          { st with
            freshId := st.freshId + 1,
            entityIds := dictSet st.entityIds r st.freshId,
            graph :=
              { st.graph with
                cluster_nodes :=
                  dictSet st.graph.cluster_nodes cid (ms ++ [st.freshId]),
                labels := optDictSet st.graph.labels st.freshId
                  (lab.map some),
                categories :=
                  optDictSet st.graph.categories st.freshId cats } }) := by
      simp only [declare_node, declare_entity_id, hn, hms]
      rw [Option.getD_some, hsetadd]
    rw [heq]
    dsimp only
    have hmembers : ∀ c2 m,
        (m ∈ clusterMembers
          { st with
            freshId := st.freshId + 1,
            entityIds := dictSet st.entityIds r st.freshId,
            graph :=
              { st.graph with
                cluster_nodes :=
                  dictSet st.graph.cluster_nodes cid (ms ++ [st.freshId]),
                labels := optDictSet st.graph.labels st.freshId
                  (lab.map some),
                categories :=
                  optDictSet st.graph.categories st.freshId cats } }.graph
            c2 ↔
        (m ∈ clusterMembers st.graph c2 ∨ (c2 = cid ∧ m = st.freshId))) := by
      intro c2 m
      by_cases hc : cid = c2
      · subst hc
        unfold clusterMembers
        rw [dictGet_dictSet_self, hms]
        simp only [Option.getD_some, List.mem_append, List.mem_singleton]
        tauto
      · unfold clusterMembers
        rw [dictGet_dictSet_ne _ _ _ _ hc]
        constructor
        · exact fun h => Or.inl h
        · rintro (h | ⟨hcc, _⟩)
          · exact h
          · exact absurd hcc.symm hc
    have hent : ∀ r2 m, dictGet st.entityIds r2 = some m →
        dictGet (dictSet st.entityIds r st.freshId) r2 = some m := by
      intro r2 m h
      have hne : ¬ r = r2 := by
        intro he; rw [← he] at h; rw [h] at hn; exact Option.noConfusion hn
      rw [dictGet_dictSet_ne _ _ _ _ hne]
      exact h
    refine ⟨?_, ?_, ?_, ?_, rfl⟩
    · obtain ⟨f1, f2, f3, f4, f5, f6, f7, f8, f9, f10⟩ := hInv
      refine ⟨?_, ?_, ?_, ?_, ?_, ?_, ?_, ?_, ?_, ?_⟩
      · intro m h; exact Nat.lt_succ_of_lt (f1 m h)
      · intro c2 h
        by_cases hc : cid = c2
        · subst hc; exact Nat.lt_succ_of_lt (f2 cid (by rw [hms]; rfl))
        · rw [dictGet_dictSet_ne _ _ _ _ hc] at h
          exact Nat.lt_succ_of_lt (f2 c2 h)
      · intro c2 m h
        rcases (hmembers c2 m).mp h with h | ⟨_, h⟩
        · exact Nat.lt_succ_of_lt (f3 c2 m h)
        · rw [h]; exact Nat.lt_succ_self _
      · intro r2 m h
        by_cases hr : r = r2
        · rw [← hr, dictGet_dictSet_self] at h
          injection h with h
          rw [← h]; exact Nat.lt_succ_self _
        · rw [dictGet_dictSet_ne _ _ _ _ hr] at h
          exact Nat.lt_succ_of_lt (f4 r2 m h)
      · intro r2 c2 h; exact Nat.lt_succ_of_lt (f5 r2 c2 h)
      · intro r1 r2 m h1 h2
        by_cases hr1 : r = r1
        · by_cases hr2 : r = r2
          · rw [← hr1, ← hr2]
          · rw [← hr1, dictGet_dictSet_self] at h1
            rw [dictGet_dictSet_ne _ _ _ _ hr2] at h2
            injection h1 with h1
            exact absurd (h1 ▸ f4 r2 m h2) (Nat.lt_irrefl _)
        · by_cases hr2 : r = r2
          · rw [← hr2, dictGet_dictSet_self] at h2
            rw [dictGet_dictSet_ne _ _ _ _ hr1] at h1
            injection h2 with h2
            exact absurd (h2 ▸ f4 r1 m h1) (Nat.lt_irrefl _)
          · rw [dictGet_dictSet_ne _ _ _ _ hr1] at h1
            rw [dictGet_dictSet_ne _ _ _ _ hr2] at h2
            exact f6 r1 r2 m h1 h2
      · intro r2 c2 h
        have := f7 r2 c2 h
        by_cases hc : cid = c2
        · subst hc; rw [dictGet_dictSet_self]; rfl
        · rw [dictGet_dictSet_ne _ _ _ _ hc]; exact this
      · intro c2 m h
        rcases (hmembers c2 m).mp h with h | ⟨_, h⟩
        · exact (f8 c2 m h).imp (fun r2 hr2 => hent r2 m hr2)
        · exact ⟨r, by rw [h, dictGet_dictSet_self]⟩
      · intro r2 m h
        by_cases hr : r = r2
        · -- the newly registered node
          subst hr
          rw [dictGet_dictSet_self] at h
          injection h with h
          subst h
          unfold PlaceOk
          rw [hplace]
          refine ⟨fun hmf => absurd (f1 _ hmf) (Nat.lt_irrefl _),
            cid, hlook, ?_, ?_⟩
          · exact (hmembers cid st.freshId).mpr (Or.inr ⟨rfl, rfl⟩)
          · intro c3 hc3
            rcases (hmembers c3 st.freshId).mp hc3 with h | ⟨hcc, _⟩
            · exact absurd (f3 c3 st.freshId h) (Nat.lt_irrefl _)
            · exact hcc
        · rw [dictGet_dictSet_ne _ _ _ _ hr] at h
          have hp2 := f9 r2 m h
          have hmlt := f4 r2 m h
          unfold PlaceOk at hp2 ⊢
          cases hpl2 : placeOf scene r2 with
          | clustered oi2 =>
            rw [hpl2] at hp2
            obtain ⟨hnf2, c2, hl2, hm2, hu2⟩ := hp2
            refine ⟨hnf2, c2, hl2, (hmembers c2 m).mpr (Or.inl hm2), ?_⟩
            intro c3 hc3
            rcases (hmembers c3 m).mp hc3 with h3 | ⟨_, h3⟩
            · exact hu2 c3 h3
            · exact absurd (h3 ▸ hmlt) (Nat.lt_irrefl _)
          | freeNode =>
            rw [hpl2] at hp2
            refine ⟨hp2.1, ?_⟩
            intro c3 hc3
            rcases (hmembers c3 m).mp hc3 with h3 | ⟨_, h3⟩
            · exact hp2.2 c3 h3
            · exact absurd (h3 ▸ hmlt) (Nat.lt_irrefl _)
          | notNode =>
            rw [hpl2] at hp2
            refine ⟨hp2.1, ?_⟩
            intro c3 hc3
            rcases (hmembers c3 m).mp hc3 with h3 | ⟨_, h3⟩
            · exact hp2.2 c3 h3
            · exact absurd (h3 ▸ hmlt) (Nat.lt_irrefl _)
      · intro p hp2
        have := f10 p hp2
        unfold Placed at this ⊢
        constructor
        · rcases this.1 with h | ⟨c3, hc3⟩
          · exact Or.inl h
          · exact Or.inr ⟨c3, (hmembers c3 _).mpr (Or.inl hc3)⟩
        · rcases this.2 with h | ⟨c3, hc3⟩
          · exact Or.inl h
          · exact Or.inr ⟨c3, (hmembers c3 _).mpr (Or.inl hc3)⟩
    · refine ⟨Nat.le_succ _, hent, fun _ _ h => h, fun _ h => h,
        fun c3 m h => (hmembers c3 m).mpr (Or.inl h), ?_,
        fun _ _ h => Or.inr h⟩
      intro c3 h
      by_cases hc : cid = c3
      · subst hc; rw [dictGet_dictSet_self]; rfl
      · rw [dictGet_dictSet_ne _ _ _ _ hc]; exact h
    · rw [dictGet_dictSet_self]
    · exact (hmembers cid st.freshId).mpr (Or.inr ⟨rfl, rfl⟩)

theorem declare_node_free_ok (scene : Scene) (st : BuildState)
    (r : StructRef) (lab : Option Name) (cats : Option Cats)
    (hInv : BuildInv scene st)
    (hplace : placeOf scene r = .freeNode) :
    BuildInv scene (declare_node st (some r) none lab cats).2 ∧
    StepOk st (declare_node st (some r) none lab cats).2 ∧
    dictGet (declare_node st (some r) none lab cats).2.entityIds r =
      some (declare_node st (some r) none lab cats).1 ∧
    (declare_node st (some r) none lab cats).1 ∈
      (declare_node st (some r) none lab cats).2.graph.free_nodes ∧
    (declare_node st (some r) none lab cats).2.clusterIds =
      st.clusterIds := by
  cases hn : dictGet st.entityIds r with
  | some n =>
    have hp := hInv.place r n hn
    unfold PlaceOk at hp
    rw [hplace] at hp
    obtain ⟨hf, hnc⟩ := hp
    have hsetadd : setAdd st.graph.free_nodes n = st.graph.free_nodes := by
      unfold setAdd; simp [hf]
    have heq : declare_node st (some r) none lab cats =
        (n,
          { st with
            graph :=
              { st.graph with
                free_nodes := st.graph.free_nodes,
                labels := optDictSet st.graph.labels n (lab.map some),
                categories := optDictSet st.graph.categories n cats } }) := by
      simp only [declare_node, declare_entity_id, hn]
      rw [hsetadd]
    rw [heq]
    have hgr : ∀ c2 m,
        (m ∈ clusterMembers
          { st with
            graph :=
              { st.graph with
                free_nodes := st.graph.free_nodes,
                labels := optDictSet st.graph.labels n (lab.map some),
                categories := optDictSet st.graph.categories n cats }
            }.graph c2 ↔ m ∈ clusterMembers st.graph c2) := by
      intro c2 m; rfl
    refine ⟨?_, ?_, hn, hf, rfl⟩
    · obtain ⟨f1, f2, f3, f4, f5, f6, f7, f8, f9, f10⟩ := hInv
      exact ⟨f1, f2, f3, f4, f5, f6, f7, f8,
        fun r2 m h => f9 r2 m h, fun p hp2 => f10 p hp2⟩
    · exact ⟨Nat.le_refl _, fun _ _ h => h, fun _ _ h => h, fun _ h => h,
        fun _ _ h => h, fun _ h => h, fun _ _ h => Or.inr h⟩
  | none =>
    have hfreshfree : st.freshId ∉ st.graph.free_nodes := by
      intro hmm
      exact absurd (hInv.freeLt _ hmm) (Nat.lt_irrefl _)
    have hsetadd : setAdd st.graph.free_nodes st.freshId =
        st.graph.free_nodes ++ [st.freshId] := by
      unfold setAdd; simp [hfreshfree]
    have heq : declare_node st (some r) none lab cats =
        (st.freshId,
          { st with
            freshId := st.freshId + 1,
            entityIds := dictSet st.entityIds r st.freshId,
            graph :=
              { st.graph with
                free_nodes := st.graph.free_nodes ++ [st.freshId],
                labels := optDictSet st.graph.labels st.freshId
                  (lab.map some),
                categories :=
                  optDictSet st.graph.categories st.freshId cats } }) := by
      simp only [declare_node, declare_entity_id, hn]
      rw [hsetadd]
    rw [heq]
    dsimp only
    have hfree : ∀ m, m ∈ st.graph.free_nodes ++ [st.freshId] ↔
        (m ∈ st.graph.free_nodes ∨ m = st.freshId) := by
      intro m; simp
    have hent : ∀ r2 m, dictGet st.entityIds r2 = some m →
        dictGet (dictSet st.entityIds r st.freshId) r2 = some m := by
      intro r2 m h
      have hne : ¬ r = r2 := by
        intro he; rw [← he] at h; rw [h] at hn; exact Option.noConfusion hn
      rw [dictGet_dictSet_ne _ _ _ _ hne]
      exact h
    refine ⟨?_, ?_, ?_, ?_, rfl⟩
    · obtain ⟨f1, f2, f3, f4, f5, f6, f7, f8, f9, f10⟩ := hInv
      refine ⟨?_, ?_, ?_, ?_, ?_, ?_, f7,
        (fun c2 m h => (f8 c2 m h).imp (fun r2 hr2 => hent r2 m hr2)),
        ?_, ?_⟩
      · intro m h
        rcases (hfree m).mp h with h | h
        · exact Nat.lt_succ_of_lt (f1 m h)
        · rw [h]; exact Nat.lt_succ_self _
      · intro c2 h; exact Nat.lt_succ_of_lt (f2 c2 h)
      · intro c2 m h; exact Nat.lt_succ_of_lt (f3 c2 m h)
      · intro r2 m h
        by_cases hr : r = r2
        · rw [← hr, dictGet_dictSet_self] at h
          injection h with h
          rw [← h]; exact Nat.lt_succ_self _
        · rw [dictGet_dictSet_ne _ _ _ _ hr] at h
          exact Nat.lt_succ_of_lt (f4 r2 m h)
      · intro r2 c2 h; exact Nat.lt_succ_of_lt (f5 r2 c2 h)
      · intro r1 r2 m h1 h2
        by_cases hr1 : r = r1
        · by_cases hr2 : r = r2
          · rw [← hr1, ← hr2]
          · rw [← hr1, dictGet_dictSet_self] at h1
            rw [dictGet_dictSet_ne _ _ _ _ hr2] at h2
            injection h1 with h1
            exact absurd (h1 ▸ f4 r2 m h2) (Nat.lt_irrefl _)
        · by_cases hr2 : r = r2
          · rw [← hr2, dictGet_dictSet_self] at h2
            rw [dictGet_dictSet_ne _ _ _ _ hr1] at h1
            injection h2 with h2
            exact absurd (h2 ▸ f4 r1 m h1) (Nat.lt_irrefl _)
          · rw [dictGet_dictSet_ne _ _ _ _ hr1] at h1
            rw [dictGet_dictSet_ne _ _ _ _ hr2] at h2
            exact f6 r1 r2 m h1 h2
      · intro r2 m h
        by_cases hr : r = r2
        · subst hr
          rw [dictGet_dictSet_self] at h
          injection h with h
          subst h
          unfold PlaceOk
          rw [hplace]
          refine ⟨(hfree st.freshId).mpr (Or.inr rfl), ?_⟩
          intro c3 hc3
          exact absurd (f3 c3 st.freshId hc3) (Nat.lt_irrefl _)
        · rw [dictGet_dictSet_ne _ _ _ _ hr] at h
          have hp2 := f9 r2 m h
          have hmlt := f4 r2 m h
          unfold PlaceOk at hp2 ⊢
          cases hpl2 : placeOf scene r2 with
          | clustered oi2 =>
            rw [hpl2] at hp2
            obtain ⟨hnf2, c2, hl2, hm2, hu2⟩ := hp2
            refine ⟨?_, c2, hl2, hm2, hu2⟩
            intro hmf
            rcases (hfree m).mp hmf with h3 | h3
            · exact hnf2 h3
            · exact absurd (h3 ▸ hmlt) (Nat.lt_irrefl _)
          | freeNode =>
            rw [hpl2] at hp2
            exact ⟨(hfree m).mpr (Or.inl hp2.1), hp2.2⟩
          | notNode =>
            rw [hpl2] at hp2
            refine ⟨?_, hp2.2⟩
            intro hmf
            rcases (hfree m).mp hmf with h3 | h3
            · exact hp2.1 h3
            · exact absurd (h3 ▸ hmlt) (Nat.lt_irrefl _)
      · intro p hp2
        have := f10 p hp2
        unfold Placed at this ⊢
        constructor
        · rcases this.1 with h | h
          · exact Or.inl ((hfree _).mpr (Or.inl h))
          · exact Or.inr h
        · rcases this.2 with h | h
          · exact Or.inl ((hfree _).mpr (Or.inl h))
          · exact Or.inr h
    · exact ⟨Nat.le_succ _, hent, fun _ _ h => h,
        fun m h => (hfree m).mpr (Or.inl h), fun _ _ h => h, fun _ h => h,
        fun _ _ h => Or.inr h⟩
    · rw [dictGet_dictSet_self]
    · exact (hfree st.freshId).mpr (Or.inr rfl)

theorem declare_edge_ok (scene : Scene) (st : BuildState)
    (key : Option StructRef) (o d : Nat) (lab : Option Name)
    (cats : Option Cats) (hInv : BuildInv scene st)
    (ho : Placed st.graph o) (hd : Placed st.graph d)
    (hkey : key = none ∨ ∃ a b c, key = some (.constraintOf a b c)) :
    BuildInv scene (declare_edge st key o d lab cats).2 ∧
    StepOk st (declare_edge st key o d lab cats).2 := by
  have hedges : ∀ (eid : Nat) (p : Nat × (Nat × Nat)),
      p ∈ dictSet st.graph.edge_tuples eid (o, d) →
      p = (eid, (o, d)) ∨ p ∈ st.graph.edge_tuples :=
    fun eid p hp => mem_dictSet _ _ _ p hp
  obtain ⟨f1, f2, f3, f4, f5, f6, f7, f8, f9, f10⟩ := hInv
  cases key with
  | none =>
    have heq : declare_edge st none o d lab cats =
        (st.freshId,
          { st with
            freshId := st.freshId + 1,
            graph :=
              { st.graph with
                edge_tuples :=
                  dictSet st.graph.edge_tuples st.freshId (o, d),
                labels := optDictSet st.graph.labels st.freshId
                  (lab.map some),
                categories :=
                  optDictSet st.graph.categories st.freshId cats } }) := by
      simp only [declare_edge, declare_entity_id]
    rw [heq]
    dsimp only
    constructor
    · refine ⟨fun m h => Nat.lt_succ_of_lt (f1 m h),
        fun c h => Nat.lt_succ_of_lt (f2 c h),
        fun c m h => Nat.lt_succ_of_lt (f3 c m h),
        fun r m h => Nat.lt_succ_of_lt (f4 r m h),
        fun r c h => Nat.lt_succ_of_lt (f5 r c h),
        f6, f7, f8, fun r m h => f9 r m h, ?_⟩
      intro p hp
      rcases hedges st.freshId p hp with h | h
      · rw [h]; exact ⟨ho, hd⟩
      · exact f10 p h
    · exact ⟨Nat.le_succ _, fun _ _ h => h, fun _ _ h => h, fun _ h => h,
        fun _ _ h => h, fun _ h => h, fun _ _ h => Or.inr h⟩
  | some k =>
    have hplacek : placeOf scene k = NodePlace.notNode := by
      rcases hkey with hkey | ⟨a, b, c, hkey⟩
      · exact Option.noConfusion hkey
      · rw [Option.some.inj hkey]
        rfl
    cases hk : dictGet st.entityIds k with
    | some eid =>
      have heq : declare_edge st (some k) o d lab cats =
          (eid,
            { st with
              graph :=
                { st.graph with
                  edge_tuples := dictSet st.graph.edge_tuples eid (o, d),
                  labels := optDictSet st.graph.labels eid (lab.map some),
                  categories :=
                    optDictSet st.graph.categories eid cats } }) := by
        simp only [declare_edge, declare_entity_id, hk]
      rw [heq]
      dsimp only
      constructor
      · refine ⟨f1, f2, f3, f4, f5, f6, f7, f8, fun r m h => f9 r m h, ?_⟩
        intro p hp
        rcases hedges eid p hp with h | h
        · rw [h]; exact ⟨ho, hd⟩
        · exact f10 p h
      · exact ⟨Nat.le_refl _, fun _ _ h => h, fun _ _ h => h, fun _ h => h,
          fun _ _ h => h, fun _ h => h, fun _ _ h => Or.inr h⟩
    | none =>
      have heq : declare_edge st (some k) o d lab cats =
          (st.freshId,
            { st with
              freshId := st.freshId + 1,
              entityIds := dictSet st.entityIds k st.freshId,
              graph :=
                { st.graph with
                  edge_tuples :=
                    dictSet st.graph.edge_tuples st.freshId (o, d),
                  labels := optDictSet st.graph.labels st.freshId
                    (lab.map some),
                  categories :=
                    optDictSet st.graph.categories st.freshId cats } }) := by
        simp only [declare_edge, declare_entity_id, hk]
      rw [heq]
      dsimp only
      have hent : ∀ r2 m, dictGet st.entityIds r2 = some m →
          dictGet (dictSet st.entityIds k st.freshId) r2 = some m := by
        intro r2 m h
        have hne : ¬ k = r2 := by
          intro he; rw [← he] at h; rw [h] at hk; exact Option.noConfusion hk
        rw [dictGet_dictSet_ne _ _ _ _ hne]
        exact h
      constructor
      · refine ⟨fun m h => Nat.lt_succ_of_lt (f1 m h),
          fun c h => Nat.lt_succ_of_lt (f2 c h),
          fun c m h => Nat.lt_succ_of_lt (f3 c m h), ?_,
          fun r c h => Nat.lt_succ_of_lt (f5 r c h), ?_, f7,
          (fun c2 m h => (f8 c2 m h).imp (fun r2 hr2 => hent r2 m hr2)),
          ?_, ?_⟩
        · intro r2 m h
          by_cases hr : k = r2
          · rw [← hr, dictGet_dictSet_self] at h
            injection h with h
            rw [← h]; exact Nat.lt_succ_self _
          · rw [dictGet_dictSet_ne _ _ _ _ hr] at h
            exact Nat.lt_succ_of_lt (f4 r2 m h)
        · intro r1 r2 m h1 h2
          by_cases hr1 : k = r1
          · by_cases hr2 : k = r2
            · rw [← hr1, ← hr2]
            · rw [← hr1, dictGet_dictSet_self] at h1
              rw [dictGet_dictSet_ne _ _ _ _ hr2] at h2
              injection h1 with h1
              exact absurd (h1 ▸ f4 r2 m h2) (Nat.lt_irrefl _)
          · by_cases hr2 : k = r2
            · rw [← hr2, dictGet_dictSet_self] at h2
              rw [dictGet_dictSet_ne _ _ _ _ hr1] at h1
              injection h2 with h2
              exact absurd (h2 ▸ f4 r1 m h1) (Nat.lt_irrefl _)
            · rw [dictGet_dictSet_ne _ _ _ _ hr1] at h1
              rw [dictGet_dictSet_ne _ _ _ _ hr2] at h2
              exact f6 r1 r2 m h1 h2
        · intro r2 m h
          by_cases hr : k = r2
          · subst hr
            rw [dictGet_dictSet_self] at h
            injection h with h
            subst h
            unfold PlaceOk
            rw [hplacek]
            refine ⟨fun hmf => absurd (f1 _ hmf) (Nat.lt_irrefl _), ?_⟩
            intro c3 hc3
            exact absurd (f3 c3 st.freshId hc3) (Nat.lt_irrefl _)
          · rw [dictGet_dictSet_ne _ _ _ _ hr] at h
            exact f9 r2 m h
        · intro p hp
          rcases hedges st.freshId p hp with h | h
          · rw [h]; exact ⟨ho, hd⟩
          · exact f10 p h
      · exact ⟨Nat.le_succ _, hent, fun _ _ h => h, fun _ h => h,
          fun _ _ h => h, fun _ h => h, fun _ _ h => Or.inr h⟩

theorem foldl_ok {α : Type} (scene : Scene) (f : BuildState → α → BuildState)
    (hf : ∀ st a, BuildInv scene st →
      BuildInv scene (f st a) ∧ StepOk st (f st a)) :
    ∀ (l : List α) (st : BuildState), BuildInv scene st →
      BuildInv scene (List.foldl f st l) ∧
        StepOk st (List.foldl f st l) := by
  intro l
  induction l with
  | nil => intro st h; exact ⟨h, StepOk.rfl st⟩
  | cons a rest ih =>
    intro st h
    have h1 := hf st a h
    have h2 := ih (f st a) h1.1
    exact ⟨h2.1, StepOk.trans h1.2 h2.2⟩

theorem declare_free_node_ok (scene : Scene) (st : BuildState) (oi : Nat)
    (hInv : BuildInv scene st)
    (hot : (objAt scene oi).otype = .other) :
    BuildInv scene (declare_free_node scene st oi).2 ∧
    StepOk st (declare_free_node scene st oi).2 ∧
    Placed (declare_free_node scene st oi).2.graph
      (declare_free_node scene st oi).1 := by
  have hplace : placeOf scene (.obj oi) = .freeNode := by
    simp [placeOf, hot]
  have h := declare_node_free_ok scene st (.obj oi)
    (some (objAt scene oi).oname) (some (.tup [strn ("free")])) hInv hplace
  exact ⟨h.1, h.2.1, Or.inl h.2.2.2.1⟩

theorem declare_head_node_ok (scene : Scene) (st : BuildState) (oi : Nat)
    (cats : Cats) (hInv : BuildInv scene st)
    (hot : ¬ (objAt scene oi).otype = .other) :
    BuildInv scene (declare_head_node scene st oi cats).2 ∧
    StepOk st (declare_head_node scene st oi cats).2 ∧
    Placed (declare_head_node scene st oi cats).2.graph
      (declare_head_node scene st oi cats).1 := by
  have hplace : placeOf scene (.obj oi) = .clustered oi := by
    simp [placeOf, hot]
  unfold declare_head_node
  rcases hdc : declare_cluster scene st (some oi) none with ⟨cid, st2⟩
  have hc := declare_cluster_ok scene st oi none hInv
  rw [hdc] at hc
  obtain ⟨hInv2, hstep2, hlook2, _, _, _, _⟩ := hc
  have hn := declare_node_clustered_ok scene st2 (.obj oi) oi cid
    (some (strn ("•"))) (some cats) hInv2 hplace hlook2
  exact ⟨hn.1, StepOk.trans hstep2 hn.2.1, Or.inr ⟨cid, hn.2.2.2.1⟩⟩

theorem declare_plain_bone_node_ok (scene : Scene) (st : BuildState)
    (oi bi : Nat) (rsx : Bool) (excl : Nat → Nat → Bool)
    (hInv : BuildInv scene st) :
    BuildInv scene (declare_plain_bone_node scene st oi bi rsx excl).2 ∧
    StepOk st (declare_plain_bone_node scene st oi bi rsx excl).2 ∧
    (∀ n, (declare_plain_bone_node scene st oi bi rsx excl).1 = some n →
      Placed (declare_plain_bone_node scene st oi bi rsx excl).2.graph n) := by
  unfold declare_plain_bone_node
  by_cases hexcl : excl oi bi = true
  · simp only [hexcl, if_true]
    exact ⟨hInv, StepOk.rfl st, fun n h => Option.noConfusion h⟩
  · simp only [hexcl, Bool.false_eq_true, if_false]
    by_cases hrs : (rsx && (classify_bone scene oi bi).1 =
        BoneType.right_symmetric) = true
    · simp only [hrs, if_true]
      exact ⟨hInv, StepOk.rfl st, fun n h => Option.noConfusion h⟩
    · simp only [hrs, Bool.false_eq_true, if_false]
      rcases hdc : declare_cluster scene st (some oi) none with ⟨cid, st2⟩
      have hc := declare_cluster_ok scene st oi none hInv
      rw [hdc] at hc
      obtain ⟨hInv2, hstep2, hlook2, _, _, _, _⟩ := hc
      have hplace : placeOf scene (.bone oi bi) = .clustered oi := rfl
      have hn := declare_node_clustered_ok scene st2 (.bone oi bi) oi cid
        (some (if (classify_bone scene oi bi).1 = .left_symmetric then
            ((classify_bone scene oi bi).2.2).getD (boneAt scene oi bi).bname
          else (boneAt scene oi bi).bname))
        (some (.tup [strn ("bone"),
          (if (boneAt scene oi bi).use_deform then strn ("deforming")
            else []),
          boneTypeName (classify_bone scene oi bi).1]))
        hInv2 hplace hlook2
      simp only [hdc]
      refine ⟨hn.1, StepOk.trans hstep2 hn.2.1, ?_⟩
      intro n h
      injection h with h
      rw [← h]
      exact Or.inr ⟨cid, hn.2.2.2.1⟩

theorem declare_armature_entities_dest_ok (scene : Scene) (st : BuildState)
    (oi : Nat) (subtarget : Option Name) (rsx : Bool)
    (excl : Nat → Nat → Bool) (hInv : BuildInv scene st)
    (hot : (objAt scene oi).otype = .armature) :
    DeclOk scene st
      (declare_armature_entities_dest scene st oi subtarget rsx excl) := by
  have hot2 : ¬ (objAt scene oi).otype = .other := by
    rw [hot]; intro h; cases h
  unfold declare_armature_entities_dest
  by_cases hs : optTruthy subtarget = true
  · simp only [hs, if_true]
    cases hb : boneIdxByName (objAt scene oi) (subtarget.getD []) with
    | none => exact ⟨hInv, StepOk.rfl st, fun n h => Option.noConfusion h⟩
    | some bi =>
      have h := declare_plain_bone_node_ok scene st oi bi rsx excl hInv
      exact ⟨h.1, h.2.1, h.2.2⟩
  · simp only [hs, Bool.false_eq_true, if_false]
    rcases hdh : declare_head_node scene st oi
        (.str (strn ("armature_head"))) with ⟨hid, st2⟩
    have hh := declare_head_node_ok scene st oi
      (.str (strn ("armature_head"))) hInv hot2
    rw [hdh] at hh
    simp only [hdh]
    refine ⟨hh.1, hh.2.1, ?_⟩
    intro n hn
    injection hn with hn
    rw [← hn]
    exact hh.2.2

theorem declare_mesh_entities_dest_ok (scene : Scene) (st : BuildState)
    (oi : Nat) (subtarget : Option Name) (hInv : BuildInv scene st)
    (hot : (objAt scene oi).otype = .mesh) :
    DeclOk scene st (declare_mesh_entities_dest scene st oi subtarget) := by
  have hot2 : ¬ (objAt scene oi).otype = .other := by
    rw [hot]; intro h; cases h
  unfold declare_mesh_entities_dest
  rcases hdc : declare_cluster scene st (some oi) none with ⟨cid, st2⟩
  have hc := declare_cluster_ok scene st oi none hInv
  rw [hdc] at hc
  obtain ⟨hInv2, hstep2, hlook2, _, _, _, _⟩ := hc
  rcases hdh : declare_head_node scene st2 oi (.str (strn ("mesh_head")))
    with ⟨hid, st3⟩
  have hh := declare_head_node_ok scene st2 oi (.str (strn ("mesh_head")))
    hInv2 hot2
  rw [hdh] at hh
  obtain ⟨hInv3, hstep3, hplacedh⟩ := hh
  have hlook3 : dictGet st3.clusterIds (.obj oi) = some cid :=
    hstep3.clu_mono _ _ hlook2
  simp only [hdc, hdh]
  by_cases hs : optTruthy subtarget = true
  · simp only [hs, if_true]
    cases hv : (objAt scene oi).vertex_groups.findIdx?
        (fun vg => vg = subtarget.getD []) with
    | none =>
      exact ⟨hInv3, StepOk.trans hstep2 hstep3,
        fun n h => Option.noConfusion h⟩
    | some vgi =>
      have hplace : placeOf scene (.vgroup oi vgi) = .clustered oi := rfl
      have hn := declare_node_clustered_ok scene st3 (.vgroup oi vgi) oi cid
        (some (subtarget.getD [])) (some (.str (strn ("vertex_group"))))
        hInv3 hplace hlook3
      refine ⟨hn.1, StepOk.trans (StepOk.trans hstep2 hstep3) hn.2.1, ?_⟩
      intro n h
      injection h with h
      rw [← h]
      exact Or.inr ⟨cid, hn.2.2.2.1⟩
  · simp only [hs, Bool.false_eq_true, if_false]
    refine ⟨hInv3, StepOk.trans hstep2 hstep3, ?_⟩
    intro n h
    injection h with h
    rw [← h]
    exact hplacedh

theorem declare_destination_entities_dest_ok (scene : Scene)
    (st : BuildState) (oi : Nat) (subtarget : Option Name) (rsx : Bool)
    (excl : Nat → Nat → Bool) (hInv : BuildInv scene st) :
    DeclOk scene st
      (declare_destination_entities_dest scene st oi subtarget rsx excl) := by
  unfold declare_destination_entities_dest
  cases hot : (objAt scene oi).otype with
  | armature =>
    exact declare_armature_entities_dest_ok scene st oi subtarget rsx excl
      hInv hot
  | mesh => exact declare_mesh_entities_dest_ok scene st oi subtarget hInv hot
  | other =>
    have h := declare_free_node_ok scene st oi hInv hot
    rcases hdf : declare_free_node scene st oi with ⟨nid, st2⟩
    rw [hdf] at h
    simp only [hdf]
    refine ⟨h.1, h.2.1, ?_⟩
    intro n hn
    injection hn with hn
    rw [← hn]
    exact h.2.2

theorem declare_constraint_edges_ok (scene : Scene) :
    ∀ (cs : List BoneConstraint) (st : BuildState) (origin oi : Nat)
      (obi : Option Nat) (ci : Nat) (home : Option Nat)
      (excl : Nat → Nat → Bool),
    BuildInv scene st → Placed st.graph origin →
    BuildInv scene
        (declare_constraint_edges scene st origin oi obi cs ci home excl) ∧
      StepOk st
        (declare_constraint_edges scene st origin oi obi cs ci home excl) := by
  intro cs
  induction cs with
  | nil =>
    intro st origin oi obi ci home excl hInv hor
    exact ⟨hInv, StepOk.rfl st⟩
  | cons c rest ih =>
    intro st origin oi obi ci home excl hInv hor
    unfold declare_constraint_edges
    cases ht : c.target with
    | none => exact ⟨hInv, StepOk.rfl st⟩
    | some ti =>
      rcases hdd : declare_destination_entities_dest scene st ti c.subtarget
          (home.isSome && home = some ti) excl with ⟨dst, st2⟩
      have hd := declare_destination_entities_dest_ok scene st ti c.subtarget
        (home.isSome && home = some ti) excl hInv
      rw [hdd] at hd
      obtain ⟨hInv2, hstep2, hplaced⟩ := hd
      simp only [hdd]
      cases dst with
      | none =>
        have hrest := ih st2 origin oi obi (ci + 1) home excl hInv2
          (placed_mono hstep2 hor)
        exact ⟨hrest.1, StepOk.trans hstep2 hrest.2⟩
      | some d =>
        have hpd : Placed st2.graph d := hplaced d rfl
        have he := declare_edge_ok scene st2
          (some (.constraintOf oi obi ci)) origin d (some c.cname)
          (some (.tup [strn ("constraint")])) hInv2
          (placed_mono hstep2 hor) hpd (Or.inr ⟨oi, obi, ci, rfl⟩)
        have hrest := ih
          (declare_edge st2 (some (.constraintOf oi obi ci)) origin d
            (some c.cname) (some (.tup [strn ("constraint")]))).2
          origin oi obi (ci + 1) home excl he.1
          (placed_mono he.2 (placed_mono hstep2 hor))
        exact ⟨hrest.1,
          StepOk.trans hstep2 (StepOk.trans he.2 hrest.2)⟩

theorem declare_constrained_bone_node_ok (scene : Scene) (st : BuildState)
    (oi bi : Nat) (rsx : Bool) (excl : Nat → Nat → Bool)
    (hInv : BuildInv scene st) :
    BuildInv scene
        (declare_constrained_bone_node scene st oi bi rsx excl).2 ∧
      StepOk st (declare_constrained_bone_node scene st oi bi rsx excl).2 := by
  unfold declare_constrained_bone_node
  rcases hdb : declare_plain_bone_node scene st oi bi rsx excl with ⟨nid, st2⟩
  have hb := declare_plain_bone_node_ok scene st oi bi rsx excl hInv
  rw [hdb] at hb
  obtain ⟨hInv2, hstep2, hplaced⟩ := hb
  simp only [hdb]
  cases nid with
  | none => exact ⟨hInv2, hstep2⟩
  | some n =>
    have hpn : Placed st2.graph n := hplaced n rfl
    have hce := declare_constraint_edges_ok scene
      (poseConstraintsByName (objAt scene oi) (boneAt scene oi bi).bname)
      st2 n oi (some bi) 0 (some oi) excl hInv2 hpn
    exact ⟨hce.1, StepOk.trans hstep2 hce.2⟩

theorem declare_armature_entities_root_ok (scene : Scene) (st : BuildState)
    (oi : Nat) (rsx : Bool) (excl : Nat → Nat → Bool)
    (hInv : BuildInv scene st)
    (hot : (objAt scene oi).otype = .armature) :
    BuildInv scene
        (declare_armature_entities_root scene st oi rsx excl).2 ∧
      StepOk st (declare_armature_entities_root scene st oi rsx excl).2 := by
  have hot2 : ¬ (objAt scene oi).otype = .other := by
    rw [hot]; intro h; cases h
  unfold declare_armature_entities_root
  rcases hdh : declare_head_node scene st oi
      (.str (strn ("armature_head"))) with ⟨hid, st2⟩
  have hh := declare_head_node_ok scene st oi
    (.str (strn ("armature_head"))) hInv hot2
  rw [hdh] at hh
  obtain ⟨hInv2, hstep2, hplacedh⟩ := hh
  have hce := declare_constraint_edges_ok scene (objAt scene oi).constraints
    st2 hid oi none 0 none excl hInv2 hplacedh
  have hfold := foldl_ok scene
    (fun st bi => (declare_constrained_bone_node scene st oi bi rsx excl).2)
    (fun st bi h => declare_constrained_bone_node_ok scene st oi bi rsx excl h)
    (List.range (objAt scene oi).bones.length) _ hce.1
  simp only [hdh]
  exact ⟨hfold.1, StepOk.trans hstep2 (StepOk.trans hce.2 hfold.2)⟩

theorem declare_mesh_entities_root_ok (scene : Scene) (st : BuildState)
    (oi : Nat) (excl : Nat → Nat → Bool) (hInv : BuildInv scene st)
    (hot : (objAt scene oi).otype = .mesh) :
    BuildInv scene (declare_mesh_entities_root scene st oi excl).2 ∧
      StepOk st (declare_mesh_entities_root scene st oi excl).2 := by
  have hot2 : ¬ (objAt scene oi).otype = .other := by
    rw [hot]; intro h; cases h
  unfold declare_mesh_entities_root
  rcases hdc : declare_cluster scene st (some oi) none with ⟨cid, st2⟩
  have hc := declare_cluster_ok scene st oi none hInv
  rw [hdc] at hc
  obtain ⟨hInv2, hstep2, _, _, _, _, _⟩ := hc
  rcases hdh : declare_head_node scene st2 oi (.str (strn ("mesh_head")))
    with ⟨hid, st3⟩
  have hh := declare_head_node_ok scene st2 oi (.str (strn ("mesh_head")))
    hInv2 hot2
  rw [hdh] at hh
  obtain ⟨hInv3, hstep3, hplacedh⟩ := hh
  have hce := declare_constraint_edges_ok scene (objAt scene oi).constraints
    st3 hid oi none 0 none excl hInv3 hplacedh
  simp only [hdc, hdh]
  exact ⟨hce.1, StepOk.trans hstep2 (StepOk.trans hstep3 hce.2)⟩

theorem declare_destination_entities_root_ok (scene : Scene)
    (st : BuildState) (oi : Nat) (rsx : Bool) (excl : Nat → Nat → Bool)
    (hInv : BuildInv scene st) :
    BuildInv scene
        (declare_destination_entities_root scene st oi rsx excl).2 ∧
      StepOk st (declare_destination_entities_root scene st oi rsx excl).2 := by
  unfold declare_destination_entities_root
  cases hot : (objAt scene oi).otype with
  | armature =>
    exact declare_armature_entities_root_ok scene st oi rsx excl hInv hot
  | mesh => exact declare_mesh_entities_root_ok scene st oi excl hInv hot
  | other =>
    have h := declare_free_node_ok scene st oi hInv hot
    rcases hdf : declare_free_node scene st oi with ⟨nid, st2⟩
    rw [hdf] at h
    obtain ⟨hInv2, hstep2, hplaced⟩ := h
    have hce := declare_constraint_edges_ok scene
      (objAt scene oi).constraints st2 nid oi none 0 none excl hInv2 hplaced
    simp only [hdf]
    exact ⟨hce.1, StepOk.trans hstep2 hce.2⟩

theorem cluKeysObj_mono {st st2 : BuildState} (h : StepOk st st2)
    (hc : CluKeysObj st) : CluKeysObj st2 :=
  fun r c hg => (h.clu_keys r c hg).elim id (fun h2 => hc r c h2)

theorem cluKeysObj_empty : CluKeysObj ⟨0, [], [], initialize_graph_data⟩ := by
  intro r c h
  simp [dictGet] at h

theorem placeOf_bone_ne (scene : Scene) (oi bi : Nat) :
    ¬ placeOf scene (.bone oi bi) = NodePlace.notNode := by
  intro h
  cases h

theorem placeOf_obj_ne (scene : Scene) (oi : Nat) :
    ¬ placeOf scene (.obj oi) = NodePlace.notNode := by
  unfold placeOf
  by_cases h : (objAt scene oi).otype = ObjType.other
  · simp [h]
  · simp [h]

theorem placed_of_entity (scene : Scene) (st : BuildState) (r : StructRef)
    (n : Nat) (hInv : BuildInv scene st)
    (hn : dictGet st.entityIds r = some n)
    (hshape : ¬ placeOf scene r = NodePlace.notNode) :
    Placed st.graph n := by
  have hp := hInv.place r n hn
  unfold PlaceOk at hp
  revert hp
  cases hpl : placeOf scene r with
  | clustered oi =>
    intro hp
    exact Or.inr ⟨hp.2.choose, hp.2.choose_spec.2.1⟩
  | freeNode =>
    intro hp
    exact Or.inl hp.1
  | notNode =>
    intro hp
    exact absurd hpl hshape

theorem declare_parent_relation_edge_ok (scene : Scene) (st : BuildState)
    (r : StructRef) (hInv : BuildInv scene st) :
    BuildInv scene (declare_parent_relation_edge scene st r) ∧
      StepOk st (declare_parent_relation_edge scene st r) := by
  unfold declare_parent_relation_edge
  cases hn : dictGet st.entityIds r with
  | none => exact ⟨hInv, StepOk.rfl st⟩
  | some n =>
    cases r with
    | constraintOf a b c => exact ⟨hInv, StepOk.rfl st⟩
    | vgroup a b => exact ⟨hInv, StepOk.rfl st⟩
    | bone oi bi =>
      have hplN : Placed st.graph n :=
        placed_of_entity scene st _ n hInv hn (placeOf_bone_ne scene oi bi)
      cases hp : (boneAt scene oi bi).parent with
      | none =>
        simp only [parentStructOf, hp, Option.map_none', Option.none_bind]
        exact ⟨hInv, StepOk.rfl st⟩
      | some p =>
        simp only [parentStructOf, hp, Option.map_some', Option.some_bind]
        cases hpe : dictGet st.entityIds (StructRef.bone oi p) with
        | none => exact ⟨hInv, StepOk.rfl st⟩
        | some pn =>
          have hplP : Placed st.graph pn :=
            placed_of_entity scene st _ pn hInv hpe
              (placeOf_bone_ne scene oi p)
          exact declare_edge_ok scene st none n pn none
            (some (.tup [strn ("parent")])) hInv hplN hplP (Or.inl rfl)
    | obj oi =>
      have hplN : Placed st.graph n :=
        placed_of_entity scene st _ n hInv hn (placeOf_obj_ne scene oi)
      cases hp : (objAt scene oi).parent with
      | none =>
        simp only [parentStructOf, hp, Option.map_none', Option.none_bind]
        exact ⟨hInv, StepOk.rfl st⟩
      | some poi =>
        simp only [parentStructOf, hp, Option.map_some', Option.some_bind]
        by_cases htb : (decide ((objAt scene poi).otype = ObjType.armature) &&
            (objAt scene oi).parent_type_is_bone) = true
        · simp only [htb, if_true]
          cases hbi : boneIdxByName (objAt scene poi)
              (objAt scene oi).parent_bone with
          | none =>
            simp only [Option.map_none', Option.none_bind]
            cases hpe : dictGet st.entityIds (StructRef.obj poi) with
            | none => exact ⟨hInv, StepOk.rfl st⟩
            | some pn =>
              have hplP : Placed st.graph pn :=
                placed_of_entity scene st _ pn hInv hpe
                  (placeOf_obj_ne scene poi)
              exact declare_edge_ok scene st none n pn none
                (some (.tup [strn ("parent")])) hInv hplN hplP (Or.inl rfl)
          | some pbi =>
            simp only [Option.map_some', Option.some_bind]
            cases hpe : dictGet st.entityIds (StructRef.bone poi pbi) with
            | none =>
              simp only [Option.none_bind]
              cases hpe2 : dictGet st.entityIds (StructRef.obj poi) with
              | none => exact ⟨hInv, StepOk.rfl st⟩
              | some pn =>
                have hplP : Placed st.graph pn :=
                  placed_of_entity scene st _ pn hInv hpe2
                    (placeOf_obj_ne scene poi)
                exact declare_edge_ok scene st none n pn none
                  (some (.tup [strn ("parent")])) hInv hplN hplP (Or.inl rfl)
            | some pn =>
              have hplP : Placed st.graph pn :=
                placed_of_entity scene st _ pn hInv hpe
                  (placeOf_bone_ne scene poi pbi)
              exact declare_edge_ok scene st none n pn none
                (some (.tup [strn ("parent")])) hInv hplN hplP (Or.inl rfl)
        · simp only [htb, Bool.false_eq_true, if_false]
          cases hpe : dictGet st.entityIds (StructRef.obj poi) with
          | none => exact ⟨hInv, StepOk.rfl st⟩
          | some pn =>
            have hplP : Placed st.graph pn :=
              placed_of_entity scene st _ pn hInv hpe
                (placeOf_obj_ne scene poi)
            exact declare_edge_ok scene st none n pn none
              (some (.tup [strn ("parent")])) hInv hplN hplP (Or.inl rfl)

theorem declare_root_bone_style_ok (scene : Scene) (st : BuildState)
    (r : StructRef) (hInv : BuildInv scene st) :
    BuildInv scene (declare_root_bone_style scene st r) ∧
      StepOk st (declare_root_bone_style scene st r) := by
  unfold declare_root_bone_style
  cases hn : dictGet st.entityIds r with
  | none => exact ⟨hInv, StepOk.rfl st⟩
  | some n =>
    by_cases hc : ((parentStructOf scene r).isNone &&
        is_bone_entity st.graph n) = true
    · simp only [hc, if_true]
      refine ⟨⟨hInv.freeLt, hInv.keyLt, hInv.memLt, hInv.entLt, hInv.cluLt,
        hInv.entInj, hInv.cluEntries, hInv.membersOrigin, hInv.place,
        hInv.edgesPlaced⟩,
        Nat.le_refl _, fun _ _ h => h, fun _ _ h => h, fun _ h => h,
        fun _ _ h => h, fun _ h => h, fun _ _ h => Or.inr h⟩
    · simp only [hc, Bool.false_eq_true, if_false]
      exact ⟨hInv, StepOk.rfl st⟩

theorem dictGet_dictDel {α β : Type} [DecidableEq α] (d : List (α × β))
    (k k2 : α) :
    dictGet (dictDel d k) k2 = if k2 = k then none else dictGet d k2 := by
  induction d with
  | nil =>
    simp only [dictDel, List.filter_nil, dictGet]
    split <;> rfl
  | cons p rest ih =>
    obtain ⟨k1, v1⟩ := p
    by_cases hk : k1 = k
    · subst hk
      have hstep : dictDel ((k1, v1) :: rest) k1 = dictDel rest k1 := by
        simp [dictDel, List.filter_cons]
      rw [hstep, ih]
      by_cases hk2 : k2 = k1
      · simp [hk2]
      · have h2 : ¬ k1 = k2 := fun hh => hk2 hh.symm
        simp [hk2, dictGet, h2]
    · have hstep : dictDel ((k1, v1) :: rest) k = (k1, v1) :: dictDel rest k := by
        simp [dictDel, List.filter_cons, hk]
      rw [hstep]
      by_cases hk2 : k1 = k2
      · subst hk2
        simp [dictGet, hk]
      · simp [dictGet, hk2, ih]

theorem setRemove_mem (s : List Nat) (n m : Nat) :
    m ∈ setRemove s n ↔ m ∈ s ∧ ¬ m = n := by
  simp [setRemove]

theorem is_unused_head_edge_free (g : GraphData) (n c : Nat)
    (h : is_unused_head_node g (some n) (some c) = true) :
    ∀ p ∈ g.edge_tuples, ¬ n = p.2.1 ∧ ¬ n = p.2.2 := by
  cases hb1 : catMem (strn ("head"))
      ((dictGet g.categories n).getD (Cats.tup [])) with
  | false => simp [is_unused_head_node, hb1] at h
  | true =>
    cases hcn : dictGet g.cluster_nodes c with
    | none =>
      simp [is_unused_head_node, hb1, hcn] at h
      intro p hp
      exact h p.1 p.2.1 p.2.2 hp
    | some ms =>
      by_cases hlen : ms.length = 1
      · simp [is_unused_head_node, hb1, hcn, hlen] at h
      · simp [is_unused_head_node, hb1, hcn, hlen] at h
        intro p hp
        exact h p.1 p.2.1 p.2.2 hp

theorem prune_core (scene : Scene) (st : BuildState) (r : StructRef)
    (n c : Nat) (hInv : BuildInv scene st) (hck : CluKeysObj st)
    (hnid : dictGet st.entityIds r = some n)
    (hcid : dictGet st.clusterIds r = some c)
    (hedge : ∀ p ∈ st.graph.edge_tuples, ¬ n = p.2.1 ∧ ¬ n = p.2.2) :
    BuildInv scene
      ⟨st.freshId, dictDel st.entityIds r, st.clusterIds,
        ⟨st.graph.free_nodes,
          dictSet st.graph.cluster_nodes c
            (setRemove ((dictGet st.graph.cluster_nodes c).getD []) n),
          st.graph.edge_tuples, st.graph.labels, st.graph.categories⟩⟩ := by
  have hmem' : ∀ c2 m,
      m ∈ (dictGet (dictSet st.graph.cluster_nodes c
          (setRemove ((dictGet st.graph.cluster_nodes c).getD []) n))
        c2).getD [] ↔
      (m ∈ clusterMembers st.graph c2 ∧ (c2 = c → ¬ m = n)) := by
    intro c2 m
    by_cases hc2 : c = c2
    · subst hc2
      rw [dictGet_dictSet_self, Option.getD_some, setRemove_mem]
      constructor
      · intro h
        exact ⟨h.1, fun _ => h.2⟩
      · intro h
        exact ⟨h.1, h.2 rfl⟩
    · rw [dictGet_dictSet_ne _ _ _ _ hc2]
      constructor
      · intro h
        exact ⟨h, fun he => (hc2 he.symm).elim⟩
      · intro h
        exact h.1
  have hnoc : ∀ c2, ¬ c2 = c → n ∉ clusterMembers st.graph c2 := by
    obtain ⟨oi, hr⟩ := hck r c hcid
    subst hr
    have hp := hInv.place _ n hnid
    unfold PlaceOk at hp
    revert hp
    cases hpl : placeOf scene (StructRef.obj oi) with
    | clustered oi2 =>
      intro hp
      obtain ⟨hnf, cc, hlcc, hmcc, huniq⟩ := hp
      have hoi : oi2 = oi := by
        simp only [placeOf] at hpl
        by_cases ho : (objAt scene oi).otype = ObjType.other
        · rw [if_pos ho] at hpl
          cases hpl
        · rw [if_neg ho] at hpl
          injection hpl with h
          exact h.symm
      subst hoi
      have hccc : cc = c := Option.some.inj (hlcc.symm.trans hcid)
      subst hccc
      intro c2 hc2 hm
      exact hc2 (huniq c2 hm)
    | freeNode =>
      intro hp
      exact fun c2 _ hm => hp.2 c2 hm
    | notNode =>
      intro hp
      exact fun c2 _ hm => hp.2 c2 hm
  have f2 : ∀ c2, (dictGet (dictSet st.graph.cluster_nodes c
      (setRemove ((dictGet st.graph.cluster_nodes c).getD []) n))
        c2).isSome → c2 < st.freshId := by
    intro c2 h2
    by_cases hc2 : c = c2
    · exact hc2 ▸ hInv.cluLt r c hcid
    · rw [dictGet_dictSet_ne _ _ _ _ hc2] at h2
      exact hInv.keyLt c2 h2
  have f3 : ∀ c2 m, m ∈ (dictGet (dictSet st.graph.cluster_nodes c
      (setRemove ((dictGet st.graph.cluster_nodes c).getD []) n))
        c2).getD [] → m < st.freshId :=
    fun c2 m hm => hInv.memLt c2 m ((hmem' c2 m).mp hm).1
  have f4 : ∀ r2 m, dictGet (dictDel st.entityIds r) r2 = some m →
      m < st.freshId := by
    intro r2 m h
    rw [dictGet_dictDel] at h
    by_cases hr2 : r2 = r
    · rw [if_pos hr2] at h
      exact Option.noConfusion h
    · rw [if_neg hr2] at h
      exact hInv.entLt r2 m h
  have f6 : ∀ r1 r2 m, dictGet (dictDel st.entityIds r) r1 = some m →
      dictGet (dictDel st.entityIds r) r2 = some m → r1 = r2 := by
    intro r1 r2 m h1 h2
    rw [dictGet_dictDel] at h1 h2
    by_cases ha : r1 = r
    · rw [if_pos ha] at h1
      exact Option.noConfusion h1
    · rw [if_neg ha] at h1
      by_cases hb : r2 = r
      · rw [if_pos hb] at h2
        exact Option.noConfusion h2
      · rw [if_neg hb] at h2
        exact hInv.entInj r1 r2 m h1 h2
  have f7 : ∀ r2 c2, dictGet st.clusterIds r2 = some c2 →
      (dictGet (dictSet st.graph.cluster_nodes c
        (setRemove ((dictGet st.graph.cluster_nodes c).getD []) n))
          c2).isSome := by
    intro r2 c2 h
    by_cases hc2 : c = c2
    · subst hc2
      rw [dictGet_dictSet_self]
      rfl
    · rw [dictGet_dictSet_ne _ _ _ _ hc2]
      exact hInv.cluEntries r2 c2 h
  have f8 : ∀ c2 m, m ∈ (dictGet (dictSet st.graph.cluster_nodes c
      (setRemove ((dictGet st.graph.cluster_nodes c).getD []) n))
        c2).getD [] →
      ∃ r2, dictGet (dictDel st.entityIds r) r2 = some m := by
    intro c2 m hm
    obtain ⟨hmo, hcnd⟩ := (hmem' c2 m).mp hm
    obtain ⟨r2, hr2⟩ := hInv.membersOrigin c2 m hmo
    have hr2ne : ¬ r2 = r := by
      intro he
      subst he
      have hmn : m = n := Option.some.inj (hr2.symm.trans hnid)
      subst hmn
      by_cases hc2 : c2 = c
      · exact (hcnd hc2) rfl
      · exact hnoc c2 hc2 hmo
    refine ⟨r2, ?_⟩
    rw [dictGet_dictDel, if_neg hr2ne]
    exact hr2
  have f9 : ∀ r2 m, dictGet (dictDel st.entityIds r) r2 = some m →
      PlaceOk scene
        ⟨st.freshId, dictDel st.entityIds r, st.clusterIds,
          ⟨st.graph.free_nodes,
            dictSet st.graph.cluster_nodes c
              (setRemove ((dictGet st.graph.cluster_nodes c).getD []) n),
            st.graph.edge_tuples, st.graph.labels, st.graph.categories⟩⟩
        r2 m := by
    intro r2 m h
    rw [dictGet_dictDel] at h
    by_cases hr2 : r2 = r
    · rw [if_pos hr2] at h
      exact Option.noConfusion h
    · rw [if_neg hr2] at h
      have hmne : ¬ m = n := fun he => hr2 (hInv.entInj r2 r n (he ▸ h) hnid)
      have hp := hInv.place r2 m h
      unfold PlaceOk at hp ⊢
      revert hp
      cases hpl : placeOf scene r2 with
      | clustered oi2 =>
        intro hp
        obtain ⟨hnf, cc, hlcc, hmcc, huniq⟩ := hp
        refine ⟨hnf, cc, hlcc, ?_, ?_⟩
        · exact (hmem' cc m).mpr ⟨hmcc, fun _ => hmne⟩
        · intro c2 hm2
          exact huniq c2 ((hmem' c2 m).mp hm2).1
      | freeNode =>
        intro hp
        exact ⟨hp.1, fun c2 hm2 => hp.2 c2 ((hmem' c2 m).mp hm2).1⟩
      | notNode =>
        intro hp
        exact ⟨hp.1, fun c2 hm2 => hp.2 c2 ((hmem' c2 m).mp hm2).1⟩
  have f10 : ∀ p ∈ st.graph.edge_tuples,
      (p.2.1 ∈ st.graph.free_nodes ∨
        ∃ c2, p.2.1 ∈ (dictGet (dictSet st.graph.cluster_nodes c
          (setRemove ((dictGet st.graph.cluster_nodes c).getD []) n))
            c2).getD []) ∧
      (p.2.2 ∈ st.graph.free_nodes ∨
        ∃ c2, p.2.2 ∈ (dictGet (dictSet st.graph.cluster_nodes c
          (setRemove ((dictGet st.graph.cluster_nodes c).getD []) n))
            c2).getD []) := by
    intro p hp
    have hold := hInv.edgesPlaced p hp
    have he := hedge p hp
    constructor
    · rcases hold.1 with hfree | ⟨c2, hm2⟩
      · exact Or.inl hfree
      · exact Or.inr ⟨c2,
          (hmem' c2 p.2.1).mpr ⟨hm2, fun _ heq => he.1 heq.symm⟩⟩
    · rcases hold.2 with hfree | ⟨c2, hm2⟩
      · exact Or.inl hfree
      · exact Or.inr ⟨c2,
          (hmem' c2 p.2.2).mpr ⟨hm2, fun _ heq => he.2 heq.symm⟩⟩
  exact ⟨hInv.freeLt, f2, f3, f4, hInv.cluLt, f6, f7, f8, f9, f10⟩

theorem remove_node_if_unused_head_ok (scene : Scene) (st : BuildState)
    (r : StructRef) (hInv : BuildInv scene st) (hck : CluKeysObj st) :
    BuildInv scene (remove_node_if_unused_head st r) ∧
      (remove_node_if_unused_head st r).clusterIds = st.clusterIds := by
  simp only [remove_node_if_unused_head]
  by_cases hguard : is_unused_head_node st.graph (dictGet st.entityIds r)
      (dictGet st.clusterIds r) = true
  · rw [if_pos hguard]
    cases hnid : dictGet st.entityIds r with
    | none =>
      rw [hnid] at hguard
      simp [is_unused_head_node] at hguard
    | some n =>
      cases hcid : dictGet st.clusterIds r with
      | none =>
        rw [hnid, hcid] at hguard
        simp [is_unused_head_node] at hguard
      | some c =>
        rw [hnid, hcid] at hguard
        refine ⟨?_, rfl⟩
        exact prune_core scene st r n c hInv hck hnid hcid
          (is_unused_head_edge_free st.graph n c hguard)
  · rw [if_neg hguard]
    exact ⟨hInv, rfl⟩

theorem foldl_inv {α : Type} (scene : Scene) (f : BuildState → α → BuildState)
    (hf : ∀ st a, BuildInv scene st → CluKeysObj st →
      BuildInv scene (f st a) ∧ (f st a).clusterIds = st.clusterIds) :
    ∀ (l : List α) (st : BuildState), BuildInv scene st → CluKeysObj st →
      BuildInv scene (List.foldl f st l) := by
  intro l
  induction l with
  | nil =>
    intro st h _
    exact h
  | cons a rest ih =>
    intro st h hck
    have h1 := hf st a h hck
    have hck2 : CluKeysObj (f st a) := by
      intro r c hg
      rw [h1.2] at hg
      exact hck r c hg
    exact ih (f st a) h1.1 hck2

theorem analyze_rig_graph_eq_builder (scene : Scene) (roots : List Nat)
    (excl : Nat → Nat → Bool) :
    analyze_rig_graph scene roots excl =
      (rig_builder_state scene roots excl).graph := rfl

theorem rig_builder_state_inv (scene : Scene) (roots : List Nat)
    (excl : Nat → Nat → Bool) :
    BuildInv scene (rig_builder_state scene roots excl) := by
  have h0 := buildInv_empty scene
  have hck0 := cluKeysObj_empty
  have h1 := foldl_ok scene
    (fun st oi => (declare_destination_entities_root scene st oi true excl).2)
    (fun st oi h => declare_destination_entities_root_ok scene st oi true excl h)
    roots ⟨0, [], [], initialize_graph_data⟩ h0
  have hck1 := cluKeysObj_mono h1.2 hck0
  have h2 := foldl_ok scene
    (fun acc (p : StructRef × Nat) => declare_parent_relation_edge scene acc p.1)
    (fun st (a : StructRef × Nat) h =>
      declare_parent_relation_edge_ok scene st a.1 h)
    (List.foldl
      (fun st oi => (declare_destination_entities_root scene st oi true excl).2)
      ⟨0, [], [], initialize_graph_data⟩ roots).entityIds _ h1.1
  have hck2 := cluKeysObj_mono h2.2 hck1
  have h3 := foldl_ok scene
    (fun acc (p : StructRef × Nat) => declare_root_bone_style scene acc p.1)
    (fun st (a : StructRef × Nat) h =>
      declare_root_bone_style_ok scene st a.1 h)
    (List.foldl (fun acc p => declare_parent_relation_edge scene acc p.1)
      (List.foldl
        (fun st oi =>
          (declare_destination_entities_root scene st oi true excl).2)
        ⟨0, [], [], initialize_graph_data⟩ roots)
      (List.foldl
        (fun st oi =>
          (declare_destination_entities_root scene st oi true excl).2)
        ⟨0, [], [], initialize_graph_data⟩ roots).entityIds).entityIds _ h2.1
  have hck3 := cluKeysObj_mono h3.2 hck2
  exact foldl_inv scene
    (fun acc (p : StructRef × Nat) => remove_node_if_unused_head acc p.1)
    (fun st (a : StructRef × Nat) h hck =>
      remove_node_if_unused_head_ok scene st a.1 h hck)
    _ _ h3.1 hck3

theorem BuildInv.node_unique {scene : Scene} {st : BuildState}
    (h : BuildInv scene st) :
    (∀ m ∈ st.graph.free_nodes, ∀ c, m ∉ clusterMembers st.graph c) ∧
    (∀ m c1 c2, m ∈ clusterMembers st.graph c1 →
      m ∈ clusterMembers st.graph c2 → c1 = c2) := by
  constructor
  · intro m hf c hm
    obtain ⟨r, hr⟩ := h.membersOrigin c m hm
    have hp := h.place r m hr
    unfold PlaceOk at hp
    revert hp
    cases hpl : placeOf scene r with
    | clustered oi =>
      intro hp
      exact hp.1 hf
    | freeNode =>
      intro hp
      exact hp.2 c hm
    | notNode =>
      intro hp
      exact hp.2 c hm
  · intro m c1 c2 h1 h2
    obtain ⟨r, hr⟩ := h.membersOrigin c1 m h1
    have hp := h.place r m hr
    unfold PlaceOk at hp
    revert hp
    cases hpl : placeOf scene r with
    | clustered oi =>
      intro hp
      obtain ⟨_, cc, _, _, huniq⟩ := hp
      rw [huniq c1 h1, huniq c2 h2]
    | freeNode =>
      intro hp
      exact absurd h1 (hp.2 c1)
    | notNode =>
      intro hp
      exact absurd h1 (hp.2 c1)

/-- C3: in every graph returned by `analyze_rig_graph` — for any scene, any
root entities and any exclusion predicate — every node ID belongs to exactly
one of the free-node set or one cluster's node set: a free node is in no
cluster's set, and a node found in two clusters' sets forces the clusters to
be equal. -/
theorem C3_node_placement_unique (scene : Scene) (roots : List Nat)
    (excl : Nat → Nat → Bool) :
    (∀ m, m ∈ (analyze_rig_graph scene roots excl).free_nodes →
      ∀ c ms, dictGet (analyze_rig_graph scene roots excl).cluster_nodes c =
        some ms → m ∉ ms) ∧
    (∀ m c1 c2 ms1 ms2,
      dictGet (analyze_rig_graph scene roots excl).cluster_nodes c1 =
        some ms1 →
      dictGet (analyze_rig_graph scene roots excl).cluster_nodes c2 =
        some ms2 →
      m ∈ ms1 → m ∈ ms2 → c1 = c2) := by
  have h := (rig_builder_state_inv scene roots excl).node_unique
  rw [analyze_rig_graph_eq_builder]
  constructor
  · intro m hf c ms hms hm
    refine h.1 m hf c ?_
    show m ∈ (dictGet (rig_builder_state scene roots excl).graph.cluster_nodes
      c).getD []
    rw [hms]
    exact hm
  · intro m c1 c2 ms1 ms2 h1 h2 hm1 hm2
    refine h.2 m c1 c2 ?_ ?_
    · show m ∈ (dictGet
        (rig_builder_state scene roots excl).graph.cluster_nodes c1).getD []
      rw [h1]
      exact hm1
    · show m ∈ (dictGet
        (rig_builder_state scene roots excl).graph.cluster_nodes c2).getD []
      rw [h2]
      exact hm2

theorem C3_node_placement_unique_witness :
    (dictGet (analyze_rig_graph sceneEdgeW [0]
        (fun _ _ => false)).cluster_nodes 0 = some [2] ∧
      (2 : Nat) ∈ [2]) ∧ (0 : Nat) = 0 :=
  ⟨⟨by decide, by decide⟩,
    (C3_node_placement_unique sceneEdgeW [0] (fun _ _ => false)).2
      2 0 0 [2] [2] (by decide) (by decide) (by decide) (by decide)⟩

/-- C10: after `analyze_rig_graph` returns (the head-node pruning pass
included), every edge in the edge map has both its origin and destination
node IDs present in the free-node set or in some cluster's node set. -/
theorem C10_edge_endpoints_placed (scene : Scene) (roots : List Nat)
    (excl : Nat → Nat → Bool) :
    ∀ p ∈ (analyze_rig_graph scene roots excl).edge_tuples,
      Placed (analyze_rig_graph scene roots excl) p.2.1 ∧
        Placed (analyze_rig_graph scene roots excl) p.2.2 := by
  rw [analyze_rig_graph_eq_builder]
  exact (rig_builder_state_inv scene roots excl).edgesPlaced

theorem C10_edge_endpoints_placed_witness :
    ((4, (2, 3)) : Nat × Nat × Nat) ∈
        (analyze_rig_graph sceneEdgeW [0] (fun _ _ => false)).edge_tuples ∧
      (Placed (analyze_rig_graph sceneEdgeW [0] (fun _ _ => false)) 2 ∧
        Placed (analyze_rig_graph sceneEdgeW [0] (fun _ _ => false)) 3) :=
  ⟨by decide,
    C10_edge_endpoints_placed sceneEdgeW [0] (fun _ _ => false)
      (4, (2, 3)) (by decide)⟩

theorem matchFront_concat (ps qs : List (Char → Bool)) (t l : Name)
    (h : t.length = ps.length) :
    matchFront (ps ++ qs) (t ++ l) =
      if matchesAll ps t then matchFront qs l else none := by
  induction ps generalizing t with
  | nil =>
    rw [List.length_nil, List.length_eq_zero] at h
    subst h
    simp [matchesAll]
  | cons p ps ih =>
    cases t with
    | nil => simp at h
    | cons c cs =>
      simp only [List.length_cons, Nat.succ.injEq] at h
      simp only [List.cons_append, matchFront, matchesAll]
      by_cases hp : p c = true
      · simp only [hp, if_true, Bool.true_and]
        exact ih cs h
      · rw [Bool.not_eq_true] at hp
        simp only [hp, Bool.false_and, Bool.false_eq_true, if_false]

theorem matchFront_nil (l : Name) : matchFront [] l = some l := rfl

theorem matchFront_none_of_length (pats : List (Char → Bool)) (l : Name)
    (h : l.length < pats.length) : matchFront pats l = none := by
  induction pats generalizing l with
  | nil => simp at h
  | cons p ps ih =>
    cases l with
    | nil => rfl
    | cons c cs =>
      simp only [List.length_cons, Nat.succ_lt_succ_iff] at h
      simp only [matchFront]
      rw [ih cs h]
      simp only [ite_self]

theorem matchesAll_append (ps qs : List (Char → Bool)) (t u : Name)
    (h : t.length = ps.length) :
    matchesAll (ps ++ qs) (t ++ u) = (matchesAll ps t && matchesAll qs u) := by
  induction ps generalizing t with
  | nil =>
    rw [List.length_nil, List.length_eq_zero] at h
    subst h
    simp [matchesAll]
  | cons p ps ih =>
    cases t with
    | nil => simp at h
    | cons c cs =>
      simp only [List.length_cons, Nat.succ.injEq] at h
      simp only [List.cons_append, matchesAll]
      rw [show ps.append qs = ps ++ qs from rfl,
        show cs.append u = cs ++ u from rfl, ih cs h, Bool.and_assoc]

theorem matchesAll_reverse (ps : List (Char → Bool)) (t : Name)
    (h : t.length = ps.length) :
    matchesAll ps.reverse t.reverse = matchesAll ps t := by
  induction ps generalizing t with
  | nil =>
    rw [List.length_nil, List.length_eq_zero] at h
    subst h
    rfl
  | cons p ps ih =>
    cases t with
    | nil => simp at h
    | cons c cs =>
      simp only [List.length_cons, Nat.succ.injEq] at h
      simp only [List.reverse_cons, matchesAll]
      rw [matchesAll_append ps.reverse [p] cs.reverse [c]
        (by simp [h]), ih cs h]
      simp [matchesAll, Bool.and_comm]

theorem matchEnd_concat (ps qs : List (Char → Bool)) (l t : Name)
    (h : t.length = qs.length) :
    matchEnd (ps ++ qs) (l ++ t) =
      if matchesAll qs t then matchEnd ps l else none := by
  unfold matchEnd
  rw [List.reverse_append, List.reverse_append,
    matchFront_concat qs.reverse ps.reverse t.reverse l.reverse
      (by simp [h]),
    matchesAll_reverse qs t h]
  by_cases hq : matchesAll qs t = true
  · simp only [hq, if_true]
  · rw [Bool.not_eq_true] at hq
    simp only [hq, Bool.false_eq_true, if_false, Option.map_none']

theorem matchEnd_nil (l : Name) : matchEnd [] l = some l := by
  unfold matchEnd
  rw [List.reverse_nil, matchFront_nil, Option.map_some', List.reverse_reverse]

theorem matchEnd_none_of_length (pats : List (Char → Bool)) (l : Name)
    (h : l.length < pats.length) : matchEnd pats l = none := by
  unfold matchEnd
  rw [matchFront_none_of_length _ _ (by simpa using h)]
  rfl

theorem matchEnd_split (pats : List (Char → Bool)) (x t : Name)
    (h : t.length = pats.length) :
    matchEnd pats (x ++ t) = if matchesAll pats t then some x else none := by
  have := matchEnd_concat [] pats x t h
  rw [List.nil_append] at this
  rw [this, matchEnd_nil]

theorem matchEnd_isSome_congr (pats : List (Char → Bool)) (x y t : Name)
    (h : pats.length ≤ t.length) :
    (matchEnd pats (x ++ t)).isSome = (matchEnd pats (y ++ t)).isSome := by
  have hsplit : t = t.take (t.length - pats.length) ++
      t.drop (t.length - pats.length) := (List.take_append_drop _ _).symm
  have hlen : (t.drop (t.length - pats.length)).length = pats.length := by
    rw [List.length_drop]
    omega
  rw [hsplit, ← List.append_assoc, ← List.append_assoc,
    matchEnd_split _ _ _ hlen, matchEnd_split _ _ _ hlen]
  by_cases hm : matchesAll pats (t.drop (t.length - pats.length)) = true
  · simp only [hm, if_true, Option.isSome_some]
  · rw [Bool.not_eq_true] at hm
    simp only [hm, Bool.false_eq_true, if_false]

theorem matchEnd_isSome_length (pats : List (Char → Bool)) (l : Name)
    (h : (matchEnd pats l).isSome = true) : pats.length ≤ l.length := by
  by_contra hlt
  rw [matchEnd_none_of_length pats l (by omega)] at h
  exact Bool.noConfusion h

theorem matchFront_isSome_length (pats : List (Char → Bool)) (l : Name)
    (h : (matchFront pats l).isSome = true) : pats.length ≤ l.length := by
  by_contra hlt
  rw [matchFront_none_of_length pats l (by omega)] at h
  exact Bool.noConfusion h

theorem matchEnd_isSome_decomp (pats : List (Char → Bool)) (l : Name)
    (h : (matchEnd pats l).isSome = true) :
    l = dropEnd l pats.length ++ l.drop (l.length - pats.length) ∧
    (l.drop (l.length - pats.length)).length = pats.length ∧
    matchesAll pats (l.drop (l.length - pats.length)) = true := by
  have hle := matchEnd_isSome_length pats l h
  have hsplit : l = l.take (l.length - pats.length) ++
      l.drop (l.length - pats.length) := (List.take_append_drop _ _).symm
  have hlen : (l.drop (l.length - pats.length)).length = pats.length := by
    rw [List.length_drop]
    omega
  refine ⟨hsplit, hlen, ?_⟩
  have hs := matchEnd_split pats (l.take (l.length - pats.length))
    (l.drop (l.length - pats.length)) hlen
  rw [← hsplit] at hs
  rw [hs] at h
  by_cases hm : matchesAll pats (l.drop (l.length - pats.length)) = true
  · exact hm
  · rw [Bool.not_eq_true] at hm
    rw [hm] at h
    simp at h

theorem matchFront_isSome_decomp (pats : List (Char → Bool)) (l : Name)
    (h : (matchFront pats l).isSome = true) :
    l = l.take pats.length ++ l.drop pats.length ∧
    (l.take pats.length).length = pats.length ∧
    matchesAll pats (l.take pats.length) = true := by
  have hle := matchFront_isSome_length pats l h
  have hsplit : l = l.take pats.length ++ l.drop pats.length :=
    (List.take_append_drop _ _).symm
  have hlen : (l.take pats.length).length = pats.length := by
    rw [List.length_take]
    omega
  refine ⟨hsplit, hlen, ?_⟩
  have hs := matchFront_concat pats [] (l.take pats.length)
    (l.drop pats.length) hlen
  rw [List.append_nil, ← hsplit] at hs
  rw [hs] at h
  by_cases hm : matchesAll pats (l.take pats.length) = true
  · exact hm
  · rw [Bool.not_eq_true] at hm
    rw [hm] at h
    simp at h

theorem isSepChar_cases (c : Char) (h : isSepChar c = true) :
    c = '_' ∨ c = '.' ∨ c = '-' ∨ c = ' ' := by
  unfold isSepChar at h
  simp only [Bool.or_eq_true, decide_eq_true_eq] at h
  tauto

theorem eqc_sep_false (a c : Char) (hsep : isSepChar c = true)
    (ha : isSepChar a = false) : eqc a c = false := by
  apply decide_eq_false
  intro heq
  subst heq
  exact absurd (ha.symm.trans hsep) (by decide)

theorem takeWhile_all_cons_neg (p : Char → Bool) (a : Name) (b : Char)
    (m : Name) (ha : ∀ c ∈ a, p c = true) (hb : p b = false) :
    (a ++ b :: m).takeWhile p = a := by
  induction a with
  | nil => simp [List.takeWhile_cons, hb]
  | cons x xs ih =>
    have hx := ha x (List.mem_cons_self _ _)
    simp only [List.cons_append, List.takeWhile_cons, hx, if_true,
      List.cons.injEq, true_and]
    exact ih (fun c hc => ha c (List.mem_cons_of_mem _ hc))

theorem takeWhile_append_of_exists (p : Char → Bool) (a m : Name)
    (h : ∃ c ∈ a, p c = false) :
    (a ++ m).takeWhile p = a.takeWhile p := by
  induction a with
  | nil => simp at h
  | cons x xs ih =>
    by_cases hx : p x = true
    · have hxs : ∃ c ∈ xs, p c = false := by
        rcases h with ⟨c, hc, hpc⟩
        rcases List.mem_cons.mp hc with rfl | hc2
        · exact absurd (hpc.symm.trans hx) (by decide)
        · exact ⟨c, hc2, hpc⟩
      simp only [List.cons_append, List.takeWhile_cons, hx, if_true,
        List.cons.injEq, true_and]
      exact ih hxs
    · rw [Bool.not_eq_true] at hx
      simp [List.takeWhile_cons, hx]

theorem length_takeWhile_lt (p : Char → Bool) (a : Name)
    (h : ∃ c ∈ a, p c = false) : (a.takeWhile p).length < a.length := by
  induction a with
  | nil => simp at h
  | cons x xs ih =>
    by_cases hx : p x = true
    · have hxs : ∃ c ∈ xs, p c = false := by
        rcases h with ⟨c, hc, hpc⟩
        rcases List.mem_cons.mp hc with rfl | hc2
        · exact absurd (hpc.symm.trans hx) (by decide)
        · exact ⟨c, hc2, hpc⟩
      simp only [List.takeWhile_cons, hx, if_true, List.length_cons]
      exact Nat.succ_lt_succ (ih hxs)
    · rw [Bool.not_eq_true] at hx
      simp [List.takeWhile_cons, hx]

theorem get_name_numeric_suffix_eq (name : Name) :
    get_name_numeric_suffix name =
      (if (name.reverse.takeWhile isDigitCh).isEmpty then []
       else if (name.reverse.drop
           (name.reverse.takeWhile isDigitCh).length).head? = some '.' then
         '.' :: (name.reverse.takeWhile isDigitCh).reverse
       else []) := by
  unfold get_name_numeric_suffix
  by_cases he : (name.reverse.takeWhile isDigitCh).isEmpty = true
  · simp only [he, if_true]
  · rw [Bool.not_eq_true] at he
    simp only [he, Bool.false_eq_true, if_false]
    cases hdrop : name.reverse.drop
        (name.reverse.takeWhile isDigitCh).length with
    | nil => simp
    | cons c rest =>
      by_cases hc : c = '.'
      · subst hc
        simp
      · simp only [List.head?_cons, Option.some.injEq]
        rw [if_neg hc]
        split
        · rename_i heq
          injection heq with h1 _
          exact absurd h1 hc
        · rfl

theorem get_sfx_shape (name : Name) :
    get_name_numeric_suffix name = [] ∨
    ∃ ds, ds ≠ [] ∧ (∀ c ∈ ds, isDigitCh c = true) ∧
      get_name_numeric_suffix name = '.' :: ds := by
  rw [get_name_numeric_suffix_eq]
  by_cases he : (name.reverse.takeWhile isDigitCh).isEmpty = true
  · left
    rw [if_pos he]
  · rw [Bool.not_eq_true] at he
    simp only [he, Bool.false_eq_true, if_false]
    by_cases hh : (name.reverse.drop
        (name.reverse.takeWhile isDigitCh).length).head? = some '.'
    · right
      refine ⟨(name.reverse.takeWhile isDigitCh).reverse, ?_, ?_,
        by rw [if_pos hh]⟩
      · intro hnil
        rw [List.reverse_eq_nil_iff] at hnil
        rw [hnil] at he
        exact absurd he (by decide)
      · intro c hc
        rw [List.mem_reverse] at hc
        exact List.mem_takeWhile_imp hc
    · left
      rw [if_neg hh]

theorem get_dot_digits (x ds : Name) (hne : ds ≠ [])
    (hd : ∀ c ∈ ds, isDigitCh c = true) :
    get_name_numeric_suffix (x ++ '.' :: ds) = '.' :: ds := by
  rw [get_name_numeric_suffix_eq]
  have hrev : (x ++ '.' :: ds).reverse = ds.reverse ++ '.' :: x.reverse := by
    rw [List.reverse_append, List.reverse_cons, List.append_assoc,
      List.singleton_append]
  rw [hrev]
  rw [takeWhile_all_cons_neg _ _ _ _
    (fun c hc => hd c (List.mem_reverse.mp hc)) (by decide)]
  have hne2 : ds.reverse.isEmpty = false := by
    cases hds : ds.reverse with
    | nil =>
      rw [List.reverse_eq_nil_iff] at hds
      exact absurd hds hne
    | cons a b => rfl
  simp only [hne2, Bool.false_eq_true, if_false]
  rw [List.drop_left]
  simp [List.reverse_reverse]

theorem get_append_nondigit (x t : Name)
    (h : ∃ c ∈ t, isDigitCh c = false) :
    get_name_numeric_suffix (x ++ t) = get_name_numeric_suffix t := by
  rw [get_name_numeric_suffix_eq, get_name_numeric_suffix_eq]
  rw [List.reverse_append]
  have hex : ∃ c ∈ t.reverse, isDigitCh c = false := by
    rcases h with ⟨c, hc, hpc⟩
    exact ⟨c, List.mem_reverse.mpr hc, hpc⟩
  rw [takeWhile_append_of_exists _ _ _ hex]
  have hlt := length_takeWhile_lt _ _ hex
  rw [List.drop_append_of_le_length (Nat.le_of_lt hlt)]
  rcases hcase : t.reverse.drop
      ((t.reverse.takeWhile isDigitCh).length) with _ | ⟨c, rest⟩
  · exfalso
    have h0 := congrArg List.length hcase
    rw [List.length_drop, List.length_nil] at h0
    omega
  · simp [List.cons_append]

theorem get_end_nondigit (x : Name) (c : Char) (hc : isDigitCh c = false) :
    get_name_numeric_suffix (x ++ [c]) = [] := by
  rw [get_name_numeric_suffix_eq]
  have hrev : (x ++ [c]).reverse = c :: x.reverse := by simp
  rw [hrev]
  simp [List.takeWhile_cons, hc]

theorem get_sep_digits (x : Name) (c : Char) (t : Name) (hne : t ≠ [])
    (hd : ∀ d ∈ t, isDigitCh d = true) (hc : isDigitCh c = false) :
    get_name_numeric_suffix (x ++ c :: t) =
      if c = '.' then '.' :: t else [] := by
  rw [get_name_numeric_suffix_eq]
  have hrev : (x ++ c :: t).reverse = t.reverse ++ c :: x.reverse := by
    rw [List.reverse_append, List.reverse_cons, List.append_assoc,
      List.singleton_append]
  rw [hrev]
  rw [takeWhile_all_cons_neg _ _ _ _
    (fun d hdm => hd d (List.mem_reverse.mp hdm)) hc]
  have hne2 : t.reverse.isEmpty = false := by
    cases hds : t.reverse with
    | nil =>
      rw [List.reverse_eq_nil_iff] at hds
      exact absurd hds hne
    | cons a b => rfl
  simp only [hne2, Bool.false_eq_true, if_false]
  rw [List.drop_left]
  simp only [List.head?_cons, Option.some.injEq]
  by_cases h : c = '.'
  · subst h
    simp
  · rw [if_neg h, if_neg h]

theorem dropEnd_append (l t : Name) (n : Nat) (h : t.length = n) :
    dropEnd (l ++ t) n = l := by
  unfold dropEnd
  rw [List.length_append, h, Nat.add_sub_cancel, List.take_left]

theorem sep_not_digit (c : Char) (h : isSepChar c = true) :
    isDigitCh c = false := by
  rcases isSepChar_cases c h with rfl | rfl | rfl | rfl <;> decide

theorem get_restore (opp name : Name)
    (hopp : get_name_numeric_suffix name = [] →
      get_name_numeric_suffix opp = []) :
    get_name_numeric_suffix (opp ++ get_name_numeric_suffix name) =
      get_name_numeric_suffix name := by
  rcases get_sfx_shape name with h | ⟨ds, hne, hd, h⟩
  · rw [h, List.append_nil, hopp h]
  · rw [h, get_dot_digits opp ds hne hd]

theorem flip_suffix_r (stem : Name)
    (h : (matchEnd (sidedSuf 'r') stem).isSome = true) :
    ∃ o2 b2, parse_bone_name_stem (dropEnd stem 1 ++ ['l']) =
      (some Side.left, o2, b2) := by
  obtain ⟨hsp, hlen2, hm⟩ := matchEnd_isSome_decomp _ _ h
  rw [show (sidedSuf 'r').length = 2 from rfl] at hsp hlen2 hm
  obtain ⟨a, b, hab⟩ := List.length_eq_two.mp hlen2
  rw [hab] at hsp hm
  simp only [sidedSuf, matchesAll, Bool.and_eq_true, Bool.and_true] at hm
  obtain ⟨ha, hb⟩ := hm
  have hbr : b = 'r' := of_decide_eq_true hb
  subst hbr
  have hde : dropEnd stem 1 = dropEnd stem 2 ++ [a] := by
    conv_lhs => rw [hsp]
    rw [show dropEnd stem 2 ++ [a, 'r'] =
      (dropEnd stem 2 ++ [a]) ++ ['r'] by simp]
    exact dropEnd_append _ _ 1 rfl
  rw [hde]
  have ht1 : (matchEnd (sidedSuf 'r')
      ((dropEnd stem 2 ++ [a]) ++ ['l'])).isSome = false := by
    rw [show (dropEnd stem 2 ++ [a]) ++ ['l'] =
      dropEnd stem 2 ++ [a, 'l'] by simp, matchEnd_split _ _ _ rfl]
    simp [matchesAll, sidedSuf, eqc]
  have ht2 : (matchEnd (sidedSuf 'R')
      ((dropEnd stem 2 ++ [a]) ++ ['l'])).isSome = false := by
    rw [show (dropEnd stem 2 ++ [a]) ++ ['l'] =
      dropEnd stem 2 ++ [a, 'l'] by simp, matchEnd_split _ _ _ rfl]
    simp [matchesAll, sidedSuf, eqc]
  have ht3 : (matchEnd (sidedSuf 'l')
      ((dropEnd stem 2 ++ [a]) ++ ['l'])).isSome = true := by
    rw [show (dropEnd stem 2 ++ [a]) ++ ['l'] =
      dropEnd stem 2 ++ [a, 'l'] by simp, matchEnd_split _ _ _ rfl]
    simp [matchesAll, sidedSuf, eqc, ha]
  unfold parse_bone_name_stem
  simp only [ht1, ht2, ht3, Bool.false_eq_true, if_false, if_true]
  exact ⟨_, _, rfl⟩

theorem flip_suffix_R (stem : Name)
    (h : (matchEnd (sidedSuf 'R') stem).isSome = true) :
    ∃ o2 b2, parse_bone_name_stem (dropEnd stem 1 ++ ['L']) =
      (some Side.left, o2, b2) := by
  obtain ⟨hsp, hlen2, hm⟩ := matchEnd_isSome_decomp _ _ h
  rw [show (sidedSuf 'R').length = 2 from rfl] at hsp hlen2 hm
  obtain ⟨a, b, hab⟩ := List.length_eq_two.mp hlen2
  rw [hab] at hsp hm
  simp only [sidedSuf, matchesAll, Bool.and_eq_true, Bool.and_true] at hm
  obtain ⟨ha, hb⟩ := hm
  have hbr : b = 'R' := of_decide_eq_true hb
  subst hbr
  have hde : dropEnd stem 1 = dropEnd stem 2 ++ [a] := by
    conv_lhs => rw [hsp]
    rw [show dropEnd stem 2 ++ [a, 'R'] =
      (dropEnd stem 2 ++ [a]) ++ ['R'] by simp]
    exact dropEnd_append _ _ 1 rfl
  rw [hde]
  have hre : (dropEnd stem 2 ++ [a]) ++ ['L'] =
      dropEnd stem 2 ++ [a, 'L'] := by simp
  have ht1 : (matchEnd (sidedSuf 'r')
      ((dropEnd stem 2 ++ [a]) ++ ['L'])).isSome = false := by
    rw [hre, matchEnd_split _ _ _ rfl]
    simp [matchesAll, sidedSuf, eqc]
  have ht2 : (matchEnd (sidedSuf 'R')
      ((dropEnd stem 2 ++ [a]) ++ ['L'])).isSome = false := by
    rw [hre, matchEnd_split _ _ _ rfl]
    simp [matchesAll, sidedSuf, eqc]
  have ht3 : (matchEnd (sidedSuf 'l')
      ((dropEnd stem 2 ++ [a]) ++ ['L'])).isSome = false := by
    rw [hre, matchEnd_split _ _ _ rfl]
    simp [matchesAll, sidedSuf, eqc]
  have ht4 : (matchEnd (sidedSuf 'L')
      ((dropEnd stem 2 ++ [a]) ++ ['L'])).isSome = true := by
    rw [hre, matchEnd_split _ _ _ rfl]
    simp [matchesAll, sidedSuf, eqc, ha]
  unfold parse_bone_name_stem
  simp only [ht1, ht2, ht3, ht4, Bool.false_eq_true, if_false, if_true]
  exact ⟨_, _, rfl⟩

theorem flip_suffix_l (stem : Name)
    (h : (matchEnd (sidedSuf 'l') stem).isSome = true) :
    ∃ o2 b2, parse_bone_name_stem (dropEnd stem 1 ++ ['r']) =
      (some Side.right, o2, b2) := by
  obtain ⟨hsp, hlen2, hm⟩ := matchEnd_isSome_decomp _ _ h
  rw [show (sidedSuf 'l').length = 2 from rfl] at hsp hlen2 hm
  obtain ⟨a, b, hab⟩ := List.length_eq_two.mp hlen2
  rw [hab] at hsp hm
  simp only [sidedSuf, matchesAll, Bool.and_eq_true, Bool.and_true] at hm
  obtain ⟨ha, hb⟩ := hm
  have hbr : b = 'l' := of_decide_eq_true hb
  subst hbr
  have hde : dropEnd stem 1 = dropEnd stem 2 ++ [a] := by
    conv_lhs => rw [hsp]
    rw [show dropEnd stem 2 ++ [a, 'l'] =
      (dropEnd stem 2 ++ [a]) ++ ['l'] by simp]
    exact dropEnd_append _ _ 1 rfl
  rw [hde]
  have hre : (dropEnd stem 2 ++ [a]) ++ ['r'] =
      dropEnd stem 2 ++ [a, 'r'] := by simp
  have ht1 : (matchEnd (sidedSuf 'r')
      ((dropEnd stem 2 ++ [a]) ++ ['r'])).isSome = true := by
    rw [hre, matchEnd_split _ _ _ rfl]
    simp [matchesAll, sidedSuf, eqc, ha]
  unfold parse_bone_name_stem
  simp only [ht1, if_true]
  exact ⟨_, _, rfl⟩

theorem flip_suffix_L (stem : Name)
    (h : (matchEnd (sidedSuf 'L') stem).isSome = true) :
    ∃ o2 b2, parse_bone_name_stem (dropEnd stem 1 ++ ['R']) =
      (some Side.right, o2, b2) := by
  obtain ⟨hsp, hlen2, hm⟩ := matchEnd_isSome_decomp _ _ h
  rw [show (sidedSuf 'L').length = 2 from rfl] at hsp hlen2 hm
  obtain ⟨a, b, hab⟩ := List.length_eq_two.mp hlen2
  rw [hab] at hsp hm
  simp only [sidedSuf, matchesAll, Bool.and_eq_true, Bool.and_true] at hm
  obtain ⟨ha, hb⟩ := hm
  have hbr : b = 'L' := of_decide_eq_true hb
  subst hbr
  have hde : dropEnd stem 1 = dropEnd stem 2 ++ [a] := by
    conv_lhs => rw [hsp]
    rw [show dropEnd stem 2 ++ [a, 'L'] =
      (dropEnd stem 2 ++ [a]) ++ ['L'] by simp]
    exact dropEnd_append _ _ 1 rfl
  rw [hde]
  have hre : (dropEnd stem 2 ++ [a]) ++ ['R'] =
      dropEnd stem 2 ++ [a, 'R'] := by simp
  have ht1 : (matchEnd (sidedSuf 'r')
      ((dropEnd stem 2 ++ [a]) ++ ['R'])).isSome = false := by
    rw [hre, matchEnd_split _ _ _ rfl]
    simp [matchesAll, sidedSuf, eqc]
  have ht2 : (matchEnd (sidedSuf 'R')
      ((dropEnd stem 2 ++ [a]) ++ ['R'])).isSome = true := by
    rw [hre, matchEnd_split _ _ _ rfl]
    simp [matchesAll, sidedSuf, eqc, ha]
  unfold parse_bone_name_stem
  simp only [ht1, ht2, Bool.false_eq_true, if_false, if_true]
  exact ⟨_, _, rfl⟩

theorem matchEnd_isSome_congr_cons (pats : List (Char → Bool)) (x y : Char)
    (t : Name) (h : pats.length ≤ t.length) :
    (matchEnd pats (y :: t)).isSome = (matchEnd pats (x :: t)).isSome := by
  have hc := matchEnd_isSome_congr pats [y] [x] t h
  rw [List.singleton_append, List.singleton_append] at hc
  exact hc

theorem noSuffix_head_swap (x y sep : Char) (rest : Name)
    (hsep : isSepChar sep = true)
    (hns : noSuffixMatch (x :: sep :: rest)) :
    noSuffixMatch (y :: sep :: rest) := by
  obtain ⟨h1, h2, h3, h4, h5, h6, h7, h8, h9, h10⟩ := hns
  rcases isSepChar_cases sep hsep with rfl | rfl | rfl | rfl <;>
    rcases rest with _ | ⟨a, _ | ⟨b, _ | ⟨c, _ | ⟨d, rest4⟩⟩⟩⟩ <;>
      refine ⟨?_, ?_, ?_, ?_, ?_, ?_, ?_, ?_, ?_, ?_⟩ <;>
        first
          | (simp [matchEnd, matchFront, eqc, chClass, isSepChar, sidedSuf,
              rightAllCaps, rightCapitalized, rightLowercase, leftAllCaps,
              leftCapitalized, leftLowercase, List.reverse_append]; done)
          | (rw [matchEnd_isSome_congr_cons _ x _ _
              (by simp only [sidedSuf, rightAllCaps, rightCapitalized,
                rightLowercase, leftAllCaps, leftCapitalized, leftLowercase,
                List.length_cons, List.length_nil]; omega)]
             assumption)

theorem noSuffix_word_swap_LEFT_ac (M root : Name)
    (hns : noSuffixMatch (M ++ root)) (hroot : root ≠ []) :
    noSuffixMatch (strn ("LEFT") ++ root) := by
  obtain ⟨h1, h2, h3, h4, h5, h6, h7, h8, h9, h10⟩ := hns
  rcases root with _ | ⟨a, _ | ⟨b, _ | ⟨c, _ | ⟨d, _ | ⟨e, rest5⟩⟩⟩⟩⟩
  · exact absurd rfl hroot
  all_goals
    refine ⟨?_, ?_, ?_, ?_, ?_, ?_, ?_, ?_, ?_, ?_⟩ <;>
      first
        | (simp [matchEnd, matchFront, eqc, chClass, isSepChar, sidedSuf,
            rightAllCaps, rightCapitalized, rightLowercase, leftAllCaps,
            leftCapitalized, leftLowercase, strn, List.reverse_append]; done)
        | (exact (matchEnd_isSome_congr _ (strn ("LEFT")) M _
            (by simp only [sidedSuf, rightAllCaps, rightCapitalized,
              rightLowercase, leftAllCaps, leftCapitalized, leftLowercase,
              List.length_cons, List.length_nil]; omega)).trans
            (by assumption))

theorem noSuffix_word_swap_Left_cp (M root : Name)
    (hns : noSuffixMatch (M ++ root)) (hroot : root ≠ []) :
    noSuffixMatch (strn ("Left") ++ root) := by
  obtain ⟨h1, h2, h3, h4, h5, h6, h7, h8, h9, h10⟩ := hns
  rcases root with _ | ⟨a, _ | ⟨b, _ | ⟨c, _ | ⟨d, _ | ⟨e, rest5⟩⟩⟩⟩⟩
  · exact absurd rfl hroot
  all_goals
    refine ⟨?_, ?_, ?_, ?_, ?_, ?_, ?_, ?_, ?_, ?_⟩ <;>
      first
        | (simp [matchEnd, matchFront, eqc, chClass, isSepChar, sidedSuf,
            rightAllCaps, rightCapitalized, rightLowercase, leftAllCaps,
            leftCapitalized, leftLowercase, strn, List.reverse_append]; done)
        | (exact (matchEnd_isSome_congr _ (strn ("Left")) M _
            (by simp only [sidedSuf, rightAllCaps, rightCapitalized,
              rightLowercase, leftAllCaps, leftCapitalized, leftLowercase,
              List.length_cons, List.length_nil]; omega)).trans
            (by assumption))

theorem noSuffix_word_swap_left_lc (M root : Name)
    (hns : noSuffixMatch (M ++ root)) (hroot : root ≠ []) :
    noSuffixMatch (strn ("left") ++ root) := by
  obtain ⟨h1, h2, h3, h4, h5, h6, h7, h8, h9, h10⟩ := hns
  rcases root with _ | ⟨a, _ | ⟨b, _ | ⟨c, _ | ⟨d, _ | ⟨e, rest5⟩⟩⟩⟩⟩
  · exact absurd rfl hroot
  all_goals
    refine ⟨?_, ?_, ?_, ?_, ?_, ?_, ?_, ?_, ?_, ?_⟩ <;>
      first
        | (simp [matchEnd, matchFront, eqc, chClass, isSepChar, sidedSuf,
            rightAllCaps, rightCapitalized, rightLowercase, leftAllCaps,
            leftCapitalized, leftLowercase, strn, List.reverse_append]; done)
        | (exact (matchEnd_isSome_congr _ (strn ("left")) M _
            (by simp only [sidedSuf, rightAllCaps, rightCapitalized,
              rightLowercase, leftAllCaps, leftCapitalized, leftLowercase,
              List.length_cons, List.length_nil]; omega)).trans
            (by assumption))

theorem noSuffix_word_swap_RIGHT_ac (M root : Name)
    (hns : noSuffixMatch (M ++ root)) (hroot : root ≠ []) :
    noSuffixMatch (strn ("RIGHT") ++ root) := by
  obtain ⟨h1, h2, h3, h4, h5, h6, h7, h8, h9, h10⟩ := hns
  rcases root with _ | ⟨a, _ | ⟨b, _ | ⟨c, _ | ⟨d, _ | ⟨e, rest5⟩⟩⟩⟩⟩
  · exact absurd rfl hroot
  all_goals
    refine ⟨?_, ?_, ?_, ?_, ?_, ?_, ?_, ?_, ?_, ?_⟩ <;>
      first
        | (simp [matchEnd, matchFront, eqc, chClass, isSepChar, sidedSuf,
            rightAllCaps, rightCapitalized, rightLowercase, leftAllCaps,
            leftCapitalized, leftLowercase, strn, List.reverse_append]; done)
        | (exact (matchEnd_isSome_congr _ (strn ("RIGHT")) M _
            (by simp only [sidedSuf, rightAllCaps, rightCapitalized,
              rightLowercase, leftAllCaps, leftCapitalized, leftLowercase,
              List.length_cons, List.length_nil]; omega)).trans
            (by assumption))

theorem noSuffix_word_swap_Right_cp (M root : Name)
    (hns : noSuffixMatch (M ++ root)) (hroot : root ≠ []) :
    noSuffixMatch (strn ("Right") ++ root) := by
  obtain ⟨h1, h2, h3, h4, h5, h6, h7, h8, h9, h10⟩ := hns
  rcases root with _ | ⟨a, _ | ⟨b, _ | ⟨c, _ | ⟨d, _ | ⟨e, rest5⟩⟩⟩⟩⟩
  · exact absurd rfl hroot
  all_goals
    refine ⟨?_, ?_, ?_, ?_, ?_, ?_, ?_, ?_, ?_, ?_⟩ <;>
      first
        | (simp [matchEnd, matchFront, eqc, chClass, isSepChar, sidedSuf,
            rightAllCaps, rightCapitalized, rightLowercase, leftAllCaps,
            leftCapitalized, leftLowercase, strn, List.reverse_append]; done)
        | (exact (matchEnd_isSome_congr _ (strn ("Right")) M _
            (by simp only [sidedSuf, rightAllCaps, rightCapitalized,
              rightLowercase, leftAllCaps, leftCapitalized, leftLowercase,
              List.length_cons, List.length_nil]; omega)).trans
            (by assumption))

theorem noSuffix_word_swap_right_lc (M root : Name)
    (hns : noSuffixMatch (M ++ root)) (hroot : root ≠ []) :
    noSuffixMatch (strn ("right") ++ root) := by
  obtain ⟨h1, h2, h3, h4, h5, h6, h7, h8, h9, h10⟩ := hns
  rcases root with _ | ⟨a, _ | ⟨b, _ | ⟨c, _ | ⟨d, _ | ⟨e, rest5⟩⟩⟩⟩⟩
  · exact absurd rfl hroot
  all_goals
    refine ⟨?_, ?_, ?_, ?_, ?_, ?_, ?_, ?_, ?_, ?_⟩ <;>
      first
        | (simp [matchEnd, matchFront, eqc, chClass, isSepChar, sidedSuf,
            rightAllCaps, rightCapitalized, rightLowercase, leftAllCaps,
            leftCapitalized, leftLowercase, strn, List.reverse_append]; done)
        | (exact (matchEnd_isSome_congr _ (strn ("right")) M _
            (by simp only [sidedSuf, rightAllCaps, rightCapitalized,
              rightLowercase, leftAllCaps, leftCapitalized, leftLowercase,
              List.length_cons, List.length_nil]; omega)).trans
            (by assumption))

theorem flip_prefix_R (stem : Name) (hns : noSuffixMatch stem)
    (h : (matchFront (sidedPre 'R') stem).isSome = true) :
    ∃ o2 b2, parse_bone_name_stem ('L' :: stem.drop 1) =
      (some Side.left, o2, b2) := by
  obtain ⟨hsp, hlen2, hm⟩ := matchFront_isSome_decomp _ _ h
  rw [show (sidedPre 'R').length = 2 from rfl] at hsp hlen2 hm
  obtain ⟨c1, c2, hab⟩ := List.length_eq_two.mp hlen2
  rw [hab] at hsp hm
  simp only [sidedPre, matchesAll, Bool.and_eq_true, Bool.and_true] at hm
  obtain ⟨hc1, hsep⟩ := hm
  have hc1e : c1 = 'R' := of_decide_eq_true hc1
  subst hc1e
  have hdrop : stem.drop 1 = c2 :: stem.drop 2 := by
    conv_lhs => rw [hsp]
    rfl
  rw [hdrop]
  have hns3 : noSuffixMatch ('L' :: c2 :: stem.drop 2) :=
    noSuffix_head_swap 'R' 'L' c2 (stem.drop 2) hsep (hsp ▸ hns)
  obtain ⟨g1, g2, g3, g4, g5, g6, g7, g8, g9, g10⟩ := hns3
  unfold parse_bone_name_stem
  simp only [g1, g2, g3, g4, g5, g6, g7, g8, g9, g10, Bool.false_eq_true,
    if_false]
  simp [matchFront, sidedPre, eqc, chClass, hsep, rightAllCaps,
    rightCapitalized, rightLowercase, leftAllCaps, leftCapitalized,
    leftLowercase]

theorem flip_prefix_r_low (stem : Name) (hns : noSuffixMatch stem)
    (h : (matchFront (sidedPre 'r') stem).isSome = true) :
    ∃ o2 b2, parse_bone_name_stem ('l' :: stem.drop 1) =
      (some Side.left, o2, b2) := by
  obtain ⟨hsp, hlen2, hm⟩ := matchFront_isSome_decomp _ _ h
  rw [show (sidedPre 'r').length = 2 from rfl] at hsp hlen2 hm
  obtain ⟨c1, c2, hab⟩ := List.length_eq_two.mp hlen2
  rw [hab] at hsp hm
  simp only [sidedPre, matchesAll, Bool.and_eq_true, Bool.and_true] at hm
  obtain ⟨hc1, hsep⟩ := hm
  have hc1e : c1 = 'r' := of_decide_eq_true hc1
  subst hc1e
  have hdrop : stem.drop 1 = c2 :: stem.drop 2 := by
    conv_lhs => rw [hsp]
    rfl
  rw [hdrop]
  have hns3 : noSuffixMatch ('l' :: c2 :: stem.drop 2) :=
    noSuffix_head_swap 'r' 'l' c2 (stem.drop 2) hsep (hsp ▸ hns)
  obtain ⟨g1, g2, g3, g4, g5, g6, g7, g8, g9, g10⟩ := hns3
  unfold parse_bone_name_stem
  simp only [g1, g2, g3, g4, g5, g6, g7, g8, g9, g10, Bool.false_eq_true,
    if_false]
  simp [matchFront, sidedPre, eqc, chClass, hsep, rightAllCaps,
    rightCapitalized, rightLowercase, leftAllCaps, leftCapitalized,
    leftLowercase]

theorem flip_prefix_L (stem : Name) (hns : noSuffixMatch stem)
    (h : (matchFront (sidedPre 'L') stem).isSome = true) :
    ∃ o2 b2, parse_bone_name_stem ('R' :: stem.drop 1) =
      (some Side.right, o2, b2) := by
  obtain ⟨hsp, hlen2, hm⟩ := matchFront_isSome_decomp _ _ h
  rw [show (sidedPre 'L').length = 2 from rfl] at hsp hlen2 hm
  obtain ⟨c1, c2, hab⟩ := List.length_eq_two.mp hlen2
  rw [hab] at hsp hm
  simp only [sidedPre, matchesAll, Bool.and_eq_true, Bool.and_true] at hm
  obtain ⟨hc1, hsep⟩ := hm
  have hc1e : c1 = 'L' := of_decide_eq_true hc1
  subst hc1e
  have hdrop : stem.drop 1 = c2 :: stem.drop 2 := by
    conv_lhs => rw [hsp]
    rfl
  rw [hdrop]
  have hns3 : noSuffixMatch ('R' :: c2 :: stem.drop 2) :=
    noSuffix_head_swap 'L' 'R' c2 (stem.drop 2) hsep (hsp ▸ hns)
  obtain ⟨g1, g2, g3, g4, g5, g6, g7, g8, g9, g10⟩ := hns3
  unfold parse_bone_name_stem
  simp only [g1, g2, g3, g4, g5, g6, g7, g8, g9, g10, Bool.false_eq_true,
    if_false]
  simp [matchFront, sidedPre, eqc, chClass, hsep, rightAllCaps,
    rightCapitalized, rightLowercase, leftAllCaps, leftCapitalized,
    leftLowercase]

theorem flip_prefix_l_low (stem : Name) (hns : noSuffixMatch stem)
    (h : (matchFront (sidedPre 'l') stem).isSome = true) :
    ∃ o2 b2, parse_bone_name_stem ('r' :: stem.drop 1) =
      (some Side.right, o2, b2) := by
  obtain ⟨hsp, hlen2, hm⟩ := matchFront_isSome_decomp _ _ h
  rw [show (sidedPre 'l').length = 2 from rfl] at hsp hlen2 hm
  obtain ⟨c1, c2, hab⟩ := List.length_eq_two.mp hlen2
  rw [hab] at hsp hm
  simp only [sidedPre, matchesAll, Bool.and_eq_true, Bool.and_true] at hm
  obtain ⟨hc1, hsep⟩ := hm
  have hc1e : c1 = 'l' := of_decide_eq_true hc1
  subst hc1e
  have hdrop : stem.drop 1 = c2 :: stem.drop 2 := by
    conv_lhs => rw [hsp]
    rfl
  rw [hdrop]
  have hns3 : noSuffixMatch ('r' :: c2 :: stem.drop 2) :=
    noSuffix_head_swap 'l' 'r' c2 (stem.drop 2) hsep (hsp ▸ hns)
  obtain ⟨g1, g2, g3, g4, g5, g6, g7, g8, g9, g10⟩ := hns3
  unfold parse_bone_name_stem
  simp only [g1, g2, g3, g4, g5, g6, g7, g8, g9, g10, Bool.false_eq_true,
    if_false]
  simp [matchFront, sidedPre, eqc, chClass, hsep, rightAllCaps,
    rightCapitalized, rightLowercase, leftAllCaps, leftCapitalized,
    leftLowercase]

theorem flip_prefix_RIGHT_ac (stem : Name) (hns : noSuffixMatch stem)
    (h : (matchFront rightAllCaps stem).isSome = true) :
    ∃ o2 b2, parse_bone_name_stem (strn ("LEFT") ++ stem.drop 5) =
      (some Side.left, o2, b2) := by
  obtain ⟨hsp, hlen2, hm⟩ := matchFront_isSome_decomp _ _ h
  rw [show (rightAllCaps).length = 5 from rfl] at hsp hlen2 hm
  have hrootne : stem.drop 5 ≠ [] := by
    intro hnil
    have hsM := matchEnd_split rightAllCaps [] (stem.take 5)
      (by rw [hlen2]; rfl)
    rw [List.nil_append] at hsM
    simp only [hm, if_true] at hsM
    have hcontra := hns.2.2.2.2.1
    rw [hsp, hnil, List.append_nil] at hcontra
    rw [hsM] at hcontra
    simp at hcontra
  have hns3 : noSuffixMatch (strn ("LEFT") ++ stem.drop 5) :=
    noSuffix_word_swap_LEFT_ac (stem.take 5) (stem.drop 5)
      (hsp ▸ hns) hrootne
  obtain ⟨g1, g2, g3, g4, g5, g6, g7, g8, g9, g10⟩ := hns3
  unfold parse_bone_name_stem
  simp only [g1, g2, g3, g4, g5, g6, g7, g8, g9, g10, Bool.false_eq_true,
    if_false]
  simp [matchFront, sidedPre, eqc, chClass, strn, isSepChar, rightAllCaps,
    rightCapitalized, rightLowercase, leftAllCaps, leftCapitalized,
    leftLowercase]

theorem flip_prefix_Right_cp (stem : Name) (hns : noSuffixMatch stem)
    (h : (matchFront rightCapitalized stem).isSome = true) :
    ∃ o2 b2, parse_bone_name_stem (strn ("Left") ++ stem.drop 5) =
      (some Side.left, o2, b2) := by
  obtain ⟨hsp, hlen2, hm⟩ := matchFront_isSome_decomp _ _ h
  rw [show (rightCapitalized).length = 5 from rfl] at hsp hlen2 hm
  have hrootne : stem.drop 5 ≠ [] := by
    intro hnil
    have hsM := matchEnd_split rightCapitalized [] (stem.take 5)
      (by rw [hlen2]; rfl)
    rw [List.nil_append] at hsM
    simp only [hm, if_true] at hsM
    have hcontra := hns.2.2.2.2.2.1
    rw [hsp, hnil, List.append_nil] at hcontra
    rw [hsM] at hcontra
    simp at hcontra
  have hns3 : noSuffixMatch (strn ("Left") ++ stem.drop 5) :=
    noSuffix_word_swap_Left_cp (stem.take 5) (stem.drop 5)
      (hsp ▸ hns) hrootne
  obtain ⟨g1, g2, g3, g4, g5, g6, g7, g8, g9, g10⟩ := hns3
  unfold parse_bone_name_stem
  simp only [g1, g2, g3, g4, g5, g6, g7, g8, g9, g10, Bool.false_eq_true,
    if_false]
  simp [matchFront, sidedPre, eqc, chClass, strn, isSepChar, rightAllCaps,
    rightCapitalized, rightLowercase, leftAllCaps, leftCapitalized,
    leftLowercase]

theorem flip_prefix_right_lc (stem : Name) (hns : noSuffixMatch stem)
    (h : (matchFront rightLowercase stem).isSome = true) :
    ∃ o2 b2, parse_bone_name_stem (strn ("left") ++ stem.drop 5) =
      (some Side.left, o2, b2) := by
  obtain ⟨hsp, hlen2, hm⟩ := matchFront_isSome_decomp _ _ h
  rw [show (rightLowercase).length = 5 from rfl] at hsp hlen2 hm
  have hrootne : stem.drop 5 ≠ [] := by
    intro hnil
    have hsM := matchEnd_split rightLowercase [] (stem.take 5)
      (by rw [hlen2]; rfl)
    rw [List.nil_append] at hsM
    simp only [hm, if_true] at hsM
    have hcontra := hns.2.2.2.2.2.2.1
    rw [hsp, hnil, List.append_nil] at hcontra
    rw [hsM] at hcontra
    simp at hcontra
  have hns3 : noSuffixMatch (strn ("left") ++ stem.drop 5) :=
    noSuffix_word_swap_left_lc (stem.take 5) (stem.drop 5)
      (hsp ▸ hns) hrootne
  obtain ⟨g1, g2, g3, g4, g5, g6, g7, g8, g9, g10⟩ := hns3
  unfold parse_bone_name_stem
  simp only [g1, g2, g3, g4, g5, g6, g7, g8, g9, g10, Bool.false_eq_true,
    if_false]
  simp [matchFront, sidedPre, eqc, chClass, strn, isSepChar, rightAllCaps,
    rightCapitalized, rightLowercase, leftAllCaps, leftCapitalized,
    leftLowercase]

theorem flip_prefix_LEFT_ac (stem : Name) (hns : noSuffixMatch stem)
    (h : (matchFront leftAllCaps stem).isSome = true) :
    ∃ o2 b2, parse_bone_name_stem (strn ("RIGHT") ++ stem.drop 4) =
      (some Side.right, o2, b2) := by
  obtain ⟨hsp, hlen2, hm⟩ := matchFront_isSome_decomp _ _ h
  rw [show (leftAllCaps).length = 4 from rfl] at hsp hlen2 hm
  have hrootne : stem.drop 4 ≠ [] := by
    intro hnil
    have hsM := matchEnd_split leftAllCaps [] (stem.take 4)
      (by rw [hlen2]; rfl)
    rw [List.nil_append] at hsM
    simp only [hm, if_true] at hsM
    have hcontra := hns.2.2.2.2.2.2.2.1
    rw [hsp, hnil, List.append_nil] at hcontra
    rw [hsM] at hcontra
    simp at hcontra
  have hns3 : noSuffixMatch (strn ("RIGHT") ++ stem.drop 4) :=
    noSuffix_word_swap_RIGHT_ac (stem.take 4) (stem.drop 4)
      (hsp ▸ hns) hrootne
  obtain ⟨g1, g2, g3, g4, g5, g6, g7, g8, g9, g10⟩ := hns3
  unfold parse_bone_name_stem
  simp only [g1, g2, g3, g4, g5, g6, g7, g8, g9, g10, Bool.false_eq_true,
    if_false]
  simp [matchFront, sidedPre, eqc, chClass, strn, isSepChar, rightAllCaps,
    rightCapitalized, rightLowercase, leftAllCaps, leftCapitalized,
    leftLowercase]

theorem flip_prefix_Left_cp (stem : Name) (hns : noSuffixMatch stem)
    (h : (matchFront leftCapitalized stem).isSome = true) :
    ∃ o2 b2, parse_bone_name_stem (strn ("Right") ++ stem.drop 4) =
      (some Side.right, o2, b2) := by
  obtain ⟨hsp, hlen2, hm⟩ := matchFront_isSome_decomp _ _ h
  rw [show (leftCapitalized).length = 4 from rfl] at hsp hlen2 hm
  have hrootne : stem.drop 4 ≠ [] := by
    intro hnil
    have hsM := matchEnd_split leftCapitalized [] (stem.take 4)
      (by rw [hlen2]; rfl)
    rw [List.nil_append] at hsM
    simp only [hm, if_true] at hsM
    have hcontra := hns.2.2.2.2.2.2.2.2.1
    rw [hsp, hnil, List.append_nil] at hcontra
    rw [hsM] at hcontra
    simp at hcontra
  have hns3 : noSuffixMatch (strn ("Right") ++ stem.drop 4) :=
    noSuffix_word_swap_Right_cp (stem.take 4) (stem.drop 4)
      (hsp ▸ hns) hrootne
  obtain ⟨g1, g2, g3, g4, g5, g6, g7, g8, g9, g10⟩ := hns3
  unfold parse_bone_name_stem
  simp only [g1, g2, g3, g4, g5, g6, g7, g8, g9, g10, Bool.false_eq_true,
    if_false]
  simp [matchFront, sidedPre, eqc, chClass, strn, isSepChar, rightAllCaps,
    rightCapitalized, rightLowercase, leftAllCaps, leftCapitalized,
    leftLowercase]

theorem flip_prefix_left_lc (stem : Name) (hns : noSuffixMatch stem)
    (h : (matchFront leftLowercase stem).isSome = true) :
    ∃ o2 b2, parse_bone_name_stem (strn ("right") ++ stem.drop 4) =
      (some Side.right, o2, b2) := by
  obtain ⟨hsp, hlen2, hm⟩ := matchFront_isSome_decomp _ _ h
  rw [show (leftLowercase).length = 4 from rfl] at hsp hlen2 hm
  have hrootne : stem.drop 4 ≠ [] := by
    intro hnil
    have hsM := matchEnd_split leftLowercase [] (stem.take 4)
      (by rw [hlen2]; rfl)
    rw [List.nil_append] at hsM
    simp only [hm, if_true] at hsM
    have hcontra := hns.2.2.2.2.2.2.2.2.2
    rw [hsp, hnil, List.append_nil] at hcontra
    rw [hsM] at hcontra
    simp at hcontra
  have hns3 : noSuffixMatch (strn ("right") ++ stem.drop 4) :=
    noSuffix_word_swap_right_lc (stem.take 4) (stem.drop 4)
      (hsp ▸ hns) hrootne
  obtain ⟨g1, g2, g3, g4, g5, g6, g7, g8, g9, g10⟩ := hns3
  unfold parse_bone_name_stem
  simp only [g1, g2, g3, g4, g5, g6, g7, g8, g9, g10, Bool.false_eq_true,
    if_false]
  simp [matchFront, sidedPre, eqc, chClass, strn, isSepChar, rightAllCaps,
    rightCapitalized, rightLowercase, leftAllCaps, leftCapitalized,
    leftLowercase]

theorem flip_wsuffix_RIGHT_ac (stem : Name) :
    ∃ o2 b2, parse_bone_name_stem (dropEnd stem 5 ++ strn ("LEFT")) =
      (some Side.left, o2, b2) := by
  unfold parse_bone_name_stem
  simp [matchEnd, matchFront, eqc, chClass, strn, sidedSuf, sidedPre,
    rightAllCaps, rightCapitalized, rightLowercase, leftAllCaps,
    leftCapitalized, leftLowercase, List.reverse_append]

theorem flip_wsuffix_Right_cp (stem : Name) :
    ∃ o2 b2, parse_bone_name_stem (dropEnd stem 5 ++ strn ("Left")) =
      (some Side.left, o2, b2) := by
  unfold parse_bone_name_stem
  simp [matchEnd, matchFront, eqc, chClass, strn, sidedSuf, sidedPre,
    rightAllCaps, rightCapitalized, rightLowercase, leftAllCaps,
    leftCapitalized, leftLowercase, List.reverse_append]

theorem flip_wsuffix_right_lc (stem : Name) :
    ∃ o2 b2, parse_bone_name_stem (dropEnd stem 5 ++ strn ("left")) =
      (some Side.left, o2, b2) := by
  unfold parse_bone_name_stem
  simp [matchEnd, matchFront, eqc, chClass, strn, sidedSuf, sidedPre,
    rightAllCaps, rightCapitalized, rightLowercase, leftAllCaps,
    leftCapitalized, leftLowercase, List.reverse_append]

theorem flip_wsuffix_LEFT_ac (stem : Name) :
    ∃ o2 b2, parse_bone_name_stem (dropEnd stem 4 ++ strn ("RIGHT")) =
      (some Side.right, o2, b2) := by
  unfold parse_bone_name_stem
  simp [matchEnd, matchFront, eqc, chClass, strn, sidedSuf, sidedPre,
    rightAllCaps, rightCapitalized, rightLowercase, leftAllCaps,
    leftCapitalized, leftLowercase, List.reverse_append]

theorem flip_wsuffix_Left_cp (stem : Name) :
    ∃ o2 b2, parse_bone_name_stem (dropEnd stem 4 ++ strn ("Right")) =
      (some Side.right, o2, b2) := by
  unfold parse_bone_name_stem
  simp [matchEnd, matchFront, eqc, chClass, strn, sidedSuf, sidedPre,
    rightAllCaps, rightCapitalized, rightLowercase, leftAllCaps,
    leftCapitalized, leftLowercase, List.reverse_append]

theorem flip_wsuffix_left_lc (stem : Name) :
    ∃ o2 b2, parse_bone_name_stem (dropEnd stem 4 ++ strn ("right")) =
      (some Side.right, o2, b2) := by
  unfold parse_bone_name_stem
  simp [matchEnd, matchFront, eqc, chClass, strn, sidedSuf, sidedPre,
    rightAllCaps, rightCapitalized, rightLowercase, leftAllCaps,
    leftCapitalized, leftLowercase, List.reverse_append]

theorem parse_stem_opposite_flips (stem : Name) (s : Side)
    (opp bil : Name)
    (h : parse_bone_name_stem stem = (some s, opp, bil)) :
    ∃ o2 b2, parse_bone_name_stem opp = (some s.opposite, o2, b2) := by
  unfold parse_bone_name_stem at h
  by_cases h1 : (matchEnd (sidedSuf 'r') stem).isSome = true
  · simp only [h1, if_true, Prod.mk.injEq] at h
    obtain ⟨hs, ho, hb⟩ := h
    injection hs with hs
    subst hs
    subst ho
    exact flip_suffix_r stem h1
  rw [Bool.not_eq_true] at h1
  simp only [h1, Bool.false_eq_true, if_false] at h
  by_cases h2 : (matchEnd (sidedSuf 'R') stem).isSome = true
  · simp only [h2, if_true, Prod.mk.injEq] at h
    obtain ⟨hs, ho, hb⟩ := h
    injection hs with hs
    subst hs
    subst ho
    exact flip_suffix_R stem h2
  rw [Bool.not_eq_true] at h2
  simp only [h2, Bool.false_eq_true, if_false] at h
  by_cases h3 : (matchEnd (sidedSuf 'l') stem).isSome = true
  · simp only [h3, if_true, Prod.mk.injEq] at h
    obtain ⟨hs, ho, hb⟩ := h
    injection hs with hs
    subst hs
    subst ho
    exact flip_suffix_l stem h3
  rw [Bool.not_eq_true] at h3
  simp only [h3, Bool.false_eq_true, if_false] at h
  by_cases h4 : (matchEnd (sidedSuf 'L') stem).isSome = true
  · simp only [h4, if_true, Prod.mk.injEq] at h
    obtain ⟨hs, ho, hb⟩ := h
    injection hs with hs
    subst hs
    subst ho
    exact flip_suffix_L stem h4
  rw [Bool.not_eq_true] at h4
  simp only [h4, Bool.false_eq_true, if_false] at h
  by_cases h5 : (matchEnd rightAllCaps stem).isSome = true
  · simp only [h5, if_true, Prod.mk.injEq] at h
    obtain ⟨hs, ho, hb⟩ := h
    injection hs with hs
    subst hs
    subst ho
    exact flip_wsuffix_RIGHT_ac stem
  rw [Bool.not_eq_true] at h5
  simp only [h5, Bool.false_eq_true, if_false] at h
  by_cases h6 : (matchEnd rightCapitalized stem).isSome = true
  · simp only [h6, if_true, Prod.mk.injEq] at h
    obtain ⟨hs, ho, hb⟩ := h
    injection hs with hs
    subst hs
    subst ho
    exact flip_wsuffix_Right_cp stem
  rw [Bool.not_eq_true] at h6
  simp only [h6, Bool.false_eq_true, if_false] at h
  by_cases h7 : (matchEnd rightLowercase stem).isSome = true
  · simp only [h7, if_true, Prod.mk.injEq] at h
    obtain ⟨hs, ho, hb⟩ := h
    injection hs with hs
    subst hs
    subst ho
    exact flip_wsuffix_right_lc stem
  rw [Bool.not_eq_true] at h7
  simp only [h7, Bool.false_eq_true, if_false] at h
  by_cases h8 : (matchEnd leftAllCaps stem).isSome = true
  · simp only [h8, if_true, Prod.mk.injEq] at h
    obtain ⟨hs, ho, hb⟩ := h
    injection hs with hs
    subst hs
    subst ho
    exact flip_wsuffix_LEFT_ac stem
  rw [Bool.not_eq_true] at h8
  simp only [h8, Bool.false_eq_true, if_false] at h
  by_cases h9 : (matchEnd leftCapitalized stem).isSome = true
  · simp only [h9, if_true, Prod.mk.injEq] at h
    obtain ⟨hs, ho, hb⟩ := h
    injection hs with hs
    subst hs
    subst ho
    exact flip_wsuffix_Left_cp stem
  rw [Bool.not_eq_true] at h9
  simp only [h9, Bool.false_eq_true, if_false] at h
  by_cases h10 : (matchEnd leftLowercase stem).isSome = true
  · simp only [h10, if_true, Prod.mk.injEq] at h
    obtain ⟨hs, ho, hb⟩ := h
    injection hs with hs
    subst hs
    subst ho
    exact flip_wsuffix_left_lc stem
  rw [Bool.not_eq_true] at h10
  simp only [h10, Bool.false_eq_true, if_false] at h
  by_cases h11 : (matchFront (sidedPre 'R') stem).isSome = true
  · simp only [h11, if_true, Prod.mk.injEq] at h
    obtain ⟨hs, ho, hb⟩ := h
    injection hs with hs
    subst hs
    subst ho
    have hnsM : noSuffixMatch stem :=
      ⟨h1, h2, h3, h4, h5, h6, h7, h8, h9, h10⟩
    exact flip_prefix_R stem hnsM h11
  rw [Bool.not_eq_true] at h11
  simp only [h11, Bool.false_eq_true, if_false] at h
  by_cases h12 : (matchFront (sidedPre 'r') stem).isSome = true
  · simp only [h12, if_true, Prod.mk.injEq] at h
    obtain ⟨hs, ho, hb⟩ := h
    injection hs with hs
    subst hs
    subst ho
    have hnsM : noSuffixMatch stem :=
      ⟨h1, h2, h3, h4, h5, h6, h7, h8, h9, h10⟩
    exact flip_prefix_r_low stem hnsM h12
  rw [Bool.not_eq_true] at h12
  simp only [h12, Bool.false_eq_true, if_false] at h
  by_cases h13 : (matchFront (sidedPre 'L') stem).isSome = true
  · simp only [h13, if_true, Prod.mk.injEq] at h
    obtain ⟨hs, ho, hb⟩ := h
    injection hs with hs
    subst hs
    subst ho
    have hnsM : noSuffixMatch stem :=
      ⟨h1, h2, h3, h4, h5, h6, h7, h8, h9, h10⟩
    exact flip_prefix_L stem hnsM h13
  rw [Bool.not_eq_true] at h13
  simp only [h13, Bool.false_eq_true, if_false] at h
  by_cases h14 : (matchFront (sidedPre 'l') stem).isSome = true
  · simp only [h14, if_true, Prod.mk.injEq] at h
    obtain ⟨hs, ho, hb⟩ := h
    injection hs with hs
    subst hs
    subst ho
    have hnsM : noSuffixMatch stem :=
      ⟨h1, h2, h3, h4, h5, h6, h7, h8, h9, h10⟩
    exact flip_prefix_l_low stem hnsM h14
  rw [Bool.not_eq_true] at h14
  simp only [h14, Bool.false_eq_true, if_false] at h
  by_cases h15 : (matchFront rightAllCaps stem).isSome = true
  · simp only [h15, if_true, Prod.mk.injEq] at h
    obtain ⟨hs, ho, hb⟩ := h
    injection hs with hs
    subst hs
    subst ho
    have hnsM : noSuffixMatch stem :=
      ⟨h1, h2, h3, h4, h5, h6, h7, h8, h9, h10⟩
    exact flip_prefix_RIGHT_ac stem hnsM h15
  rw [Bool.not_eq_true] at h15
  simp only [h15, Bool.false_eq_true, if_false] at h
  by_cases h16 : (matchFront rightCapitalized stem).isSome = true
  · simp only [h16, if_true, Prod.mk.injEq] at h
    obtain ⟨hs, ho, hb⟩ := h
    injection hs with hs
    subst hs
    subst ho
    have hnsM : noSuffixMatch stem :=
      ⟨h1, h2, h3, h4, h5, h6, h7, h8, h9, h10⟩
    exact flip_prefix_Right_cp stem hnsM h16
  rw [Bool.not_eq_true] at h16
  simp only [h16, Bool.false_eq_true, if_false] at h
  by_cases h17 : (matchFront rightLowercase stem).isSome = true
  · simp only [h17, if_true, Prod.mk.injEq] at h
    obtain ⟨hs, ho, hb⟩ := h
    injection hs with hs
    subst hs
    subst ho
    have hnsM : noSuffixMatch stem :=
      ⟨h1, h2, h3, h4, h5, h6, h7, h8, h9, h10⟩
    exact flip_prefix_right_lc stem hnsM h17
  rw [Bool.not_eq_true] at h17
  simp only [h17, Bool.false_eq_true, if_false] at h
  by_cases h18 : (matchFront leftAllCaps stem).isSome = true
  · simp only [h18, if_true, Prod.mk.injEq] at h
    obtain ⟨hs, ho, hb⟩ := h
    injection hs with hs
    subst hs
    subst ho
    have hnsM : noSuffixMatch stem :=
      ⟨h1, h2, h3, h4, h5, h6, h7, h8, h9, h10⟩
    exact flip_prefix_LEFT_ac stem hnsM h18
  rw [Bool.not_eq_true] at h18
  simp only [h18, Bool.false_eq_true, if_false] at h
  by_cases h19 : (matchFront leftCapitalized stem).isSome = true
  · simp only [h19, if_true, Prod.mk.injEq] at h
    obtain ⟨hs, ho, hb⟩ := h
    injection hs with hs
    subst hs
    subst ho
    have hnsM : noSuffixMatch stem :=
      ⟨h1, h2, h3, h4, h5, h6, h7, h8, h9, h10⟩
    exact flip_prefix_Left_cp stem hnsM h19
  rw [Bool.not_eq_true] at h19
  simp only [h19, Bool.false_eq_true, if_false] at h
  by_cases h20 : (matchFront leftLowercase stem).isSome = true
  · simp only [h20, if_true, Prod.mk.injEq] at h
    obtain ⟨hs, ho, hb⟩ := h
    injection hs with hs
    subst hs
    subst ho
    have hnsM : noSuffixMatch stem :=
      ⟨h1, h2, h3, h4, h5, h6, h7, h8, h9, h10⟩
    exact flip_prefix_left_lc stem hnsM h20
  rw [Bool.not_eq_true] at h20
  simp only [h20, Bool.false_eq_true, if_false] at h
  simp only [Prod.mk.injEq] at h
  exact Option.noConfusion h.1

theorem dropEnd_zero (l : Name) : dropEnd l 0 = l := by
  unfold dropEnd
  rw [Nat.sub_zero, List.take_length]

theorem get_word_front (wi : Name) (wl : Char) (hwl_dot : ¬ wl = '.')
    (hwl_dig : isDigitCh wl = false) (M t : Name)
    (hstem : get_name_numeric_suffix (M ++ t) = []) :
    get_name_numeric_suffix ((wi ++ [wl]) ++ t) = [] := by
  by_cases hall : ∀ d ∈ t, isDigitCh d = true
  · cases t with
    | nil =>
      rw [List.append_nil]
      exact get_end_nondigit wi wl hwl_dig
    | cons c t' =>
      rw [List.append_assoc, List.singleton_append,
        get_sep_digits wi wl (c :: t') (by simp) hall hwl_dig]
      rw [if_neg hwl_dot]
  · have hex : ∃ c ∈ t, isDigitCh c = false := by
      push_neg at hall
      obtain ⟨d, hd, hnd⟩ := hall
      exact ⟨d, hd, Bool.not_eq_true _ |>.mp hnd⟩
    rw [get_append_nondigit _ t hex]
    rw [get_append_nondigit M t hex] at hstem
    exact hstem

theorem parse_stem_opposite_no_sfx (stem : Name) (s : Side)
    (opp bil : Name)
    (h : parse_bone_name_stem stem = (some s, opp, bil))
    (hstem : get_name_numeric_suffix stem = []) :
    get_name_numeric_suffix opp = [] := by
  unfold parse_bone_name_stem at h
  by_cases h1 : (matchEnd (sidedSuf 'r') stem).isSome = true
  · simp only [h1, if_true, Prod.mk.injEq] at h
    obtain ⟨hs, ho, hb⟩ := h
    subst ho
    exact get_end_nondigit _ 'l' (by decide)
  rw [Bool.not_eq_true] at h1
  simp only [h1, Bool.false_eq_true, if_false] at h
  by_cases h2 : (matchEnd (sidedSuf 'R') stem).isSome = true
  · simp only [h2, if_true, Prod.mk.injEq] at h
    obtain ⟨hs, ho, hb⟩ := h
    subst ho
    exact get_end_nondigit _ 'L' (by decide)
  rw [Bool.not_eq_true] at h2
  simp only [h2, Bool.false_eq_true, if_false] at h
  by_cases h3 : (matchEnd (sidedSuf 'l') stem).isSome = true
  · simp only [h3, if_true, Prod.mk.injEq] at h
    obtain ⟨hs, ho, hb⟩ := h
    subst ho
    exact get_end_nondigit _ 'r' (by decide)
  rw [Bool.not_eq_true] at h3
  simp only [h3, Bool.false_eq_true, if_false] at h
  by_cases h4 : (matchEnd (sidedSuf 'L') stem).isSome = true
  · simp only [h4, if_true, Prod.mk.injEq] at h
    obtain ⟨hs, ho, hb⟩ := h
    subst ho
    exact get_end_nondigit _ 'R' (by decide)
  rw [Bool.not_eq_true] at h4
  simp only [h4, Bool.false_eq_true, if_false] at h
  by_cases h5 : (matchEnd rightAllCaps stem).isSome = true
  · simp only [h5, if_true, Prod.mk.injEq] at h
    obtain ⟨hs, ho, hb⟩ := h
    subst ho
    rw [show strn ("LEFT") = strn ("LEF") ++ ['T'] from by decide,
      ← List.append_assoc]
    exact get_end_nondigit _ 'T' (by decide)
  rw [Bool.not_eq_true] at h5
  simp only [h5, Bool.false_eq_true, if_false] at h
  by_cases h6 : (matchEnd rightCapitalized stem).isSome = true
  · simp only [h6, if_true, Prod.mk.injEq] at h
    obtain ⟨hs, ho, hb⟩ := h
    subst ho
    rw [show strn ("Left") = strn ("Lef") ++ ['t'] from by decide,
      ← List.append_assoc]
    exact get_end_nondigit _ 't' (by decide)
  rw [Bool.not_eq_true] at h6
  simp only [h6, Bool.false_eq_true, if_false] at h
  by_cases h7 : (matchEnd rightLowercase stem).isSome = true
  · simp only [h7, if_true, Prod.mk.injEq] at h
    obtain ⟨hs, ho, hb⟩ := h
    subst ho
    rw [show strn ("left") = strn ("lef") ++ ['t'] from by decide,
      ← List.append_assoc]
    exact get_end_nondigit _ 't' (by decide)
  rw [Bool.not_eq_true] at h7
  simp only [h7, Bool.false_eq_true, if_false] at h
  by_cases h8 : (matchEnd leftAllCaps stem).isSome = true
  · simp only [h8, if_true, Prod.mk.injEq] at h
    obtain ⟨hs, ho, hb⟩ := h
    subst ho
    rw [show strn ("RIGHT") = strn ("RIGH") ++ ['T'] from by decide,
      ← List.append_assoc]
    exact get_end_nondigit _ 'T' (by decide)
  rw [Bool.not_eq_true] at h8
  simp only [h8, Bool.false_eq_true, if_false] at h
  by_cases h9 : (matchEnd leftCapitalized stem).isSome = true
  · simp only [h9, if_true, Prod.mk.injEq] at h
    obtain ⟨hs, ho, hb⟩ := h
    subst ho
    rw [show strn ("Right") = strn ("Righ") ++ ['t'] from by decide,
      ← List.append_assoc]
    exact get_end_nondigit _ 't' (by decide)
  rw [Bool.not_eq_true] at h9
  simp only [h9, Bool.false_eq_true, if_false] at h
  by_cases h10 : (matchEnd leftLowercase stem).isSome = true
  · simp only [h10, if_true, Prod.mk.injEq] at h
    obtain ⟨hs, ho, hb⟩ := h
    subst ho
    rw [show strn ("right") = strn ("righ") ++ ['t'] from by decide,
      ← List.append_assoc]
    exact get_end_nondigit _ 't' (by decide)
  rw [Bool.not_eq_true] at h10
  simp only [h10, Bool.false_eq_true, if_false] at h
  by_cases h11 : (matchFront (sidedPre 'R') stem).isSome = true
  · simp only [h11, if_true, Prod.mk.injEq] at h
    obtain ⟨hs, ho, hb⟩ := h
    subst ho
    obtain ⟨hsp, hlen2, hm⟩ := matchFront_isSome_decomp _ _ h11
    rw [show (sidedPre 'R').length = 2 from rfl] at hsp hlen2 hm
    obtain ⟨c1, c2, hab⟩ := List.length_eq_two.mp hlen2
    rw [hab] at hsp hm
    simp only [sidedPre, matchesAll, Bool.and_eq_true, Bool.and_true] at hm
    obtain ⟨hc1, hsep⟩ := hm
    have hdrop : stem.drop 1 = c2 :: stem.drop 2 := by
      conv_lhs => rw [hsp]
      rfl
    rw [hdrop]
    have hex : ∃ c ∈ c2 :: stem.drop 2, isDigitCh c = false :=
      ⟨c2, by simp, sep_not_digit c2 hsep⟩
    rw [show ('L' :: c2 :: stem.drop 2 : Name) =
      ['L'] ++ (c2 :: stem.drop 2) from rfl,
      get_append_nondigit _ _ hex]
    rw [hsp] at hstem
    rw [show ([c1, c2] ++ stem.drop 2 : Name) =
      [c1] ++ (c2 :: stem.drop 2) from rfl,
      get_append_nondigit _ _ hex] at hstem
    exact hstem
  rw [Bool.not_eq_true] at h11
  simp only [h11, Bool.false_eq_true, if_false] at h
  by_cases h12 : (matchFront (sidedPre 'r') stem).isSome = true
  · simp only [h12, if_true, Prod.mk.injEq] at h
    obtain ⟨hs, ho, hb⟩ := h
    subst ho
    obtain ⟨hsp, hlen2, hm⟩ := matchFront_isSome_decomp _ _ h12
    rw [show (sidedPre 'r').length = 2 from rfl] at hsp hlen2 hm
    obtain ⟨c1, c2, hab⟩ := List.length_eq_two.mp hlen2
    rw [hab] at hsp hm
    simp only [sidedPre, matchesAll, Bool.and_eq_true, Bool.and_true] at hm
    obtain ⟨hc1, hsep⟩ := hm
    have hdrop : stem.drop 1 = c2 :: stem.drop 2 := by
      conv_lhs => rw [hsp]
      rfl
    rw [hdrop]
    have hex : ∃ c ∈ c2 :: stem.drop 2, isDigitCh c = false :=
      ⟨c2, by simp, sep_not_digit c2 hsep⟩
    rw [show ('l' :: c2 :: stem.drop 2 : Name) =
      ['l'] ++ (c2 :: stem.drop 2) from rfl,
      get_append_nondigit _ _ hex]
    rw [hsp] at hstem
    rw [show ([c1, c2] ++ stem.drop 2 : Name) =
      [c1] ++ (c2 :: stem.drop 2) from rfl,
      get_append_nondigit _ _ hex] at hstem
    exact hstem
  rw [Bool.not_eq_true] at h12
  simp only [h12, Bool.false_eq_true, if_false] at h
  by_cases h13 : (matchFront (sidedPre 'L') stem).isSome = true
  · simp only [h13, if_true, Prod.mk.injEq] at h
    obtain ⟨hs, ho, hb⟩ := h
    subst ho
    obtain ⟨hsp, hlen2, hm⟩ := matchFront_isSome_decomp _ _ h13
    rw [show (sidedPre 'L').length = 2 from rfl] at hsp hlen2 hm
    obtain ⟨c1, c2, hab⟩ := List.length_eq_two.mp hlen2
    rw [hab] at hsp hm
    simp only [sidedPre, matchesAll, Bool.and_eq_true, Bool.and_true] at hm
    obtain ⟨hc1, hsep⟩ := hm
    have hdrop : stem.drop 1 = c2 :: stem.drop 2 := by
      conv_lhs => rw [hsp]
      rfl
    rw [hdrop]
    have hex : ∃ c ∈ c2 :: stem.drop 2, isDigitCh c = false :=
      ⟨c2, by simp, sep_not_digit c2 hsep⟩
    rw [show ('R' :: c2 :: stem.drop 2 : Name) =
      ['R'] ++ (c2 :: stem.drop 2) from rfl,
      get_append_nondigit _ _ hex]
    rw [hsp] at hstem
    rw [show ([c1, c2] ++ stem.drop 2 : Name) =
      [c1] ++ (c2 :: stem.drop 2) from rfl,
      get_append_nondigit _ _ hex] at hstem
    exact hstem
  rw [Bool.not_eq_true] at h13
  simp only [h13, Bool.false_eq_true, if_false] at h
  by_cases h14 : (matchFront (sidedPre 'l') stem).isSome = true
  · simp only [h14, if_true, Prod.mk.injEq] at h
    obtain ⟨hs, ho, hb⟩ := h
    subst ho
    obtain ⟨hsp, hlen2, hm⟩ := matchFront_isSome_decomp _ _ h14
    rw [show (sidedPre 'l').length = 2 from rfl] at hsp hlen2 hm
    obtain ⟨c1, c2, hab⟩ := List.length_eq_two.mp hlen2
    rw [hab] at hsp hm
    simp only [sidedPre, matchesAll, Bool.and_eq_true, Bool.and_true] at hm
    obtain ⟨hc1, hsep⟩ := hm
    have hdrop : stem.drop 1 = c2 :: stem.drop 2 := by
      conv_lhs => rw [hsp]
      rfl
    rw [hdrop]
    have hex : ∃ c ∈ c2 :: stem.drop 2, isDigitCh c = false :=
      ⟨c2, by simp, sep_not_digit c2 hsep⟩
    rw [show ('r' :: c2 :: stem.drop 2 : Name) =
      ['r'] ++ (c2 :: stem.drop 2) from rfl,
      get_append_nondigit _ _ hex]
    rw [hsp] at hstem
    rw [show ([c1, c2] ++ stem.drop 2 : Name) =
      [c1] ++ (c2 :: stem.drop 2) from rfl,
      get_append_nondigit _ _ hex] at hstem
    exact hstem
  rw [Bool.not_eq_true] at h14
  simp only [h14, Bool.false_eq_true, if_false] at h
  by_cases h15 : (matchFront rightAllCaps stem).isSome = true
  · simp only [h15, if_true, Prod.mk.injEq] at h
    obtain ⟨hs, ho, hb⟩ := h
    subst ho
    have hstem2 : get_name_numeric_suffix
        (stem.take 5 ++ stem.drop 5) = [] := by
      rw [List.take_append_drop]
      exact hstem
    rw [show strn ("LEFT") = strn ("LEF") ++ ['T'] from by decide]
    exact get_word_front (strn ("LEF")) 'T' (by decide)
      (by decide) (stem.take 5) _ hstem2
  rw [Bool.not_eq_true] at h15
  simp only [h15, Bool.false_eq_true, if_false] at h
  by_cases h16 : (matchFront rightCapitalized stem).isSome = true
  · simp only [h16, if_true, Prod.mk.injEq] at h
    obtain ⟨hs, ho, hb⟩ := h
    subst ho
    have hstem2 : get_name_numeric_suffix
        (stem.take 5 ++ stem.drop 5) = [] := by
      rw [List.take_append_drop]
      exact hstem
    rw [show strn ("Left") = strn ("Lef") ++ ['t'] from by decide]
    exact get_word_front (strn ("Lef")) 't' (by decide)
      (by decide) (stem.take 5) _ hstem2
  rw [Bool.not_eq_true] at h16
  simp only [h16, Bool.false_eq_true, if_false] at h
  by_cases h17 : (matchFront rightLowercase stem).isSome = true
  · simp only [h17, if_true, Prod.mk.injEq] at h
    obtain ⟨hs, ho, hb⟩ := h
    subst ho
    have hstem2 : get_name_numeric_suffix
        (stem.take 5 ++ stem.drop 5) = [] := by
      rw [List.take_append_drop]
      exact hstem
    rw [show strn ("left") = strn ("lef") ++ ['t'] from by decide]
    exact get_word_front (strn ("lef")) 't' (by decide)
      (by decide) (stem.take 5) _ hstem2
  rw [Bool.not_eq_true] at h17
  simp only [h17, Bool.false_eq_true, if_false] at h
  by_cases h18 : (matchFront leftAllCaps stem).isSome = true
  · simp only [h18, if_true, Prod.mk.injEq] at h
    obtain ⟨hs, ho, hb⟩ := h
    subst ho
    have hstem2 : get_name_numeric_suffix
        (stem.take 4 ++ stem.drop 4) = [] := by
      rw [List.take_append_drop]
      exact hstem
    rw [show strn ("RIGHT") = strn ("RIGH") ++ ['T'] from by decide]
    exact get_word_front (strn ("RIGH")) 'T' (by decide)
      (by decide) (stem.take 4) _ hstem2
  rw [Bool.not_eq_true] at h18
  simp only [h18, Bool.false_eq_true, if_false] at h
  by_cases h19 : (matchFront leftCapitalized stem).isSome = true
  · simp only [h19, if_true, Prod.mk.injEq] at h
    obtain ⟨hs, ho, hb⟩ := h
    subst ho
    have hstem2 : get_name_numeric_suffix
        (stem.take 4 ++ stem.drop 4) = [] := by
      rw [List.take_append_drop]
      exact hstem
    rw [show strn ("Right") = strn ("Righ") ++ ['t'] from by decide]
    exact get_word_front (strn ("Righ")) 't' (by decide)
      (by decide) (stem.take 4) _ hstem2
  rw [Bool.not_eq_true] at h19
  simp only [h19, Bool.false_eq_true, if_false] at h
  by_cases h20 : (matchFront leftLowercase stem).isSome = true
  · simp only [h20, if_true, Prod.mk.injEq] at h
    obtain ⟨hs, ho, hb⟩ := h
    subst ho
    have hstem2 : get_name_numeric_suffix
        (stem.take 4 ++ stem.drop 4) = [] := by
      rw [List.take_append_drop]
      exact hstem
    rw [show strn ("right") = strn ("righ") ++ ['t'] from by decide]
    exact get_word_front (strn ("righ")) 't' (by decide)
      (by decide) (stem.take 4) _ hstem2
  rw [Bool.not_eq_true] at h20
  simp only [h20, Bool.false_eq_true, if_false] at h
  simp only [Prod.mk.injEq] at h
  exact Option.noConfusion h.1

/-- C4 (corrected): for every name that `parse_sided_bone_name` classifies
as sided, parsing the derived opposite name succeeds and yields the opposite
polarity — under every supported marker form and case style. The other half
of the original claim, that the opposite's own derived opposite equals the
original input name exactly, is false: non-canonically cased word markers
are rewritten to the canonical casing of their case class
(`C4_roundtrip_name_counterexample`). -/
theorem C4_opposite_side_flips (name : Name) (r : SidedParse)
    (h : parse_sided_bone_name name = some r) :
    ∃ r2, parse_sided_bone_name r.opposite = some r2 ∧
      r2.side = r.side.opposite := by
  unfold parse_sided_bone_name at h
  rcases hps : parse_bone_name_stem
      (dropEnd name (get_name_numeric_suffix name).length) with ⟨os, opp, bil⟩
  cases os with
  | none =>
    simp only [hps] at h
    exact Option.noConfusion h
  | some side =>
    simp only [hps] at h
    injection h with h
    subst h
    obtain ⟨o2, b2, hp2⟩ := parse_stem_opposite_flips _ side opp bil hps
    have hopp : get_name_numeric_suffix name = [] →
        get_name_numeric_suffix opp = [] := by
      intro hz
      have hstem : dropEnd name (get_name_numeric_suffix name).length =
          name := by
        rw [hz]
        exact dropEnd_zero name
      exact parse_stem_opposite_no_sfx _ side opp bil hps
        (by rw [hstem]; exact hz)
    have hsfx : get_name_numeric_suffix
        (opp ++ get_name_numeric_suffix name) =
        get_name_numeric_suffix name := get_restore opp name hopp
    refine ⟨⟨side.opposite, o2 ++ get_name_numeric_suffix name,
      b2 ++ get_name_numeric_suffix name⟩, ?_, rfl⟩
    show parse_sided_bone_name (opp ++ get_name_numeric_suffix name) = _
    unfold parse_sided_bone_name
    simp only [hsfx, dropEnd_append opp (get_name_numeric_suffix name) _ rfl,
      hp2]

/-- C4 counterexample: "LEft" parses as left-sided with derived opposite
"RIGHT", but parsing "RIGHT" derives the opposite "LEFT", which is not the
original name "LEft" — the round trip canonicalizes the marker's casing. -/
theorem C4_roundtrip_name_counterexample :
    parse_sided_bone_name (strn ("LEft")) =
      some ⟨Side.left, strn ("RIGHT"), [mirror_symbol]⟩ ∧
    parse_sided_bone_name (strn ("RIGHT")) =
      some ⟨Side.right, strn ("LEFT"), [mirror_symbol]⟩ ∧
    ¬ strn ("LEFT") = strn ("LEft") := by
  refine ⟨by decide, by decide, by decide⟩

theorem C4_opposite_side_flips_witness :
    parse_sided_bone_name (strn ("Hand.L")) =
      some ⟨Side.left, strn ("Hand.R"), strn ("Hand.↔")⟩ ∧
    ∃ r2, parse_sided_bone_name (strn ("Hand.R")) = some r2 ∧
      r2.side = Side.left.opposite :=
  ⟨by decide,
    C4_opposite_side_flips (strn ("Hand.L"))
      ⟨Side.left, strn ("Hand.R"), strn ("Hand.↔")⟩ (by decide)⟩
